import Mathlib

/-!
Verification development for the wildebeest text-normalization engine
(`wildebeest/wb_normalize.py`).

Python strings are embedded as `List Nat` of Unicode code points (Python
strings may contain lone surrogates such as U+DC93, which are not valid
`Char`s in Lean, so bare code points are used throughout).  Pure pass
functions become Lean functions on `List Nat`; the mutable per-run
dictionaries (`ht`, the look-alike dictionaries) are threaded explicitly.

The mapping-table data files (`*.tsv`, `look-alikes.txt`) are not part of
the source tree; everything derived from them (the data-derived
classification bits, the table-driven mappings, the look-alike table) is
parametrized by an explicit list of table rows, with the row-processing
logic (`update_char_type_vector_dict`, dictionary override order) ported
faithfully from the source.
-/

/-- Embedded text: a Python string as its list of Unicode code points. -/
abbrev Text := List Nat

/-! ## Classification bit constants

Ported from `Wildebeest.__init__` (wb_normalize.py lines 144-246).
Note: in the source, `bit_vector` is reset to `1` (instead of shifted)
after `char_is_deletable_control_character` is assigned, so
`char_is_deletable_control_character` and `char_is_zero_width_character`
share bit 0.  All later constants are therefore one bit lower than a
straightforward reading would suggest; the values below reproduce the
source exactly. -/

def char_is_deletable_control_character : Nat := 1
def char_is_zero_width_character : Nat := 1
def char_is_decomposable_ligature : Nat := 2
def char_is_decomposable_sign_symbol : Nat := 4
def char_is_decomposable_with_combining : Nat := 8
def char_is_composable_anchor_with_combining : Nat := 16
def char_is_composable_combining_diacritic : Nat := 32
def char_is_decomposable_arabic_punctuation : Nat := 64
def char_is_arabic_tatweel : Nat := 128
def char_is_decomposable_cjk_punctuation : Nat := 256
def char_is_decomposable_greek_punctuation : Nat := 512
def char_is_decomposable_misc_f_punctuation : Nat := 1024
def char_is_decomposable_dash : Nat := 2048
def char_is_decomposable_non_zero_space : Nat := 4096
def char_is_decomposable_enclosure : Nat := 8192
def char_is_decomposable_cjk : Nat := 16384
def char_is_mappable_decimal_digit : Nat := 2 ^ 15
def char_is_font_small_vertical : Nat := 2 ^ 16
def char_is_core_compatibility : Nat := 2 ^ 17
def char_is_detachable_from_token : Nat := 2 ^ 18
def char_is_ampersand : Nat := 2 ^ 19
def char_is_semicolon : Nat := 2 ^ 20
def char_is_percent_sign : Nat := 2 ^ 21
def char_is_encoding_repair_anchor : Nat := 2 ^ 22
def char_is_100_plus_block_of_interest : Nat := 2 ^ 23
def char_is_latin : Nat := 2 ^ 24
def char_is_greek : Nat := 2 ^ 25
def char_is_cyrillic : Nat := 2 ^ 26
def char_is_hebrew : Nat := 2 ^ 27
def char_is_deletable_hebrew_diacritic : Nat := 2 ^ 28
def char_is_arabic : Nat := 2 ^ 29
def char_is_arabic_presentation_form : Nat := 2 ^ 30
def char_is_deletable_arabic_diacritic : Nat := 2 ^ 31
def char_is_mappable_in_arabic : Nat := 2 ^ 32
def char_is_mappable_in_farsi : Nat := 2 ^ 33
def char_is_mappable_in_pashto : Nat := 2 ^ 34
def char_is_georgian : Nat := 2 ^ 35
def char_is_thaana_plus : Nat := 2 ^ 36
def char_is_devanagari : Nat := 2 ^ 37
def char_is_bengali_plus : Nat := 2 ^ 38
def char_is_nukta : Nat := 2 ^ 39
def char_is_thai_plus : Nat := 2 ^ 40
def char_is_khmer_plus : Nat := 2 ^ 41
def char_is_lisu_plus : Nat := 2 ^ 42
def char_is_surrogate : Nat := 2 ^ 43
def char_is_fullwidth_or_halfwidth : Nat := 2 ^ 44
def char_is_mappable_hangul : Nat := 2 ^ 45

/-- `inR lo hi c` mirrors membership of `c` in Python `range(lo, hi)`. -/
def inR (lo hi c : Nat) : Bool := lo ≤ c && c < hi

/-- Static classification-bit assignment for one code point: the value the
character would have in `char_type_vector_dict` after
`range_init_char_type_vector_dict` (wb_normalize.py lines 278-433), before
any mapping-table file is loaded.
Note: the Latin block loop includes Python `range(0x2C60, 0x2080)`, which
is empty (start exceeds stop) and is therefore omitted here. -/
def range_init_char_type_vector (c : Nat) : Nat :=
  (if inR 0x0000 0x0009 c || inR 0x000B 0x000D c || inR 0x000E 0x0020 c
      || c == 0x007F || inR 0x0080 0x00A0 c || inR 0xFE00 0xFE10 c
      || inR 0xE0100 0xE01F0 c then char_is_deletable_control_character else 0)
  ||| (if inR 0x200B 0x2010 c || c == 0xFEFF then char_is_zero_width_character else 0)
  ||| (if c == 0x0640 then char_is_arabic_tatweel else 0)
  ||| (if inR 0xDC80 0xDD00 c then char_is_surrogate else 0)
  ||| (if c == 0x0E33 || c == 0x0EB3 || c == 0x0EDC || c == 0x0EDD || c == 0x1E9B
       then char_is_decomposable_ligature else 0)
  ||| (if c == 0x00AD || inR 0x2010 0x2016 c || c == 0x2212 || c == 0x2500
      || c == 0x2501 || c == 0x2E3A || c == 0x2E3B || c == 0xFE31 || c == 0xFE32
      || c == 0xFE58 || c == 0xFE63 || c == 0xFF0D
       then char_is_decomposable_dash else 0)
  ||| (if inR 0x2000 0x200B c || c == 0x00A0 || c == 0x202F || c == 0x205F
      || c == 0x3000 then char_is_decomposable_non_zero_space else 0)
  ||| (if inR 0x30 0x3A c || c == 0x2D || c == 0x5F || c == 0x2B || c == 0x2A
      || c == 0x7C || c == 0x25 then char_is_detachable_from_token else 0)
  ||| (if c == 0x26 then char_is_ampersand else 0)
  ||| (if c == 0x3B then char_is_semicolon else 0)
  ||| (if c == 0x25 then char_is_percent_sign else 0)
  ||| (if inR 0xFF01 0xFFEF c then char_is_fullwidth_or_halfwidth else 0)
  ||| (if inR 0x0041 0x005B c || inR 0x0061 0x007B c || inR 0x00C0 0x00D7 c
      || inR 0x00D8 0x00F7 c || inR 0x00F8 0x02B0 c || inR 0xA720 0xA800 c
      || inR 0xAB30 0xAB70 c then char_is_latin else 0)
  ||| (if inR 0x0370 0x0400 c || inR 0x1F00 0x2000 c then char_is_greek else 0)
  ||| (if inR 0x0400 0x0530 c || inR 0x1C80 0x1C90 c || inR 0x2DE0 0x2E00 c
      || inR 0xA640 0xA6A0 c then char_is_cyrillic else 0)
  ||| (if inR 0x0590 0x0600 c || inR 0xFB1D 0xFB50 c then char_is_hebrew else 0)
  ||| (if inR 0x05B0 0x05BE c || c == 0x05BF || c == 0x05C1 || c == 0x05C2
      || c == 0x05C7 then char_is_deletable_hebrew_diacritic else 0)
  ||| (if inR 0x0600 0x0700 c || inR 0x0750 0x0780 c || inR 0x08A0 0x0900 c
       then char_is_arabic else 0)
  ||| (if inR 0xFB50 0xFE00 c || inR 0xFE70 0xFEFF c
       then char_is_arabic ||| char_is_arabic_presentation_form else 0)
  ||| (if inR 0x064B 0x0653 c then char_is_deletable_arabic_diacritic else 0)
  ||| (if c == 0x06A9 || c == 0x06CC || c == 0x0675 || c == 0x0676 || c == 0x0678
      || c == 0x067C || c == 0x0689 || c == 0x0693 || c == 0x06AB || c == 0x06BC
      || c == 0x06CD then char_is_mappable_in_arabic else 0)
  ||| (if c == 0x064A || c == 0x0649 || c == 0x06CD || c == 0x0643 || c == 0x06AB
      || c == 0x067C || c == 0x0689 || c == 0x0693 || c == 0x06BC
       then char_is_mappable_in_farsi else 0)
  ||| (if c == 0x0649 || c == 0x06CD || c == 0x0643 then char_is_mappable_in_pashto else 0)
  ||| (if inR 0x10A0 0x10FF c || inR 0x1C90 0x1CBF c || inR 0x2D00 0x2D2F c
       then char_is_georgian else 0)
  ||| (if inR 0x0780 0x08A0 c then char_is_thaana_plus else 0)
  ||| (if inR 0x0900 0x0980 c || inR 0xA8E0 0xA900 c then char_is_devanagari else 0)
  ||| (if inR 0x0980 0x0E00 c then char_is_bengali_plus else 0)
  ||| (if c == 0x093C || c == 0x09BC || c == 0x0A3C || c == 0x0ABC || c == 0x0B3C
      || c == 0x0CBC || c == 0x1C37 || c == 0x110BA || c == 0x11173 || c == 0x111CA
      || c == 0x11236 || c == 0x112E9 || c == 0x1133C || c == 0x11446 || c == 0x114C3
      || c == 0x115C0 || c == 0x116B7 || c == 0x1183A || c == 0x11943 || c == 0x11D42
      || c == 0x1E94A
       then char_is_nukta ||| (if 0x10000 ≤ c then char_is_100_plus_block_of_interest else 0)
       else 0)
  ||| (if inR 0x0E00 0x1100 c then char_is_thai_plus else 0)
  ||| (if inR 0x1161 0x1176 c then char_is_mappable_hangul else 0)
  ||| (if inR 0x1780 0x1AB0 c || inR 0x1B00 0x1C80 c || inR 0x1CC0 0x1CD0 c
       then char_is_khmer_plus else 0)
  ||| (if inR 0xA4D0 0xA630 c || inR 0xA6A0 0xA700 c || inR 0xA800 0xA830 c
      || inR 0xA840 0xA8E0 c || inR 0xA900 0xA960 c || inR 0xA980 0xA9E0 c
      || inR 0xAA00 0xAA60 c || inR 0xAA80 0xAB00 c then char_is_lisu_plus else 0)

/-! ## Mapping-table rows and data-derived classification bits -/

/-- Which mapping-table file a row came from (`filename_core` in the source). -/
inductive TableCore where
  | pythonWildebeest
  | arabicPresForm
  | cjkCompat
  | combiningModifier
  | coreCompat
  | digit
  | enclosure
  | encodingRepair
  | fontSmallVertical
deriving DecidableEq, Repr

/-- One record of a mapping-table data file: `MapFromString` → `MapToString`,
tagged with the file it came from.  The `.tsv` data files are not in the
source tree, so table contents are a parameter of the development; the
processing of a row is ported from the source. -/
structure DataRow where
  source : Text
  target : Text
  core : TableCore
deriving DecidableEq, Repr

/-- The classification bits a single loaded table row contributes to the
code point `c`, per `update_char_type_vector_dict` (lines 473-532).
The Python function keys `char_type_vector_dict` by the `source` string
(or by `source[0]` for Enclosure/EncodingRepair, and by `source[0]` /
`source[1]` for 2-character CombiningModifier rows); since `set_lv` looks
up single characters only, a multi-character string key can never be hit,
which is captured by requiring `source = [c]` in those cases.
Rows from the ArabicPresentationForm table contribute no bits (no branch
for it in the source). -/
def data_row_bits (r : DataRow) (c : Nat) : Nat :=
  match r.core with
  | .digit =>
      if r.source = [c] then
        char_is_mappable_decimal_digit
          ||| (if 0x10000 ≤ c then char_is_100_plus_block_of_interest else 0)
      else 0
  | .fontSmallVertical => if r.source = [c] then char_is_font_small_vertical else 0
  | .coreCompat => if r.source = [c] then char_is_core_compatibility else 0
  | .cjkCompat => if r.source = [c] then char_is_decomposable_cjk else 0
  | .pythonWildebeest =>
      if r.source = [c] then
        if (0x0132 ≤ c && c ≤ 0x01F3) || (0xFB00 ≤ c && c ≤ 0xFB4F) then
          char_is_decomposable_ligature
        else if c == 0x00B5 || (0x03D0 ≤ c && c ≤ 0x03F9) || (0x20A8 ≤ c && c ≤ 0x213B) then
          char_is_decomposable_sign_symbol
        else if 0x0340 ≤ c && c ≤ 0x0387 then
          char_is_decomposable_greek_punctuation
        else if 0x060C ≤ c && c ≤ 0x06D4 then
          char_is_decomposable_arabic_punctuation
        else if (0x3008 ≤ c && c ≤ 0x3011) || (0x3014 ≤ c && c ≤ 0x301B)
            || (0xFF61 ≤ c && c ≤ 0xFF64)
            || c == 0x3001 || c == 0x3002 || c == 0xFE11 || c == 0xFE12 || c == 0xFE51 then
          char_is_decomposable_cjk_punctuation
        else if c == 0x0F0C then
          char_is_decomposable_misc_f_punctuation
        else 0
      else 0
  | .enclosure => if r.source.head? = some c then char_is_decomposable_enclosure else 0
  | .encodingRepair => if r.source.head? = some c then char_is_encoding_repair_anchor else 0
  | .combiningModifier =>
      (if r.source = [c] then char_is_decomposable_with_combining else 0)
        ||| (if 2 ≤ r.source.length ∧ r.target.length = 1 then
               (if r.source.head? = some c then char_is_composable_anchor_with_combining else 0)
                 ||| (if r.source[1]? = some c then char_is_composable_combining_diacritic else 0)
             else 0)
  | .arabicPresForm => 0

/-- Data-derived classification bits: OR of the contributions of all
loaded table rows (`init_mapping_dict` feeding
`update_char_type_vector_dict`). -/
def data_bits (rows : List DataRow) (c : Nat) : Nat :=
  rows.foldl (fun acc r => acc ||| data_row_bits r c) 0

/-- `char_type_vector_dict.get(char, 0)`: static range bits plus bits
derived from the loaded mapping tables. -/
def char_type_vector (rows : List DataRow) (c : Nat) : Nat :=
  range_init_char_type_vector c ||| data_bits rows c

/-- `set_lv` (lines 1351-1360): the line classification vector is the
bitwise OR of the per-character vectors. -/
def set_lv (rows : List DataRow) (s : Text) : Nat :=
  s.foldl (fun acc c => acc ||| char_type_vector rows c) 0

/-! ## The mapping dictionary -/

/-- `spec_windows1252_to_utf8_dict` (lines 107-140): the irregular
Windows-1252 → UTF-8 mappings, keyed here by the byte value 0x80-0x9F. -/
def spec_windows1252_to_utf8 (i : Nat) : Option Nat :=
  if i = 0x80 then some 0x20AC
  else if i = 0x82 then some 0x201A
  else if i = 0x83 then some 0x0192
  else if i = 0x84 then some 0x201E
  else if i = 0x85 then some 0x2026
  else if i = 0x86 then some 0x2020
  else if i = 0x87 then some 0x2021
  else if i = 0x88 then some 0x02C6
  else if i = 0x89 then some 0x2030
  else if i = 0x8A then some 0x0160
  else if i = 0x8B then some 0x2039
  else if i = 0x8C then some 0x0152
  else if i = 0x8E then some 0x017D
  else if i = 0x91 then some 0x2018
  else if i = 0x92 then some 0x2019
  else if i = 0x93 then some 0x201C
  else if i = 0x94 then some 0x201D
  else if i = 0x95 then some 0x2022
  else if i = 0x96 then some 0x2013
  else if i = 0x97 then some 0x2014
  else if i = 0x98 then some 0x02DC
  else if i = 0x99 then some 0x2122
  else if i = 0x9A then some 0x0161
  else if i = 0x9B then some 0x203A
  else if i = 0x9C then some 0x0153
  else if i = 0x9E then some 0x017E
  else if i = 0x9F then some 0x0178
  else none

/-- The hard-coded part of `init_mapping_dict` (lines 538-551): surrogate
characters U+DC80-U+DCFF map to Windows-1252 repairs (0x80-0x9F, empty
target for unassigned bytes) or Latin-1 characters (0xA0-0xFF). -/
def hard_mapping_lookup (key : Text) : Option Text :=
  match key with
  | [k] =>
      if 0xDC80 ≤ k && k < 0xDCA0 then
        some (match spec_windows1252_to_utf8 (k - 0xDC00) with
              | some t => [t]
              | none => [])
      else if 0xDCA0 ≤ k && k < 0xDD00 then some [k - 0xDC00]
      else none
  | _ => none

/-- `mapping_dict` lookup.  The hard-coded surrogate entries are written
first and the tsv rows afterwards (in file order), each assignment
overwriting earlier ones with the same key; hence the last matching row
wins, and the hard-coded entry applies only if no row has the key. -/
def mapping_lookup (rows : List DataRow) (key : Text) : Option Text :=
  match rows.reverse.find? (fun r => r.source = key) with
  | some r => some r.target
  | none => hard_mapping_lookup key

/-- `apply_mapping_dict` (lines 579-585): replace a matched substring by
its mapping-dictionary entry; a substring with no entry is unchanged. -/
def apply_mapping (rows : List DataRow) (m : Text) : Text :=
  (mapping_lookup rows m).getD m

/-! ## Generic string operations

Python `str.replace` and the single-character-class forms of `re.sub`
used throughout the pass library. -/

/-- `re.sub` with a single-character-class pattern: each character in the
class is independently replaced by `f c` (matches are single characters,
so they can never overlap). -/
def sub_char_class (cls : Nat → Bool) (f : Nat → Text) (s : Text) : Text :=
  s.flatMap (fun c => if cls c then f c else [c])

/-- `re.sub(class, apply_mapping_dict, s)`. -/
def sub_class_dict (rows : List DataRow) (cls : Nat → Bool) (s : Text) : Text :=
  sub_char_class cls (fun c => apply_mapping rows [c]) s

/-- `re.sub(class, fixed, s)`. -/
def sub_class_str (cls : Nat → Bool) (t : Text) (s : Text) : Text :=
  sub_char_class cls (fun _ => t) s

/-- Python `s.replace(pat, t)`: leftmost non-overlapping occurrences of
`pat` are replaced by `t` (patterns in the source are never empty).
Structural recursion on a fuel argument so that the kernel can evaluate
the function; each step consumes at least one character, so a fuel of
`s.length` is always sufficient. -/
def py_replace_go (pat t : Text) : Nat → Text → Text
  | 0, s => s
  | _ + 1, [] => []
  | fuel + 1, c :: rest =>
      if pat ≠ [] ∧ pat.isPrefixOf (c :: rest) then
        t ++ py_replace_go pat t fuel ((c :: rest).drop pat.length)
      else
        c :: py_replace_go pat t fuel rest

def py_replace (pat t : Text) (s : Text) : Text :=
  py_replace_go pat t s.length s

/-- `s.replace(a, t)` for a single-character pattern `a`. -/
def replace1 (a : Nat) (t : Text) (s : Text) : Text :=
  py_replace [a] t s

/-- `re.sub(lead-class + follow-class, apply_mapping_dict, s)`:
two-character patterns, leftmost non-overlapping. -/
def sub_seq2_dict (rows : List DataRow) (cls1 cls2 : Nat → Bool) : Text → Text
  | [] => []
  | [x] => [x]
  | x :: y :: rest =>
      if cls1 x && cls2 y then
        apply_mapping rows [x, y] ++ sub_seq2_dict rows cls1 cls2 rest
      else
        x :: sub_seq2_dict rows cls1 cls2 (y :: rest)

/-- Three-character patterns (`â` + two continuation bytes). -/
def sub_seq3_dict (rows : List DataRow) (cls1 cls2 cls3 : Nat → Bool) : Text → Text
  | [] => []
  | [x] => [x]
  | [x, y] => [x, y]
  | x :: y :: z :: rest =>
      if cls1 x && cls2 y && cls3 z then
        apply_mapping rows [x, y, z] ++ sub_seq3_dict rows cls1 cls2 cls3 rest
      else
        x :: sub_seq3_dict rows cls1 cls2 cls3 (y :: z :: rest)

/-- `re.sub(r'.X', apply_mapping_dict, s)` where `X` is a combining-class:
any character other than newline followed by one class character. -/
def sub_dot1_dict (rows : List DataRow) (cls : Nat → Bool) : Text → Text
  | [] => []
  | [x] => [x]
  | x :: y :: rest =>
      if x ≠ 0x0A && cls y then
        apply_mapping rows [x, y] ++ sub_dot1_dict rows cls rest
      else
        x :: sub_dot1_dict rows cls (y :: rest)

/-- `re.sub(r'.X{2}', apply_mapping_dict, s)`. -/
def sub_dot2_dict (rows : List DataRow) (cls : Nat → Bool) : Text → Text
  | [] => []
  | [x] => [x]
  | [x, y] => [x, y]
  | x :: y :: z :: rest =>
      if x ≠ 0x0A && cls y && cls z then
        apply_mapping rows [x, y, z] ++ sub_dot2_dict rows cls rest
      else
        x :: sub_dot2_dict rows cls (y :: z :: rest)

/-- `re.sub(r'.X{3}', apply_mapping_dict, s)`. -/
def sub_dot3_dict (rows : List DataRow) (cls : Nat → Bool) : Text → Text
  | [] => []
  | [x] => [x]
  | [x, y] => [x, y]
  | [x, y, z] => [x, y, z]
  | x :: y :: z :: w :: rest =>
      if x ≠ 0x0A && cls y && cls z && cls w then
        apply_mapping rows [x, y, z, w] ++ sub_dot3_dict rows cls rest
      else
        x :: sub_dot3_dict rows cls (y :: z :: w :: rest)

/-! ## Normalization pass library -/

/-- `repair_encoding_errors` (lines 588-600): surrogates, double-converted
UTF-8 sequences and stray C1 bytes are mapped through the mapping
dictionary. -/
def repair_encoding_errors (rows : List DataRow) (s : Text) : Text :=
  let s := sub_class_dict rows (fun c => inR 0xDC80 0xDD00 c) s
  let s := sub_seq3_dict rows (fun c => c == 0xE2)
      (fun c => inR 0x80 0xC0 c) (fun c => inR 0x80 0xC0 c) s
  let s := sub_seq2_dict rows
      (fun c => c == 0xC2 || c == 0xC3 || c == 0xC5 || c == 0xC6 || c == 0xCB)
      (fun c => inR 0x80 0x300 c || inR 0x2000 0x2200 c) s
  sub_class_dict rows (fun c => inR 0x80 0xA0 c) s

/-- `delete_surrogates` (lines 603-606). -/
def delete_surrogates (s : Text) : Text :=
  sub_class_str (fun c => inR 0xDC80 0xDD00 c) [] s

/-- `delete_zero_width_characters` (lines 608-615): soft hyphen,
zero-width/joiner/direction marks, byte order mark. -/
def delete_zero_width_characters (s : Text) : Text :=
  let s := replace1 0x00AD [] s
  let s := sub_class_str (fun c => inR 0x200B 0x2010 c) [] s
  replace1 0xFEFF [] s

/-- `delete_arabic_tatweel` (lines 617-621). -/
def delete_arabic_tatweel (s : Text) : Text :=
  replace1 0x0640 [] s

/-- Variation-selector deletion with a lookbehind: a variation selector
is removed when the preceding character of the input lies in
U+0000-U+218F.  `prev` carries the previous character of the input
string (lookbehinds inspect the input, not the output). -/
def delete_vs_after (cls : Nat → Bool) (prev : Option Nat) : Text → Text
  | [] => []
  | c :: rest =>
      if cls c && (match prev with | some p => decide (p ≤ 0x218F) | none => false) then
        delete_vs_after cls (some c) rest
      else
        c :: delete_vs_after cls (some c) rest

/-- `delete_control_characters` (lines 623-634): C0/C1 controls except
tab, linefeed and CR; variation selectors after ordinary characters. -/
def delete_control_characters (s : Text) : Text :=
  let s := sub_class_str (fun c => inR 0x00 0x09 c) [] s
  let s := sub_class_str (fun c => inR 0x0B 0x0D c) [] s
  let s := sub_class_str (fun c => inR 0x0E 0x20 c) [] s
  let s := sub_class_str (fun c => inR 0x7F 0xA0 c) [] s
  let s := delete_vs_after (fun c => inR 0xFE00 0xFE10 c) none s
  delete_vs_after (fun c => inR 0xE0100 0xE01F0 c) none s

/-- `delete_arabic_diacritics` (lines 636-646). -/
def delete_arabic_diacritics (s : Text) : Text :=
  [0x64B, 0x64C, 0x64D, 0x64E, 0x64F, 0x650, 0x651, 0x652].foldl
    (fun s c => replace1 c [] s) s

/-- `delete_hebrew_diacritics` (lines 648-668). -/
def delete_hebrew_diacritics (s : Text) : Text :=
  [0x5B0, 0x5B1, 0x5B2, 0x5B3, 0x5B4, 0x5B5, 0x5B6, 0x5B7, 0x5B8, 0x5B9,
   0x5BA, 0x5BB, 0x5BC, 0x5BD, 0x5BF, 0x5C1, 0x5C2, 0x5C7].foldl
    (fun s c => replace1 c [] s) s

/-- `normalize_arabic_characters` (lines 671-689). -/
def normalize_arabic_characters (s : Text) : Text :=
  let s := replace1 0x6A9 [0x643] s
  let s := replace1 0x6CC [0x64A] s
  let s := replace1 0x675 [0x623] s
  let s := replace1 0x676 [0x624] s
  let s := replace1 0x678 [0x626] s
  let s := replace1 0x67C [0x62A] s
  let s := replace1 0x689 [0x62F] s
  let s := replace1 0x693 [0x631] s
  let s := replace1 0x6AB [0x6AF] s
  let s := replace1 0x6BC [0x646] s
  replace1 0x6CD [0x64A] s

/-- `normalize_farsi_characters` (lines 692-705). -/
def normalize_farsi_characters (s : Text) : Text :=
  let s := replace1 0x64A [0x6CC] s
  let s := replace1 0x649 [0x6CC] s
  let s := replace1 0x6CD [0x6CC] s
  let s := replace1 0x643 [0x6A9] s
  let s := replace1 0x6AB [0x6AF] s
  let s := replace1 0x67C [0x62A] s
  let s := replace1 0x689 [0x62F] s
  let s := replace1 0x693 [0x631] s
  let s := replace1 0x6BC [0x646] s
  replace1 0x6CD [0x64A] s

/-- `normalize_pashto_characters` (lines 707-713). -/
def normalize_pashto_characters (s : Text) : Text :=
  let s := replace1 0x649 [0x6CC] s
  let s := replace1 0x6CD [0x6CC] s
  replace1 0x643 [0x6A9] s

/-- `georgian_trantab` (lines 260-262): the `str.maketrans` table from
`georgian_intab`/`georgian_outtab`, as an association list.
Mtavruli 0x1C90-0x1CBA and 0x1CBD-0x1CBF, Asomtavruli 0x10A0-0x10C5 plus
0x10C7/0x10CD, and Nuskhuri 0x2D00-0x2D25 plus 0x2D27/0x2D2D all map onto
Mkhedruli 0x10D0-0x10FF at the corresponding offsets. -/
def georgian_trantab_pairs : List (Nat × Nat) :=
  ((List.range 43).map (fun i => (0x1C90 + i, 0x10D0 + i)))
  ++ [(0x1CBD, 0x10FD), (0x1CBE, 0x10FE), (0x1CBF, 0x10FF)]
  ++ ((List.range 38).map (fun i => (0x10A0 + i, 0x10D0 + i)))
  ++ [(0x10C7, 0x10F7), (0x10CD, 0x10FD)]
  ++ ((List.range 38).map (fun i => (0x2D00 + i, 0x10D0 + i)))
  ++ [(0x2D27, 0x10F7), (0x2D2D, 0x10FD)]

/-- `normalize_georgian_characters` (lines 715-723).  The five final
`str.replace` literals in the source file are mojibake (the file's
Georgian literals were corrupted by a Mac-Roman decode): the patterns are
literally the 3-character sequences below, which is what the code
compares against. -/
def normalize_georgian_characters (s : Text) : Text :=
  let s := s.map (fun c => match georgian_trantab_pairs.find? (fun p => p.1 = c) with
                           | some p => p.2
                           | none => c)
  let s := py_replace [0xB7, 0xC9, 0xB1] [0xB7, 0xC9, 0xEE] s
  let s := py_replace [0xB7, 0xC9, 0x2264] [0xB7, 0xC9, 0xF2] s
  let s := py_replace [0xB7, 0xC9, 0x2265] [0xB7, 0xC9, 0xEF, 0xB7, 0xC9, 0xF2] s
  let s := py_replace [0xB7, 0xC9, 0xA5] [0xB7, 0xC9, 0xC6, 0xB7, 0xC9, 0xEE] s
  py_replace [0xB7, 0xC9, 0xB5] [0xB7, 0xC9, 0x221E, 0xB7, 0xC9, 0xF9, 0xB7, 0xC9, 0xF2] s

/-- `normalize_arabic_pres_form_characters` (lines 726-729). -/
def normalize_arabic_pres_form_characters (rows : List DataRow) (s : Text) : Text :=
  sub_class_dict rows (fun c => inR 0xFB50 0xFE00 c || inR 0xFE70 0xFEFD c) s

/-- `normalize_ligatures` (lines 732-768). -/
def normalize_ligatures (s : Text) : Text :=
  [([0x0132], [0x49, 0x4A]), ([0x0133], [0x69, 0x6A]),
   ([0x013F], [0x4C, 0xB7]), ([0x0140], [0x6C, 0xB7]),
   ([0x0149], [0x2BC, 0x6E]), ([0x017F], [0x73]),
   ([0x01C4], [0x44, 0x17D]), ([0x01C5], [0x44, 0x17E]), ([0x01C6], [0x64, 0x17E]),
   ([0x01C7], [0x4C, 0x4A]), ([0x01C8], [0x4C, 0x6A]), ([0x01C9], [0x6C, 0x6A]),
   ([0x01CA], [0x4E, 0x4A]), ([0x01CB], [0x4E, 0x6A]), ([0x01CC], [0x6E, 0x6A]),
   ([0x01F1], [0x44, 0x5A]), ([0x01F2], [0x44, 0x7A]), ([0x01F3], [0x64, 0x7A]),
   ([0x1E9B], [0x1E61]),
   ([0xFB00], [0x66, 0x66]), ([0xFB01], [0x66, 0x69]), ([0xFB02], [0x66, 0x6C]),
   ([0xFB03], [0x66, 0x66, 0x69]), ([0xFB04], [0x66, 0x66, 0x6C]),
   ([0xFB05], [0x73, 0x74]), ([0xFB06], [0x73, 0x74]),
   ([0xFB13], [0x574, 0x576]), ([0xFB14], [0x574, 0x565]), ([0xFB15], [0x574, 0x56B]),
   ([0xFB16], [0x57E, 0x576]), ([0xFB17], [0x574, 0x56D]),
   ([0xFB49], [0x5E9, 0x5BC]), ([0xFB4F], [0x5D0, 0x5DC])].foldl
    (fun s p => py_replace p.1 p.2 s) s

/-- `normalize_signs_and_symbols` (lines 770-799). -/
def normalize_signs_and_symbols (s : Text) : Text :=
  [([0x00B5], [0x3BC]), ([0x03D0], [0x3B2]), ([0x03D1], [0x3B8]),
   ([0x03D2], [0x3A5]), ([0x03D3], [0x38E]), ([0x03D4], [0x3AB]),
   ([0x03D5], [0x3C6]), ([0x03D6], [0x3C0]), ([0x03F0], [0x3BA]),
   ([0x03F1], [0x3C1]), ([0x03F2], [0x3C2]), ([0x03F4], [0x398]),
   ([0x03F5], [0x3B5]), ([0x03F9], [0x3A3]),
   ([0x20A8], [0x52, 0x73]), ([0x2103], [0xB0, 0x43]), ([0x2107], [0x190]),
   ([0x2109], [0xB0, 0x46]), ([0x2116], [0x4E, 0x6F, 0x2E]), ([0x2126], [0x3A9]),
   ([0x212A], [0x4B]), ([0x212B], [0xC5]), ([0x2135], [0x5D0]),
   ([0x2136], [0x5D1]), ([0x2137], [0x5D2]), ([0x2138], [0x5D3]),
   ([0x213B], [0x46, 0x41, 0x58])].foldl
    (fun s p => py_replace p.1 p.2 s) s

/-- `normalize_cjk` (lines 801-805). -/
def normalize_cjk (rows : List DataRow) (s : Text) : Text :=
  let s := sub_class_dict rows (fun c => inR 0x2F00 0x2FE0 c || inR 0x3038 0x303B c
      || c == 0x3250 || inR 0x32C0 0x3400 c || inR 0xF900 0xFB00 c) s
  sub_class_dict rows (fun c => c == 0x1F190 || c == 0x1F200 || inR 0x2F800 0x2FA20 c) s

/-- The combining-modifier character class of
`apply_combining_modifiers_compose` (general combining diacritics,
Arabic madda/hamza marks, Japanese voicing marks). -/
def compose_combining_class (c : Nat) : Bool :=
  inR 0x300 0x370 c || inR 0x653 0x656 c || c == 0x3099 || c == 0x309A

/-- The South-Asian combining class of the second block of
`apply_combining_modifiers_compose`. -/
def compose_south_asian_class (c : Nat) : Bool :=
  c == 0x93C || inR 0x9BE 0x102F c || c == 0x1B35 || inR 0x11000 0x11600 c

/-- `apply_combining_modifiers_compose` (lines 807-828): compose base
characters with up to three following combining marks through the
mapping dictionary; the Armenian ech-yiwn pair is recomposed by a
hard-coded replace. -/
def apply_combining_modifiers_compose (rows : List DataRow) (s : Text) : Text :=
  let s :=
    if s.any compose_combining_class then
      let s := sub_dot3_dict rows compose_combining_class s
      let s := sub_dot2_dict rows compose_combining_class s
      sub_dot1_dict rows compose_combining_class s
    else s
  let s :=
    if s.any compose_south_asian_class then
      sub_dot1_dict rows compose_south_asian_class s
    else s
  py_replace [0x565, 0x582] [0x587] s

/-- `apply_combining_modifiers_decompose` (lines 830-839). -/
def apply_combining_modifiers_decompose (rows : List DataRow) (s : Text) : Text :=
  let cls1 := fun c => c == 0x344 || inR 0x958 0x960 c || inR 0x9DC 0xB5E c
      || inR 0xF43 0xFBA c || c == 0x2ADC || inR 0xFB1D 0xFB4F c
  let s := if s.any cls1 then sub_class_dict rows cls1 s else s
  let cls2 := fun c => inR 0x1D100 0x1D200 c
  if s.any cls2 then sub_class_dict rows cls2 s else s

/-- `hangul_jamo_triple_to_syllable` (lines 841-857).  The source asserts
the jamo ranges; the assertion is modelled by `Option`: `none` represents
a raised `AssertionError`, `some` the composed syllable.
A missing trailing jamo is `none`-argument (`trailing = Option.none`). -/
def hangul_jamo_triple_to_syllable (leading vowel : Nat) (trailing : Option Nat) :
    Option Nat :=
  if inR 0x1100 0x1113 leading && inR 0x1161 0x1176 vowel
      && (match trailing with | none => true | some t => inR 0x11A8 0x11C3 t) then
    let leading_index := leading - 0x1100
    let vowel_index := vowel - 0x1161
    let trailing_index := match trailing with | none => 0 | some t => t - 0x11A7
    some (leading_index * 588 + vowel_index * 28 + trailing_index + 0xAC00)
  else
    none

/-- The scanner of `normalize_hangul` (lines 862-867): leftmost
non-overlapping matches of a leading jamo followed by a vowel jamo and an
optional trailing jamo, each composed into one syllable. -/
def normalize_hangul_scan : Text → Text
  | [] => []
  | [x] => [x]
  | [l, v] =>
      if inR 0x1100 0x1113 l && inR 0x1161 0x1176 v then
        [(hangul_jamo_triple_to_syllable l v none).getD 0]
      else
        l :: normalize_hangul_scan [v]
  | l :: v :: t :: rest =>
      if inR 0x1100 0x1113 l && inR 0x1161 0x1176 v then
        if inR 0x11A8 0x11C3 t then
          ((hangul_jamo_triple_to_syllable l v (some t)).getD 0) :: normalize_hangul_scan rest
        else
          ((hangul_jamo_triple_to_syllable l v none).getD 0) :: normalize_hangul_scan (t :: rest)
      else
        l :: normalize_hangul_scan (v :: t :: rest)

/-- `normalize_hangul` (lines 862-867): guarded by the presence of a
vowel jamo. -/
def normalize_hangul (s : Text) : Text :=
  if s.any (fun c => inR 0x1161 0x1176 c) then normalize_hangul_scan s else s

theorem dropWhile_len_le (p : Nat → Bool) (l : List Nat) :
    (l.dropWhile p).length ≤ l.length := by
  induction l with
  | nil => simp [List.dropWhile]
  | cons c rest ih =>
      simp only [List.dropWhile]
      cases p c
      · simp
      · simpa using Nat.le_succ_of_le ih

/-- `re.sub(r'(VS)(NK+)', r'\2\1', s)`: an Indic vowel-sign followed by a
(greedy, maximal) run of nukta characters has the run moved before it;
scanning resumes after the match. -/
def swap_vs_nukta_run_go (vs : Nat → Bool) (nk : Nat) : Nat → Text → Text
  | 0, s => s
  | _ + 1, [] => []
  | fuel + 1, c :: rest =>
      if vs c ∧ rest.head? = some nk then
        rest.takeWhile (fun x => x = nk) ++ c ::
          swap_vs_nukta_run_go vs nk fuel (rest.dropWhile (fun x => x = nk))
      else
        c :: swap_vs_nukta_run_go vs nk fuel rest

def swap_vs_nukta_run (vs : Nat → Bool) (nk : Nat) (s : Text) : Text :=
  swap_vs_nukta_run_go vs nk s.length s

/-- `re.sub(r'(VS)(NK)', r'\2\1', s)`: single vowel-sign/nukta swap (the
patterns for Lepcha and the supplementary-plane scripts have no `+`). -/
def swap_pair (cls1 cls2 : Nat → Bool) : Text → Text
  | [] => []
  | [x] => [x]
  | x :: y :: rest =>
      if cls1 x && cls2 y then
        y :: x :: swap_pair cls1 cls2 rest
      else
        x :: swap_pair cls1 cls2 (y :: rest)

/-- `re.sub(r'(NK)NK+', r'\1', s)`: each maximal run of two or more
copies of `k` collapses to a single `k`. -/
def collapse_dup_go (k : Nat) : Nat → Text → Text
  | 0, s => s
  | _ + 1, [] => []
  | fuel + 1, c :: rest =>
      if c = k ∧ rest.head? = some k then
        c :: collapse_dup_go k fuel (rest.dropWhile (fun x => x = k))
      else
        c :: collapse_dup_go k fuel rest

def collapse_dup (k : Nat) (s : Text) : Text :=
  collapse_dup_go k s.length s

/-- `repair_combining_modifiers_with_nukta` (lines 869-902); the branches
are gated by script bits of the line vector `lv`. -/
def repair_combining_modifiers_with_nukta (lv : Nat) (s : Text) : Text :=
  let s :=
    if lv &&& char_is_devanagari ≠ 0 then
      let s := swap_vs_nukta_run (fun c => inR 0x93E 0x94E c) 0x93C s
      collapse_dup 0x93C s
    else s
  let s :=
    if lv &&& char_is_bengali_plus ≠ 0 then
      let s := swap_vs_nukta_run (fun c => inR 0x9BE 0x9CE c) 0x9BC s
      let s := swap_vs_nukta_run (fun c => inR 0xA3E 0xA4E c) 0xA3C s
      let s := swap_vs_nukta_run (fun c => inR 0xABE 0xACE c) 0xABC s
      let s := swap_vs_nukta_run (fun c => inR 0xB3E 0xB4E c) 0xB3C s
      let s := swap_vs_nukta_run (fun c => inR 0xCBE 0xCCE c) 0xCBC s
      let s := collapse_dup 0x9BC s
      let s := collapse_dup 0xA3C s
      let s := collapse_dup 0xABC s
      let s := collapse_dup 0xB3C s
      collapse_dup 0xCBC s
    else s
  let s :=
    if lv &&& char_is_khmer_plus ≠ 0 then
      swap_pair (fun c => inR 0x1C26 0x1C2D c) (fun c => c == 0x1C37) s
    else s
  if lv &&& char_is_100_plus_block_of_interest ≠ 0 then
    let s := swap_pair (fun c => inR 0x110B0 0x110B9 c) (fun c => c == 0x110BA) s
    let s := swap_pair (fun c => inR 0x111B3 0x111C1 c) (fun c => c == 0x111CA) s
    let s := swap_pair (fun c => inR 0x1122C 0x11236 c) (fun c => c == 0x11236) s
    let s := swap_pair (fun c => inR 0x112E0 0x112E9 c || c == 0x112EA) (fun c => c == 0x112E9) s
    let s := swap_pair (fun c => inR 0x1133E 0x1134E c) (fun c => c == 0x1133C) s
    let s := swap_pair (fun c => inR 0x11435 0x11443 c) (fun c => c == 0x11446) s
    let s := swap_pair (fun c => inR 0x114B0 0x114C3 c) (fun c => c == 0x114C3) s
    let s := swap_pair (fun c => inR 0x115AF 0x115C0 c) (fun c => c == 0x115C0) s
    let s := swap_pair (fun c => inR 0x116AD 0x116B7 c) (fun c => c == 0x116B7) s
    let s := swap_pair (fun c => inR 0x1182C 0x1183A c) (fun c => c == 0x1183A) s
    let s := swap_pair (fun c => inR 0x11930 0x1193F c) (fun c => c == 0x11943) s
    swap_pair (fun c => inR 0x11D31 0x11D40 c || c == 0x11D45) (fun c => c == 0x11D42) s
  else s

/-- `normalize_arabic_punctuation` (lines 934-946). -/
def normalize_arabic_punctuation (s : Text) : Text :=
  [([0x640], ([] : Text)), ([0x60C], [0x2C]), ([0x60D], [0x2F]), ([0x61B], [0x3B]),
   ([0x61F], [0x3F]), ([0x66A], [0x25]), ([0x66B], [0x2E]), ([0x66C], [0x2C]),
   ([0x66D], [0x2A]), ([0x6D4], [0x2E])].foldl (fun s p => py_replace p.1 p.2 s) s

/-- `normalize_greek_punctuation` (lines 948-956). -/
def normalize_greek_punctuation (s : Text) : Text :=
  [([0x340], [0x300]), ([0x341], [0x301]), ([0x343], [0x313]),
   ([0x374], [0x2B9]), ([0x37E], [0x3B]), ([0x387], [0xB7])].foldl
    (fun s p => py_replace p.1 p.2 s) s

/-- `normalize_cjk_punctuation` (lines 958-980). -/
def normalize_cjk_punctuation (s : Text) : Text :=
  [([0x3001], [0x2C]), ([0x3002], [0x2E]), ([0x3008], [0x3C]), ([0x3009], [0x3E]),
   ([0x300A], [0x201C]), ([0x300B], [0x201D]), ([0x300C], [0x201C]), ([0x300D], [0x201D]),
   ([0x300E], [0x201C]), ([0x300F], [0x201D]), ([0x3010], [0x5B]), ([0x3011], [0x5D]),
   ([0x3014], [0x5B]), ([0x3015], [0x5D]), ([0x3016], [0x5B]), ([0x3017], [0x5D]),
   ([0x3018], [0x5B]), ([0x3019], [0x5D]), ([0x301A], [0x5B]), ([0x301B], [0x5D])].foldl
    (fun s p => py_replace p.1 p.2 s) s

/-- `normalize_misc_f_punctuation` (lines 982-986). -/
def normalize_misc_f_punctuation (s : Text) : Text :=
  py_replace [0xF0C] [0xF0B] s

/-- `normalize_punctuation` (lines 988-1016). -/
def normalize_punctuation (rows : List DataRow) (s : Text) : Text :=
  let s := [([0xAB], [0x201C]), ([0xBB], [0x201D]), ([0x201A], [0x2018]),
   ([0x201B], [0x2018]), ([0x201E], [0x201C]), ([0x201F], [0x201C]),
   ([0x2039], [0x2018]), ([0x203A], [0x2019])].foldl (fun s p => py_replace p.1 p.2 s) s
  let s := sub_class_dict rows (fun c => c == 0x2011 || inR 0x2024 0x2027 c
      || inR 0x2033 0x203D c || inR 0x2047 0x2058 c) s
  let s := sub_class_dict rows (fun c => inR 0x2329 0x232B c || inR 0x2A74 0x2A77 c) s
  let s := [([0x2212], [0x2D]), ([0x2215], [0x2F]), ([0x2216], [0x5C]),
   ([0x2217], [0x2A]), ([0x2218], [0x25E6]), ([0x2219], [0x2022]),
   ([0x2223], [0x7C]), ([0x2236], [0x3A]), ([0x2254], [0x3A, 0x3D]),
   ([0x2255], [0x3D, 0x3A]), ([0x22C5], [0xB7])].foldl (fun s p => py_replace p.1 p.2 s) s
  let s := sub_class_dict rows (fun c => inR 0x222C 0x2231 c || c == 0x2A0C) s
  sub_class_dict rows (fun c => inR 0x2488 0x249C c || inR 0x1F100 0x1F10B c) s

/-- `normalize_dash_punctuation` (lines 1018-1027). -/
def normalize_dash_punctuation (s : Text) : Text :=
  let s := sub_class_str (fun c => inR 0x2010 0x2016 c) [0x2D] s
  [([0x2212], [0x2D]), ([0x2500], [0x2D]), ([0x2501], [0x2D]),
   ([0x2E3A], [0x2D]), ([0x2E3B], [0x2D])].foldl (fun s p => py_replace p.1 p.2 s) s

/-- `normalize_non_zero_spaces` (lines 1029-1043). -/
def normalize_non_zero_spaces (s : Text) : Text :=
  let s := replace1 0xA0 [0x20] s
  let s := sub_class_str (fun c => inR 0x2000 0x200B c) [0x20] s
  let s := replace1 0x202F [0x20] s
  let s := replace1 0x205F [0x20] s
  replace1 0x3000 [0x20] s

/-- `normalize_half_and_full_width_characters` (lines 1045-1050). -/
def normalize_half_and_full_width_characters (rows : List DataRow) (s : Text) : Text :=
  if s.any (fun c => inR 0xFF01 0xFFEF c) then
    sub_class_dict rows (fun c => inR 0xFF01 0xFFEF c) s
  else s

/-- `normalize_font_characters` (lines 1052-1056). -/
def normalize_font_characters (rows : List DataRow) (s : Text) : Text :=
  sub_class_dict rows (fun c => inR 0x2102 0x214A c || inR 0xFB20 0xFB2A c
      || inR 0x1D400 0x1D800 c || inR 0x1EE00 0x1EEBC c || inR 0x1FBF0 0x1FBFA c) s

/-- `normalize_small_characters` (lines 1058-1061). -/
def normalize_small_characters (rows : List DataRow) (s : Text) : Text :=
  sub_class_dict rows (fun c => inR 0xFE50 0xFE70 c) s

/-- `normalize_vertical_characters` (lines 1063-1069). -/
def normalize_vertical_characters (rows : List DataRow) (s : Text) : Text :=
  sub_class_dict rows (fun c => c == 0x309F || c == 0x30FF || inR 0xFE10 0xFE1A c
      || inR 0xFE30 0xFE49 c) s

/-- `normalize_enclosure_characters` (lines 1071-1078). -/
def normalize_enclosure_characters (rows : List DataRow) (s : Text) : Text :=
  let s := sub_class_dict rows (fun c => inR 0x2460 0x2489 c || inR 0x249C 0x2501 c
      || c == 0x3036 || inR 0x3200 0x3251 c || inR 0x3251 0x32C1 c || inR 0x32D0 0x3300 c) s
  sub_class_dict rows (fun c => inR 0x1F110 0x1F16B c || inR 0x1F201 0x1F261 c) s

/-- `normalize_core_compat_characters` (lines 1080-1087). -/
def normalize_core_compat_characters (rows : List DataRow) (s : Text) : Text :=
  let s := sub_class_dict rows (fun c => inR 0x2160 0x2180 c) s
  let s := sub_class_dict rows (fun c => inR 0x3131 0x318F c) s
  sub_class_dict rows (fun c => c == 0x0E33 || c == 0x0EB3 || c == 0x0EDC || c == 0x0EDD) s

/-- `map_digits_to_ascii` (lines 1090-1163): per-block digit mapping,
each block gated by a script bit of the line vector `lv`. -/
def map_digits_to_ascii (rows : List DataRow) (lv : Nat) (s : Text) : Text :=
  let s :=
    if lv &&& char_is_arabic ≠ 0 then
      let s := sub_class_dict rows (fun c => inR 0x660 0x66A c) s
      sub_class_dict rows (fun c => inR 0x6F0 0x6FA c) s
    else s
  let s :=
    if lv &&& char_is_thaana_plus ≠ 0 then
      sub_class_dict rows (fun c => inR 0x7C0 0x7CA c) s
    else s
  let s :=
    if lv &&& char_is_devanagari ≠ 0 then
      sub_class_dict rows (fun c => inR 0x966 0x970 c) s
    else s
  let s :=
    if lv &&& char_is_bengali_plus ≠ 0 then
      [inR 0x9E6 0x9F0, inR 0xA66 0xA70, inR 0xAE6 0xAF0, inR 0xB66 0xB70,
       inR 0xBE6 0xBF0, inR 0xC66 0xC70, inR 0xCE6 0xCF0, inR 0xD66 0xD70,
       inR 0xDE6 0xDF0].foldl (fun s cls => sub_class_dict rows cls s) s
    else s
  let s :=
    if lv &&& char_is_thai_plus ≠ 0 then
      [inR 0xE50 0xE5A, inR 0xED0 0xEDA, inR 0xF20 0xF2A, inR 0x1040 0x104A,
       inR 0x1090 0x109A].foldl (fun s cls => sub_class_dict rows cls s) s
    else s
  let s :=
    if lv &&& char_is_khmer_plus ≠ 0 then
      [inR 0x17E0 0x17EA, inR 0x1810 0x181A, inR 0x1946 0x1950, inR 0x19D0 0x19DB,
       inR 0x1A80 0x1A8A, inR 0x1A90 0x1A9A, inR 0x1B50 0x1B5A, inR 0x1BB0 0x1BBA,
       inR 0x1C40 0x1C4A, inR 0x1C50 0x1C5A].foldl (fun s cls => sub_class_dict rows cls s) s
    else s
  let s :=
    if lv &&& char_is_lisu_plus ≠ 0 then
      [inR 0xA620 0xA62A, inR 0xA8D0 0xA8DA, inR 0xA900 0xA90A, inR 0xA9D0 0xA9DA,
       inR 0xA9F0 0xA9FA, inR 0xAA50 0xAA5A, inR 0xABF0 0xABFA].foldl
        (fun s cls => sub_class_dict rows cls s) s
    else s
  if lv &&& char_is_100_plus_block_of_interest ≠ 0 then
    [inR 0x104A0 0x104AA, inR 0x10D30 0x10D3A, inR 0x11066 0x11070, inR 0x110F0 0x110FA,
     inR 0x11136 0x11140, inR 0x111D0 0x111DA, inR 0x112F0 0x112FA, inR 0x11450 0x1145A,
     inR 0x114D0 0x114DA, inR 0x11650 0x1165A, inR 0x116C0 0x116CA, inR 0x11730 0x1173A,
     inR 0x118E0 0x118EA, inR 0x11C50 0x11C5A, inR 0x11D50 0x11D5A, inR 0x11DA0 0x11DAA,
     inR 0x16A60 0x16A6A, inR 0x16B50 0x16B5A, inR 0x1E950 0x1E95A].foldl
      (fun s cls => sub_class_dict rows cls s) s
  else s

/-! ## Look-alike script disambiguation -/

/-- The three look-alike scripts (`look_alike_scripts`). -/
inductive Script where
  | Latin
  | Greek
  | Cyrillic
deriving DecidableEq, Repr

def script_name : Script → String
  | .Latin => "Latin"
  | .Greek => "Greek"
  | .Cyrillic => "Cyrillic"

/-- `char_script` (lines 1189-1198): Latin before Greek before Cyrillic. -/
def char_script (rows : List DataRow) (c : Nat) : Option Script :=
  let v := char_type_vector rows c
  if v &&& char_is_latin ≠ 0 then some .Latin
  else if v &&& char_is_greek ≠ 0 then some .Greek
  else if v &&& char_is_cyrillic ≠ 0 then some .Cyrillic
  else none

/-- The mutable look-alike dictionaries of the `Wildebeest` object.
`look_alike_dict` is a single Python dict whose keys are either
`'<src-script> <tgt-script> <char>'` strings (mapping to a look-alike
character) or counter names such as `'n-to-Latin'`/`'n-split'` (mapping
to integers); the two key shapes can never collide (entry keys contain
two spaces), so the dict is represented by the two components
`entries`/`counters`.  The `entries` component is the data loaded from
`look-alikes.txt`, a data file that is not in the source tree, hence a
parameter of the development. -/
structure LAState where
  entries : List ((Script × Script × Nat) × Nat)
  counters : List (String × Nat)
  split_d : List (Text × Text)
  unchanged_d : List (Text × Nat)
  url_d : List Text
deriving DecidableEq, Repr

/-- `look_alike_dict.get(f'{src} {tgt} {char}', None)`. -/
def la_get (st : LAState) (k : Script × Script × Nat) : Option Nat :=
  (st.entries.find? (fun p => p.1 = k)).map (fun p => p.2)

def bump_assoc : List (String × Nat) → String → List (String × Nat)
  | [], k => [(k, 1)]
  | (k', v) :: rest, k =>
      if k' = k then (k', v + 1) :: rest else (k', v) :: bump_assoc rest k

/-- `self.look_alike_dict[key] = self.look_alike_dict.get(key, 0) + 1`
for a counter key. -/
def la_bump (st : LAState) (k : String) : LAState :=
  { st with counters := bump_assoc st.counters k }

def bump_text_assoc : List (Text × Nat) → Text → List (Text × Nat)
  | [], k => [(k, 1)]
  | (k', v) :: rest, k =>
      if k' = k then (k', v + 1) :: rest else (k', v) :: bump_text_assoc rest k

/-- `map_look_alikes_to_script` (lines 1233-1237). -/
def map_look_alikes_to_script (st : LAState) (s : Text) (src tgt : Script) : Text :=
  s.map (fun c => (la_get st (src, tgt, c)).getD c)

/-- `stat_dict[script]`: number of token characters of the given script. -/
def stat_script (rows : List DataRow) (tok : Text) (sc : Script) : Nat :=
  (tok.filter (fun c => char_script rows c = some sc)).length

/-- `stat_dict[f'{script} {target_script}']`: number of token characters
of script `src` that have a look-alike entry toward `tgt`. -/
def stat_pair (rows : List DataRow) (st : LAState) (tok : Text) (src tgt : Script) : Nat :=
  (tok.filter (fun c => char_script rows c = some src ∧ src ≠ tgt
      ∧ (la_get st (src, tgt, c)).isSome)).length

/-- Number of the scripts Latin/Greek/Cyrillic present in the token. -/
def n_scripts_of (rows : List DataRow) (tok : Text) : Nat :=
  ([Script.Latin, Script.Greek, Script.Cyrillic].filter
     (fun sc => 1 ≤ stat_script rows tok sc)).length

def roman_numeral_first : List Text :=
  [[0x58], [0x58, 0x58], [0x58, 0x58, 0x58], [0x58, 0x4C], [0x4C],
   [0x4C, 0x58], [0x4C, 0x58, 0x58], [0x4C, 0x58, 0x58, 0x58], [0x58, 0x43], []]

def roman_numeral_second : List Text :=
  [[0x49], [0x49, 0x49], [0x49, 0x49, 0x49], [0x49, 0x56], [0x56],
   [0x56, 0x49], [0x56, 0x49, 0x49], [0x56, 0x49, 0x49, 0x49], [0x49, 0x58], []]

/-- `re.match(r'(?:X|XX|XXX|XL|L|LX|LXX|LXXX|XC|)(?:I|II|...|IX|)$', t)`:
the pattern is anchored on both sides, and every alternative (including
the empty ones) is explored by backtracking, so a match is exactly a
decomposition into one alternative from each group. -/
def roman_numeral_shape (t : Text) : Bool :=
  roman_numeral_first.any (fun a => roman_numeral_second.any (fun b => t = a ++ b))

/-- The Cyrillic short-token allow-list of line 1286.  The source file's
literals are mojibake (UTF-8 double-decoded through Mac-Roman), so the
lists below are the literal code points that appear in the file; this is
what the running code compares `cyr_token` against. -/
def cyrillic_allow_list : List Text :=
  [[0x201D, 0xF4, 0x2014, 0xC4], [0x201D, 0xF2, 0x2014, 0xC4],
   [0x201D, 0xF4, 0x2014, 0xC4, 0x2014, 0xF1], [0x2014, 0xC5, 0x2014, 0xF1],
   [0x2013, 0xB0, 0x2014, 0xF1], [0x2014, 0xF1, 0x2014, 0xC5],
   [0x2013, 0xDC, 0x2014, 0xC5], [0x2014, 0xF1, 0x2014, 0xC5, 0x2014, 0xF1],
   [0x2014, 0xF1, 0x2014, 0xC4, 0x2014, 0xF1]]

/-- The target-script decision of `correct_look_alikes` (lines 1258-1287)
for one token: the whole-token rules, the single-minority-character
rules, then the `SpA`/`USA`/Roman-numeral and Cyrillic allow-lists. -/
def cla_target (rows : List DataRow) (st : LAState) (tok : Text) : Option Script :=
  if 2 ≤ n_scripts_of rows tok then
    let statCyr := stat_script rows tok .Cyrillic
    let statLat := stat_script rows tok .Latin
    let statCyrLat := stat_pair rows st tok .Cyrillic .Latin
    let statLatCyr := stat_pair rows st tok .Latin .Cyrillic
    if statCyrLat = statCyr ∧ statLatCyr < statLat then some .Latin
    else if statLatCyr = statLat ∧ statCyrLat < statCyr then some .Cyrillic
    else if statCyr = 1 ∧ statCyrLat = 1 ∧ 3 ≤ statLat then some .Latin
    else if statLat = 1 ∧ statLatCyr = 1 ∧ 3 ≤ statCyr then some .Cyrillic
    else
      let lat_token := map_look_alikes_to_script st tok .Cyrillic .Latin
      let t1 : Option Script :=
        if lat_token = [0x53, 0x70, 0x41] ∨ lat_token = [0x55, 0x53, 0x41]
            ∨ (2 ≤ tok.length ∧ roman_numeral_shape lat_token) then
          some .Latin
        else none
      let cyr_token := map_look_alikes_to_script st tok .Latin .Cyrillic
      if cyr_token ∈ cyrillic_allow_list then some .Cyrillic else t1
  else none

/-- `tokenize_mixed_script_tokens` (lines 1200-1224): insert a space at
certain script-transition points of a mixed-script token. -/
def tokenize_mixed_script_tokens (rows : List DataRow) (tok : Text) : Text :=
  let n := tok.length
  (tok.enum.foldl
    (fun (acc : Text × Option Script × Nat × Bool) (pc : Nat × Nat) =>
      let (token, script, script_start, lastPunct) := acc
      let (position, ch) := pc
      if ch = 0x2E ∨ ch = 0x2F ∨ ch = 0x5F ∨ ch = 0x2D then
        (token ++ [ch], script, script_start, true)
      else
        let new_script := char_script rows ch
        if new_script ≠ script then
          let split := 3 ≤ position - script_start
              ∧ 3 ≤ n - position ∧ lastPunct = false
              ∧ script.isSome ∧ new_script.isSome
              ∧ new_script = char_script rows (tok.getD (position + 1) 0)
          ((if split then token ++ [0x20] else token) ++ [ch], new_script, position, false)
        else
          (token ++ [ch], script, script_start, false))
    ([], none, 0, false)).1

def to_lower (c : Nat) : Nat := if 0x41 ≤ c && c ≤ 0x5A then c + 0x20 else c

def is_ascii_letter (c : Nat) : Bool := inR 0x41 0x5B c || inR 0x61 0x7B c

/-- The domain suffixes of `is_mixed_script_url`. -/
def url_suffixes : List Text :=
  [[0x62, 0x67], [0x62, 0x79], [0x6D, 0x65], [0x6D, 0x6B], [0x6B, 0x67],
   [0x6B, 0x7A], [0x72, 0x73], [0x72, 0x75], [0x74, 0x6A], [0x74, 0x6D],
   [0x75, 0x61], [0x75, 0x7A], [0x63, 0x6F, 0x6D], [0x69, 0x6E, 0x66, 0x6F]]

/-- `[-_./0-9a-zA-Z]` (middle class of the first URL pattern). -/
def url1_mid_char (c : Nat) : Bool :=
  c == 0x2D || c == 0x5F || c == 0x2E || c == 0x2F || inR 0x30 0x3A c || is_ascii_letter c

/-- `[-_./#0-9Ѐ-ӿ]` (tail class of the first URL pattern). -/
def url1_tail_char (c : Nat) : Bool :=
  c == 0x2D || c == 0x5F || c == 0x2E || c == 0x2F || c == 0x23
    || inR 0x30 0x3A c || inR 0x400 0x500 c

/-- `[-_./0-9Ѐ-ӿ]` (middle class of the second URL pattern). -/
def url2_mid_char (c : Nat) : Bool :=
  c == 0x2D || c == 0x5F || c == 0x2E || c == 0x2F || inR 0x30 0x3A c || inR 0x400 0x500 c

/-- The body of the first URL pattern after the optional scheme:
`[a-zA-Z][-_./0-9a-zA-Z]*\.(bg|…|info)/[-_./#0-9Ѐ-ӿ]+$`
(case-insensitive).  The regex match is rendered as the existence of a
decomposition, which is what backtracking over `[-…]*` and the suffix
alternation explores. -/
def url1_body (body : Text) : Bool :=
  match body with
  | [] => false
  | c :: r =>
      is_ascii_letter c &&
      (List.range r.length).any (fun i =>
        r.getD i 0 == 0x2E && (r.take i).all url1_mid_char &&
        url_suffixes.any (fun suf =>
          ((r.drop (i + 1)).take suf.length).map to_lower = suf &&
          (r.drop (i + 1 + suf.length)).head? = some 0x2F &&
          (r.drop (i + 2 + suf.length)) ≠ [] &&
          (r.drop (i + 2 + suf.length)).all url1_tail_char))

/-- The body of the second URL pattern after the optional scheme:
`[Ѐ-ӿ][-_./0-9Ѐ-ӿ]*\.(bg|…|info)$` (case-sensitive). -/
def url2_body (body : Text) : Bool :=
  match body with
  | [] => false
  | c :: r =>
      inR 0x400 0x500 c &&
      (List.range r.length).any (fun i =>
        r.getD i 0 == 0x2E && (r.take i).all url2_mid_char &&
        url_suffixes.any (fun suf => r.drop (i + 1) = suf))

def http_scheme : Text := [0x68, 0x74, 0x74, 0x70, 0x3A, 0x2F, 0x2F]
def https_scheme : Text := [0x68, 0x74, 0x74, 0x70, 0x73, 0x3A, 0x2F, 0x2F]

/-- `is_mixed_script_url` (lines 1226-1231).  The optional scheme prefix
`(?:https?://)?` is explored by trying the string itself and the string
with a scheme prefix stripped; the first pattern is compiled with
`re.IGNORECASE`, the second without. -/
def is_mixed_script_url (s : Text) : Bool :=
  (url1_body s
    || ((s.take 7).map to_lower = http_scheme && url1_body (s.drop 7))
    || ((s.take 8).map to_lower = https_scheme && url1_body (s.drop 8)))
  || (url2_body s
    || (s.take 7 = http_scheme && url2_body (s.drop 7))
    || (s.take 8 = https_scheme && url2_body (s.drop 8)))

/-- The per-token body of `correct_look_alikes` (lines 1246-1318):
statistics, target-script decision, retargeting / re-tokenization /
no-op, and the bookkeeping writes into the look-alike dictionaries. -/
def cla_process_token (rows : List DataRow) (st : LAState) (orig_token : Text) :
    LAState × Text :=
  let mixed := 2 ≤ n_scripts_of rows orig_token
  let (st, token) :=
    match cla_target rows st orig_token with
    | some tgt =>
        let token := orig_token.map (fun c =>
          match char_script rows c with
          | some sc => (la_get st (sc, tgt, c)).getD c
          | none => c)
        (la_bump st ("n-to-" ++ script_name tgt), token)
    | none =>
        let retok := tokenize_mixed_script_tokens rows orig_token
        if retok ≠ orig_token then
          let st :=
            if (st.split_d.find? (fun (p : Text × Text) => p.1 = orig_token)).isNone then
              { st with split_d := st.split_d ++ [(orig_token, retok)] }
            else st
          (la_bump st "n-split", retok)
        else
          ((if mixed then la_bump st "n-unchanged" else st), orig_token)
  if mixed ∧ token = orig_token then
    if is_mixed_script_url orig_token then
      (if (st.url_d.find? (fun t => t = orig_token)).isNone then
         ({ st with url_d := st.url_d ++ [orig_token] }, token)
       else (st, token))
    else
      ({ st with unchanged_d := bump_text_assoc st.unchanged_d token }, token)
  else (st, token)

/-- Python-`re` whitespace (`\s` over `str`). -/
def is_py_space (c : Nat) : Bool :=
  c == 0x09 || c == 0x0A || c == 0x0B || c == 0x0C || c == 0x0D
    || inR 0x1C 0x21 c || c == 0x85 || c == 0xA0 || c == 0x1680
    || inR 0x2000 0x200B c || c == 0x2028 || c == 0x2029 || c == 0x202F
    || c == 0x205F || c == 0x3000

/-- `re.match(r'(\s*)(\S+)(.*)$', s)` (line 1243): leading whitespace,
a maximal non-whitespace token, and the remainder.  Without `re.DOTALL`,
`.` does not cross a newline, and `$` matches only at the end of the
string or before a final newline; hence the match fails if the remainder
contains an interior newline, and a remainder consisting of text plus a
single final newline drops that newline. -/
def wb_match_token (s : Text) : Option (Text × Text × Text) :=
  let w := s.takeWhile is_py_space
  let rest1 := s.dropWhile is_py_space
  let tok := rest1.takeWhile (fun c => !is_py_space c)
  let r0 := rest1.drop tok.length
  if tok = [] then none
  else
    match r0.findIdx? (fun c => c == 0x0A) with
    | none => some (w, tok, r0)
    | some k => if k + 1 = r0.length then some (w, tok, r0.take k) else none

theorem wb_match_token_rest_lt (s w tok rest : Text)
    (h : wb_match_token s = some (w, tok, rest)) : rest.length < s.length := by
  have hdle : (s.dropWhile is_py_space).length ≤ s.length := dropWhile_len_le _ s
  have htk : ((s.dropWhile is_py_space).takeWhile (fun c => !is_py_space c)).length
      ≤ (s.dropWhile is_py_space).length := (List.takeWhile_sublist _).length_le
  simp only [wb_match_token] at h
  split at h
  · exact absurd h (by simp)
  · rename_i htok
    have htl : 1 ≤ ((s.dropWhile is_py_space).takeWhile (fun c => !is_py_space c)).length := by
      rcases hne : (s.dropWhile is_py_space).takeWhile (fun c => !is_py_space c) with _ | ⟨a, l⟩
      · exact absurd hne htok
      · simp
    split at h
    · simp only [Option.some.injEq, Prod.mk.injEq] at h
      obtain ⟨_, _, hrest⟩ := h
      have hr : rest.length = (s.dropWhile is_py_space).length
          - ((s.dropWhile is_py_space).takeWhile (fun c => !is_py_space c)).length := by
        rw [← hrest]; simp
      omega
    · split at h
      · simp only [Option.some.injEq, Prod.mk.injEq] at h
        obtain ⟨_, _, hrest⟩ := h
        have hr : rest.length ≤ (s.dropWhile is_py_space).length
            - ((s.dropWhile is_py_space).takeWhile (fun c => !is_py_space c)).length := by
          rw [← hrest]
          simp only [List.length_take, List.length_drop]
          omega
        omega
      · exact absurd h (by simp)

/-- `correct_look_alikes` (lines 1239-1324): split the string into
whitespace-delimited tokens, process each, and concatenate.  Each
iteration consumes at least the matched token (`wb_match_token_rest_lt`),
so a fuel of `s.length` is always sufficient. -/
def correct_look_alikes_go (rows : List DataRow) : Nat → LAState → Text → LAState × Text
  | 0, st, s => (st, s)
  | fuel + 1, st, s =>
      match wb_match_token s with
      | some (w, tok, rest) =>
          let p := cla_process_token rows st tok
          let q := correct_look_alikes_go rows fuel p.1 rest
          (q.1, w ++ p.2 ++ q.2)
      | none => (st, s)

def correct_look_alikes (rows : List DataRow) (st : LAState) (s : Text) :
    LAState × Text :=
  correct_look_alikes_go rows s.length st s

/-! ## XML / URL escape repairs and Arabic tokenization repair -/

def is_digit_char (c : Nat) : Bool := inR 0x30 0x3A c

def is_hex_upper (c : Nat) : Bool := inR 0x30 0x3A c || inR 0x41 0x47 c

def is_hex_ci (c : Nat) : Bool := inR 0x30 0x3A c || inR 0x41 0x47 c || inR 0x61 0x67 c

/-- Number of leading case-insensitive `amp;` repetitions. -/
def count_amp : Text → Nat
  | a :: m :: p :: x :: rest =>
      if [a, m, p, x].map to_lower = [0x61, 0x6D, 0x70, 0x3B] then
        1 + count_amp rest
      else 0
  | _ => 0

/-- The lookahead of `repair_xml`:
`(?=(?:amp|apos|gt|lt|nbsp|quot|#\d{1,6}|#x[0-9A-F]{1,5});)`, compiled
with `re.IGNORECASE`. -/
def xml_lookahead (l : Text) : Bool :=
  ((l.take 4).map to_lower = [0x61, 0x6D, 0x70, 0x3B])
  || ((l.take 5).map to_lower = [0x61, 0x70, 0x6F, 0x73, 0x3B])
  || ((l.take 3).map to_lower = [0x67, 0x74, 0x3B])
  || ((l.take 3).map to_lower = [0x6C, 0x74, 0x3B])
  || ((l.take 5).map to_lower = [0x6E, 0x62, 0x73, 0x70, 0x3B])
  || ((l.take 5).map to_lower = [0x71, 0x75, 0x6F, 0x74, 0x3B])
  || (match l with
      | 0x23 :: r =>
          ((List.range' 1 6).any (fun n =>
              (r.take n).length = n && (r.take n).all is_digit_char
                && r.getD n 0 == 0x3B))
          || (match r with
              | x :: r2 =>
                  to_lower x == 0x78 &&
                  (List.range' 1 5).any (fun n =>
                    (r2.take n).length = n && (r2.take n).all is_hex_ci
                      && r2.getD n 0 == 0x3B)
              | [] => false)
      | _ => false)

/-- `repair_xml` (lines 1166-1171):
`re.sub(r'(?<=&)(?:amp;)+(?=…;)', '', s, flags=re.IGNORECASE)`.
`prev` is the previous character of the input (the lookbehind, like the
scan position, ranges over the input string).  At a position preceded by
`&` with `k0 ≥ 1` leading `amp;` repetitions, the greedy `(?:amp;)+`
first tries all `k0`; if the lookahead fails there, backtracking drops
one repetition, and the remaining `amp;` text itself satisfies the
lookahead, so `k0 - 1` repetitions are deleted (when `k0 ≥ 2`). -/
def repair_xml_scan_go : Nat → Option Nat → Text → Text
  | 0, _, s => s
  | _ + 1, _, [] => []
  | fuel + 1, prev, c :: rest =>
      if prev = some 0x26 then
        if count_amp (c :: rest) = 0 then
          c :: repair_xml_scan_go fuel (some c) rest
        else if xml_lookahead ((c :: rest).drop (4 * count_amp (c :: rest))) then
          repair_xml_scan_go fuel (some 0x3B) ((c :: rest).drop (4 * count_amp (c :: rest)))
        else if 2 ≤ count_amp (c :: rest) then
          repair_xml_scan_go fuel (some 0x3B) ((c :: rest).drop (4 * (count_amp (c :: rest) - 1)))
        else
          c :: repair_xml_scan_go fuel (some c) rest
      else c :: repair_xml_scan_go fuel (some c) rest

def repair_xml (s : Text) : Text := repair_xml_scan_go s.length none s

/-- First pattern of `repair_url_escapes`:
`(%)25([CD][0-9A-F]%)25([89AB][0-9A-F])` → `\\1\\2\\3`. -/
def repair_url_scan1 : Text → Text
  | p1 :: a1 :: b1 :: x :: h1 :: p2 :: a2 :: b2 :: y :: h2 :: rest =>
      if p1 == 0x25 && a1 == 0x32 && b1 == 0x35 && (x == 0x43 || x == 0x44)
          && is_hex_upper h1 && p2 == 0x25 && a2 == 0x32 && b2 == 0x35
          && (y == 0x38 || y == 0x39 || y == 0x41 || y == 0x42) && is_hex_upper h2 then
        p1 :: x :: h1 :: p2 :: y :: h2 :: repair_url_scan1 rest
      else
        p1 :: repair_url_scan1 (a1 :: b1 :: x :: h1 :: p2 :: a2 :: b2 :: y :: h2 :: rest)
  | c :: rest => c :: repair_url_scan1 rest
  | [] => []

/-- Second pattern of `repair_url_escapes`:
`(%)25(E[0-9A-F]%)25([89AB][0-9A-F]%)25([89AB][0-9A-F])` → `\\1\\2\\3\\4`. -/
def repair_url_scan2 : Text → Text
  | p1 :: a1 :: b1 :: e :: h1 :: p2 :: a2 :: b2 :: y1 :: g1 :: p3 :: a3 :: b3 :: y2 :: g2 :: rest =>
      if p1 == 0x25 && a1 == 0x32 && b1 == 0x35 && e == 0x45 && is_hex_upper h1
          && p2 == 0x25 && a2 == 0x32 && b2 == 0x35
          && (y1 == 0x38 || y1 == 0x39 || y1 == 0x41 || y1 == 0x42) && is_hex_upper g1
          && p3 == 0x25 && a3 == 0x32 && b3 == 0x35
          && (y2 == 0x38 || y2 == 0x39 || y2 == 0x41 || y2 == 0x42) && is_hex_upper g2 then
        p1 :: e :: h1 :: p2 :: y1 :: g1 :: p3 :: y2 :: g2 :: repair_url_scan2 rest
      else
        p1 :: repair_url_scan2
          (a1 :: b1 :: e :: h1 :: p2 :: a2 :: b2 :: y1 :: g1 :: p3 :: a3 :: b3 :: y2 :: g2 :: rest)
  | c :: rest => c :: repair_url_scan2 rest
  | [] => []

/-- `repair_url_escapes` (lines 1174-1179). -/
def repair_url_escapes (s : Text) : Text :=
  repair_url_scan2 (repair_url_scan1 s)

def is_detachable_char (c : Nat) : Bool :=
  c == 0x2D || c == 0x5F || c == 0x2B || c == 0x2A || c == 0x7C || c == 0x25
    || inR 0x30 0x3A c

def is_arabic_block_char (c : Nat) : Bool := inR 0x600 0x700 c

/-- `re.sub(r'(A+)(B)', r'\\1 \\2', s)` for disjoint character classes
`A`, `B`: since the run `A+` is bounded by non-`A` characters on both
sides, the substitution inserts a space exactly between every adjacent
pair `(a, b)` with `a ∈ A`, `b ∈ B` (and symmetrically for `(B)(A+)`),
which is how it is rendered here. -/
def insert_space_between (cls1 cls2 : Nat → Bool) : Text → Text
  | [] => []
  | [x] => [x]
  | x :: y :: rest =>
      if cls1 x && cls2 y then
        x :: 0x20 :: insert_space_between cls1 cls2 (y :: rest)
      else
        x :: insert_space_between cls1 cls2 (y :: rest)

/-- `repair_arabic_tokenization` (lines 1181-1187). -/
def repair_arabic_tokenization (s : Text) : Text :=
  let s := insert_space_between is_detachable_char is_arabic_block_char s
  insert_space_between is_arabic_block_char is_detachable_char s

/-- The unconditional final step of `norm_clean_string` (line 1458):
`re.sub(' +(?=[\\t\\n])', '', s)` removes every run of spaces that
immediately precedes a tab or newline. -/
def strip_spaces_before_tab_newline : Text → Text
  | [] => []
  | c :: rest =>
      if c == 0x20 && (match rest.dropWhile (fun x => x == 0x20) with
                       | t :: _ => t == 0x09 || t == 0x0A
                       | [] => false) then
        strip_spaces_before_tab_newline rest
      else
        c :: strip_spaces_before_tab_newline rest

/-! ## The `ht` dictionary and the pipeline orchestrator -/

/-- A value of the mixed-purpose `ht` dictionary: `SKIP-*` flags are
booleans, `CALL-*`/`COUNT-*` statistics are integers, and
`COUNT-*-<n>` example locations are strings. -/
inductive HtVal where
  | b (v : Bool)
  | n (v : Nat)
  | s (v : String)
deriving DecidableEq, Repr

/-- The `ht` dictionary, as an association list in which the most recent
write for a key shadows older ones. -/
abbrev Ht := List (String × HtVal)

def ht_get (ht : Ht) (k : String) : Option HtVal :=
  (ht.find? (fun p => p.1 = k)).map (fun p => p.2)

def ht_put (ht : Ht) (k : String) (v : HtVal) : Ht := (k, v) :: ht

/-- Python truthiness of `ht.get(key, False)`. -/
def ht_truthy (ht : Ht) (k : String) : Bool :=
  match ht_get ht k with
  | some (.b v) => v
  | some (.n v) => v ≠ 0
  | some (.s v) => v ≠ ""
  | none => false

/-- `ht.get(key, 0)` for the integer-valued statistics keys. -/
def ht_nat (ht : Ht) (k : String) : Nat :=
  match ht_get ht k with
  | some (.n v) => v
  | _ => 0

/-- `increment_dict_count` (lines 1326-1330): increment and return the
new value. -/
def ht_incr (ht : Ht) (k : String) : Ht × Nat :=
  let v := ht_nat ht k + 1
  (ht_put ht k (.n v), v)

/-- `ncs_group` (lines 1332-1349): skip flag, call counter, change
counter, and up to 20 example locations. -/
def ncs_group (ht : Ht) (name : String) (f : Text → Text) (loc_id : String) (s : Text) :
    Ht × Text :=
  if ht_truthy ht ("SKIP-" ++ name) then (ht, s)
  else
    let ht := (ht_incr ht ("CALL-" ++ name)).1
    let s2 := f s
    if s2 ≠ s then
      let p := ht_incr ht ("COUNT-" ++ name)
      let ht := if loc_id ≠ "" ∧ p.2 ≤ 20 then
          ht_put p.1 ("COUNT-" ++ name ++ "-" ++ toString p.2) (.s loc_id)
        else p.1
      (ht, s2)
    else (ht, s2)

/-- `ncs_group` applied to the stateful `correct_look_alikes` pass, which
also updates the look-alike dictionaries. -/
def ncs_group_look_alike (rows : List DataRow) (la : LAState) (ht : Ht)
    (loc_id : String) (s : Text) : LAState × Ht × Text :=
  if ht_truthy ht "SKIP-look-alike" then (la, ht, s)
  else
    let ht := (ht_incr ht "CALL-look-alike").1
    let p := correct_look_alikes rows la s
    if p.2 ≠ s then
      let q := ht_incr ht "COUNT-look-alike"
      let ht := if loc_id ≠ "" ∧ q.2 ≤ 20 then
          ht_put q.1 ("COUNT-look-alike-" ++ toString q.2) (.s loc_id)
        else q.1
      (p.1, ht, p.2)
    else (p.1, ht, p.2)

/-- The shared state of a `Wildebeest` object: the loaded mapping-table
rows (which back both `mapping_dict` and the data-derived bits of
`char_type_vector_dict`) and the look-alike dictionaries. -/
structure WbState where
  rows : List DataRow
  la : LAState
deriving DecidableEq, Repr

/-- `norm_clean_string` up to and including the `COUNT-ALL` update
(lines 1363-1456): the pipeline orchestrator computes the line
classification vector once at entry, then runs the gated, skippable
passes in the source's fixed order, updating `ht`.  Note that the
URL-escape group is registered under the misspelled name
`repair-url-espaces` (line 1450), exactly as in the source. -/
def norm_clean_string_core (wb : WbState) (ht : Ht) (lang_code loc_id : String) (s : Text) :
    WbState × Ht × Text :=
  let rows := wb.rows
  let ht1 := ht_put ht "NUMBER-OF-LINES" (.n (ht_nat ht "NUMBER-OF-LINES" + 1))
  let lv := set_lv rows s
  let p := (ht1, s)
  let p := if lv &&& char_is_encoding_repair_anchor ≠ 0 then
      ncs_group p.1 "repair-encoding-errors" (repair_encoding_errors rows) loc_id p.2 else p
  let p := if lv &&& char_is_surrogate ≠ 0 then
      ncs_group p.1 "del-surrogate" delete_surrogates loc_id p.2 else p
  let p := if lv &&& char_is_deletable_control_character ≠ 0 then
      ncs_group p.1 "del-ctrl-char" delete_control_characters loc_id p.2 else p
  let p := if lv &&& char_is_zero_width_character ≠ 0 then
      ncs_group p.1 "del-zero-width" delete_zero_width_characters loc_id p.2 else p
  let p := if lv &&& char_is_arabic_tatweel ≠ 0 then
      ncs_group p.1 "del-tatweel" delete_arabic_tatweel loc_id p.2 else p
  let p := if lv &&& char_is_deletable_arabic_diacritic ≠ 0 then
      ncs_group p.1 "del-arabic-diacr" delete_arabic_diacritics loc_id p.2 else p
  let p := if lv &&& char_is_deletable_hebrew_diacritic ≠ 0 then
      ncs_group p.1 "del-hebrew-diacr" delete_hebrew_diacritics loc_id p.2 else p
  let p := if lv &&& char_is_core_compatibility ≠ 0 then
      ncs_group p.1 "core-compat" (normalize_core_compat_characters rows) loc_id p.2 else p
  let p := if lv &&& char_is_arabic_presentation_form ≠ 0 then
      ncs_group p.1 "pres-form" (normalize_arabic_pres_form_characters rows) loc_id p.2 else p
  let p := if lv &&& char_is_decomposable_ligature ≠ 0 then
      ncs_group p.1 "ligatures" normalize_ligatures loc_id p.2 else p
  let p := if lv &&& char_is_decomposable_sign_symbol ≠ 0 then
      ncs_group p.1 "signs-and-symbols" normalize_signs_and_symbols loc_id p.2 else p
  let p := if lv &&& char_is_decomposable_cjk ≠ 0 then
      ncs_group p.1 "cjk" (normalize_cjk rows) loc_id p.2 else p
  let p := if lv &&& char_is_fullwidth_or_halfwidth ≠ 0 then
      ncs_group p.1 "width" (normalize_half_and_full_width_characters rows) loc_id p.2 else p
  let p := if lv &&& char_is_font_small_vertical ≠ 0 then
      let q := ncs_group p.1 "font" (normalize_font_characters rows) loc_id p.2
      let q := ncs_group q.1 "small" (normalize_small_characters rows) loc_id q.2
      ncs_group q.1 "vertical" (normalize_vertical_characters rows) loc_id q.2
    else p
  let p := if lv &&& char_is_decomposable_enclosure ≠ 0 then
      ncs_group p.1 "enclosure" (normalize_enclosure_characters rows) loc_id p.2 else p
  let p := if lv &&& char_is_mappable_hangul ≠ 0 then
      ncs_group p.1 "hangul" normalize_hangul loc_id p.2 else p
  let p := if lv &&& char_is_nukta ≠ 0 then
      ncs_group p.1 "repair-combining" (repair_combining_modifiers_with_nukta lv) loc_id p.2
    else p
  let p := if lv &&& char_is_composable_anchor_with_combining ≠ 0
      ∧ lv &&& char_is_composable_combining_diacritic ≠ 0 then
      ncs_group p.1 "combining-compose" (apply_combining_modifiers_compose rows) loc_id p.2
    else p
  let p := if lv &&& char_is_decomposable_with_combining ≠ 0 then
      ncs_group p.1 "combining-decompose" (apply_combining_modifiers_decompose rows) loc_id p.2
    else p
  let p := if lv &&& char_is_core_compatibility ≠ 0 then
      ncs_group p.1 "punct" (normalize_punctuation rows) loc_id p.2 else p
  let p := if lv &&& char_is_decomposable_arabic_punctuation ≠ 0 then
      ncs_group p.1 "punct-arabic" normalize_arabic_punctuation loc_id p.2 else p
  let p := if lv &&& char_is_decomposable_cjk_punctuation ≠ 0 then
      ncs_group p.1 "punct-cjk" normalize_cjk_punctuation loc_id p.2 else p
  let p := if lv &&& char_is_decomposable_greek_punctuation ≠ 0 then
      ncs_group p.1 "punct-greek" normalize_greek_punctuation loc_id p.2 else p
  let p := if lv &&& char_is_decomposable_misc_f_punctuation ≠ 0 then
      ncs_group p.1 "punct-misc-f" normalize_misc_f_punctuation loc_id p.2 else p
  let p := if lv &&& char_is_decomposable_dash ≠ 0 then
      ncs_group p.1 "punct-dash" normalize_dash_punctuation loc_id p.2 else p
  let p := if lv &&& char_is_decomposable_non_zero_space ≠ 0 then
      ncs_group p.1 "space" normalize_non_zero_spaces loc_id p.2 else p
  let p := if lv &&& char_is_mappable_decimal_digit ≠ 0 then
      ncs_group p.1 "digit" (map_digits_to_ascii rows lv) loc_id p.2 else p
  let p := if lv &&& char_is_arabic ≠ 0 then
      if lang_code = "fas" then
        if lv &&& char_is_mappable_in_farsi ≠ 0 ∨ lv &&& char_is_arabic_presentation_form ≠ 0 then
          ncs_group p.1 "farsi-char" normalize_farsi_characters loc_id p.2
        else p
      else if lang_code = "pas" then
        if lv &&& char_is_mappable_in_pashto ≠ 0 ∨ lv &&& char_is_arabic_presentation_form ≠ 0 then
          ncs_group p.1 "pashto-char" normalize_pashto_characters loc_id p.2
        else p
      else
        if lv &&& char_is_mappable_in_arabic ≠ 0 ∨ lv &&& char_is_arabic_presentation_form ≠ 0 then
          ncs_group p.1 "arabic-char" normalize_arabic_characters loc_id p.2
        else p
    else p
  let n_scripts := ([char_is_latin, char_is_greek, char_is_cyrillic].filter
      (fun b => lv &&& b ≠ 0)).length
  let t := if 2 ≤ n_scripts then
      ncs_group_look_alike rows wb.la p.1 loc_id p.2
    else (wb.la, p)
  let p := t.2
  let p := if lv &&& char_is_ampersand ≠ 0 ∧ lv &&& char_is_semicolon ≠ 0 then
      ncs_group p.1 "repair-xml" repair_xml loc_id p.2 else p
  let p := if lv &&& char_is_percent_sign ≠ 0 then
      ncs_group p.1 "repair-url-espaces" repair_url_escapes loc_id p.2 else p
  let p := if lv &&& char_is_arabic ≠ 0
      ∧ (lv &&& char_is_detachable_from_token ≠ 0 ∨ lv &&& char_is_mappable_decimal_digit ≠ 0) then
      ncs_group p.1 "repair-token" repair_arabic_tokenization loc_id p.2 else p
  let htF := if p.2 ≠ s then (ht_incr p.1 "COUNT-ALL").1 else p.1
  ({ wb with la := t.1 }, htF, p.2)

/-- `norm_clean_string` (lines 1363-1459): the gated pass sequence
followed by the unconditional removal of spaces before tabs/newlines
(line 1458). -/
def norm_clean_string (wb : WbState) (ht : Ht) (lang_code loc_id : String) (s : Text) :
    WbState × Ht × Text :=
  let r := norm_clean_string_core wb ht lang_code loc_id s
  (r.1, r.2.1, strip_spaces_before_tab_newline r.2.2)

/-! ## Step selection -/

/-- `all_norm_elems` (lines 94-101). -/
def all_norm_elems : List String :=
  ["repair-encoding-errors", "del-surrogate", "del-zero-width", "del-ctrl-char",
   "del-tatweel", "del-arabic-diacr", "del-hebrew-diacr", "core-compat", "pres-form",
   "ligatures", "signs-and-symbols", "cjk", "width", "font", "small", "vertical",
   "enclosure", "hangul", "repair-combining", "combining-compose", "combining-decompose",
   "punct", "punct-dash", "punct-arabic", "punct-cjk", "punct-greek", "punct-misc-f",
   "space", "digit", "arabic-char", "farsi-char", "pashto-char", "georgian-char",
   "look-alike", "repair-xml", "repair-url-escapes", "repair-token"]

/-- `default_norm_elems` (lines 102-105). -/
def default_norm_elems : List String :=
  ["repair-encoding-errors", "del-surrogate", "del-ctrl-char", "del-tatweel",
   "core-compat", "pres-form", "hangul", "repair-combining", "combining-compose",
   "combining-decompose", "repair-xml", "repair-url-escapes"]

/-- `build_norm_step_dict` (lines 1470-1489): base member list, then the
skip list sets `SKIP-*` to `True`, then the add list sets it back to
`False` (so add wins over skip). -/
def build_norm_step_dict (base : String) (skip add : List String) : Ht :=
  let base_elems := if base = "NONE" then []
                    else if base = "ALL" then all_norm_elems
                    else default_norm_elems
  let d : Ht := all_norm_elems.foldl
      (fun d e => ht_put d ("SKIP-" ++ e) (.b (e ∉ base_elems))) []
  let d := skip.foldl (fun d e => ht_put d ("SKIP-" ++ e) (.b true)) d
  add.foldl (fun d e => ht_put d ("SKIP-" ++ e) (.b false)) d

/-- The warnings `main` emits before any text is processed
(lines 1541-1554).  `add_list`/`skip_list` are the comma-split `--add`
plus `--only` and `--skip` plus `--all-except` lists (lines 1528-1529). -/
inductive MainWarning where
  | ignore_all_due_to_all_except
  | reinterpret_only_as_add
  | ignore_only_due_to_all
  | add_skip_conflict (elems : List String)
deriving DecidableEq, Repr

def main_warnings (all_flag all_except_flag only_flag : Bool)
    (add_list skip_list : List String) : List MainWarning :=
  (if all_flag && all_except_flag then [.ignore_all_due_to_all_except] else [])
  ++ (if only_flag && all_except_flag then [.reinterpret_only_as_add]
      else if only_flag && all_flag then [.ignore_only_due_to_all] else [])
  ++ (let conf := add_list.filter (fun e => e ∈ skip_list)
      if conf ≠ [] then [.add_skip_conflict conf] else [])

/-- The per-step skip resolution of `main` (lines 1555-1567): the add
list wins, then the skip list, then the base policy. -/
def main_resolve_skip (all_flag all_except_flag only_flag : Bool)
    (add_list skip_list : List String) (norm_elem : String) : Bool :=
  if norm_elem ∈ add_list then false
  else if norm_elem ∈ skip_list then true
  else if all_flag || all_except_flag then false
  else if only_flag then true
  else decide (norm_elem ∉ default_norm_elems)

/-- The empty look-alike state (no `look-alikes.txt` rows loaded, no
counters). -/
def la0 : LAState := ⟨[], [], [], [], []⟩

/-- A small concrete look-alike table: Cyrillic а (U+0430) and Latin a
(U+0061) are look-alikes of each other, as are Greek α (U+03B1) and
Latin a.  `look-alikes.txt` is not in the source tree, so a concrete
table state stands in for loaded data in concrete computations. -/
def la1 : LAState :=
  ⟨[((Script.Cyrillic, Script.Latin, 0x430), 0x61),
    ((Script.Latin, Script.Cyrillic, 0x61), 0x430),
    ((Script.Greek, Script.Latin, 0x3B1), 0x61),
    ((Script.Latin, Script.Greek, 0x61), 0x3B1)], [], [], [], []⟩

/-! ## Theorems -/

def head_is_tab_nl : Text → Bool
  | t :: _ => t == 0x09 || t == 0x0A
  | [] => false

/-- No space character directly precedes a tab or newline. -/
def no_space_before_tab_nl : Text → Bool
  | [] => true
  | c :: rest => !(c == 0x20 && head_is_tab_nl rest) && no_space_before_tab_nl rest

theorem strip_head_aux (s : Text) :
    head_is_tab_nl (strip_spaces_before_tab_newline s) = true →
    head_is_tab_nl (s.dropWhile (fun x => x == 0x20)) = true := by
  induction s with
  | nil => simp [strip_spaces_before_tab_newline]
  | cons r rr ih =>
      intro h
      rw [strip_spaces_before_tab_newline] at h
      by_cases hc : (r == 0x20 && (match rr.dropWhile (fun x => x == 0x20) with
                                   | t :: _ => t == 0x09 || t == 0x0A
                                   | [] => false)) = true
      · rw [if_pos hc] at h
        have hr : r = 0x20 := by
          have := (Bool.and_eq_true _ _).mp hc
          simpa using this.1
        have := ih h
        simpa [List.dropWhile, hr] using this
      · rw [if_neg hc] at h
        simp only [head_is_tab_nl] at h
        have hr : r = 0x09 ∨ r = 0x0A := by simpa using h
        have hr32 : (r == 0x20) = false := by
          rcases hr with hr | hr <;> simp [hr]
        simp [List.dropWhile, hr32, head_is_tab_nl, h]

theorem no_space_cons (c : Nat) (l : Text) :
    no_space_before_tab_nl (c :: l)
      = (!(c == 0x20 && head_is_tab_nl l) && no_space_before_tab_nl l) := rfl

theorem strip_no_space (s : Text) :
    no_space_before_tab_nl (strip_spaces_before_tab_newline s) = true := by
  induction s with
  | nil => simp [strip_spaces_before_tab_newline, no_space_before_tab_nl]
  | cons c rest ih =>
      rw [strip_spaces_before_tab_newline]
      by_cases hc : (c == 0x20 && (match rest.dropWhile (fun x => x == 0x20) with
                                   | t :: _ => t == 0x09 || t == 0x0A
                                   | [] => false)) = true
      · rw [if_pos hc]; exact ih
      · rw [if_neg hc]
        rw [no_space_cons]
        refine (Bool.and_eq_true _ _).mpr ⟨?_, ih⟩
        by_cases hcc : c = 0x20
        · subst hcc
          simp only [beq_self_eq_true, Bool.true_and, Bool.not_eq_true']
          by_cases hh : head_is_tab_nl (strip_spaces_before_tab_newline rest) = true
          · exfalso
            apply hc
            have := strip_head_aux rest hh
            simp only [beq_self_eq_true, Bool.true_and]
            rcases hd : rest.dropWhile (fun x => x == 0x20) with _ | ⟨t, l⟩
            · rw [hd] at this; simp [head_is_tab_nl] at this
            · rw [hd] at this; simpa [head_is_tab_nl] using this
          · exact Bool.not_eq_true _ ▸ (Bool.eq_false_iff.mpr hh)
        · simp [hcc]

/-- C10.  `norm_clean_string` ends with the unconditional
`re.sub(' +(?=[\t\n])', '', s)`: for every state, configuration and
input the returned text is the space-stripped pass-pipeline output and
never contains a space directly before a tab or newline; in particular,
with every normalization step skipped (`build_norm_step_dict 'NONE'`),
the input `'a \tb'` comes back as `'a\tb'`, so `norm_clean_string` is
not the identity even with all passes disabled. -/
theorem C10_unconditional_trailing_space_removal :
    (∀ (wb : WbState) (ht : Ht) (lang loc : String) (s : Text),
        (norm_clean_string wb ht lang loc s).2.2
          = strip_spaces_before_tab_newline ((norm_clean_string_core wb ht lang loc s).2.2)
        ∧ no_space_before_tab_nl ((norm_clean_string wb ht lang loc s).2.2) = true)
    ∧ (norm_clean_string ⟨[], ⟨[], [], [], [], []⟩⟩ (build_norm_step_dict "NONE" [] [])
        "" "" [0x61, 0x20, 0x09, 0x62]).2.2 = [0x61, 0x09, 0x62] := by
  refine ⟨fun wb ht lang loc s => ⟨rfl, ?_⟩, by decide⟩
  show no_space_before_tab_nl
      (strip_spaces_before_tab_newline ((norm_clean_string_core wb ht lang loc s).2.2)) = true
  exact strip_no_space _

theorem ht_get_put (d : Ht) (k key : String) (v : HtVal) :
    ht_get (ht_put d k v) key = if k = key then some v else ht_get d key := by
  by_cases h : k = key <;> simp [ht_get, ht_put, List.find?, h]

theorem ht_get_foldl_put (l : List String) (d : Ht) (v : HtVal) (key : String) :
    ht_get (l.foldl (fun d e => ht_put d ("SKIP-" ++ e) v) d) key
      = if l.any (fun e => "SKIP-" ++ e = key) then some v else ht_get d key := by
  induction l generalizing d with
  | nil => simp
  | cons e es ih =>
      simp only [List.foldl_cons, List.any_cons]
      rw [ih]
      by_cases h1 : es.any (fun e => decide ("SKIP-" ++ e = key)) = true
      · simp [h1]
      · simp only [h1, if_false, Bool.or_false]
        rw [ht_get_put]
        by_cases h2 : "SKIP-" ++ e = key
        · simp [h2]
        · simp [h2]

def conflict_elems : MainWarning → List String
  | .add_skip_conflict es => es
  | _ => []

/-- C8.  Add wins over skip, with a warning: in `build_norm_step_dict`
the add list is applied after the skip list, so a pass named in both
ends up with `SKIP-<pass> = False` for every base policy; and in `main`,
the add list is consulted first when resolving each step, and exactly
one conflict warning — naming every pass that appears in both lists — is
emitted among the pre-processing warnings (before `norm_clean_lines`
runs).  In particular for DEFAULT base with `skip=['digit']`,
`add=['digit']`, the `digit` step is active and the warning names it. -/
theorem C8_add_wins_over_skip_with_conflict_warning :
    (∀ (base : String) (skip add : List String) (p : String), p ∈ add →
        ht_get (build_norm_step_dict base skip add) ("SKIP-" ++ p) = some (.b false))
    ∧ (∀ (allF allExceptF onlyF : Bool) (add_list skip_list : List String) (p : String),
        p ∈ add_list → p ∈ skip_list →
        main_resolve_skip allF allExceptF onlyF add_list skip_list p = false
        ∧ ((main_warnings allF allExceptF onlyF add_list skip_list).filter
              (fun w => conflict_elems w ≠ [])
            = [.add_skip_conflict (add_list.filter (fun e => e ∈ skip_list))]
          ∧ p ∈ add_list.filter (fun e => e ∈ skip_list)))
    ∧ (ht_truthy (build_norm_step_dict "DEFAULT" ["digit"] ["digit"]) "SKIP-digit" = false
        ∧ main_warnings false false false ["digit"] ["digit"]
            = [.add_skip_conflict ["digit"]]) := by
  refine ⟨?_, ?_, by decide, by decide⟩
  · intro base skip add p hp
    unfold build_norm_step_dict
    rw [ht_get_foldl_put]
    have : add.any (fun e => "SKIP-" ++ e = ("SKIP-" ++ p)) = true := by
      rw [List.any_eq_true]
      exact ⟨p, hp, by simp⟩
    simp [this]
  · intro allF allExceptF onlyF add_list skip_list p hadd hskip
    have hmem : p ∈ add_list.filter (fun e => e ∈ skip_list) := by
      rw [List.mem_filter]
      exact ⟨hadd, by simpa using hskip⟩
    have hne : add_list.filter (fun e => decide (e ∈ skip_list)) ≠ [] := by
      intro hnil
      rw [hnil] at hmem
      exact absurd hmem (List.not_mem_nil p)
    refine ⟨by simp [main_resolve_skip, hadd], ?_, hmem⟩
    cases allF <;> cases allExceptF <;> cases onlyF <;>
      simp [main_warnings, hne, conflict_elems]

/-- Closed witness for the universally quantified parts of the C8
theorem, instantiated at the DEFAULT base with the `digit` conflict. -/
theorem C8_add_wins_over_skip_with_conflict_warning_witness :
    ht_get (build_norm_step_dict "DEFAULT" ["digit"] ["digit"]) "SKIP-digit"
        = some (.b false)
      ∧ main_resolve_skip false false false ["digit"] ["digit"] "digit" = false := by
  refine ⟨?_, ?_⟩
  · have h := C8_add_wins_over_skip_with_conflict_warning.1 "DEFAULT" ["digit"] ["digit"]
      "digit" (by decide)
    simpa using h
  · exact (C8_add_wins_over_skip_with_conflict_warning.2.1 false false false
      ["digit"] ["digit"] "digit" (by decide) (by decide)).1

/-- C3.  Hangul composition: for every valid modern jamo triple (leading
consonant U+1100-U+1112, vowel U+1161-U+1175, trailing consonant absent
or U+11A8-U+11C2), `hangul_jamo_triple_to_syllable` returns the single
code point `0xAC00 + lead_index*588 + vowel_index*28 + trail_index`, and
`normalize_hangul` replaces the corresponding two- or three-jamo string
by that one syllable. -/
theorem C3_hangul_composition_formula (l v : Nat) (t : Option Nat)
    (hl : 0x1100 ≤ l ∧ l ≤ 0x1112) (hv : 0x1161 ≤ v ∧ v ≤ 0x1175)
    (htr : match t with | none => True | some tc => 0x11A8 ≤ tc ∧ tc ≤ 0x11C2) :
    hangul_jamo_triple_to_syllable l v t
      = some (0xAC00 + (l - 0x1100) * 588 + (v - 0x1161) * 28
          + (match t with | none => 0 | some tc => tc - 0x11A7))
    ∧ normalize_hangul (l :: v :: (match t with | none => [] | some tc => [tc]))
      = [0xAC00 + (l - 0x1100) * 588 + (v - 0x1161) * 28
          + (match t with | none => 0 | some tc => tc - 0x11A7)] := by
  have hlr : inR 0x1100 0x1113 l = true := by simp [inR]; omega
  have hvr : inR 0x1161 0x1176 v = true := by simp [inR]; omega
  have hgv : (inR 0x1100 0x1113 l && inR 0x1161 0x1176 v) = true := by
    rw [hlr, hvr]
    rfl
  cases t with
  | none =>
      have hcomp : hangul_jamo_triple_to_syllable l v none
          = some (0xAC00 + (l - 0x1100) * 588 + (v - 0x1161) * 28 + 0) := by
        unfold hangul_jamo_triple_to_syllable
        split
        · simp only [Option.some.injEq]
          omega
        · rename_i hcond
          exfalso
          apply hcond
          show (inR 0x1100 0x1113 l && inR 0x1161 0x1176 v && true) = true
          rw [hlr, hvr]
          rfl
      refine ⟨hcomp, ?_⟩
      unfold normalize_hangul
      rw [if_pos (by simp [List.any_cons, hvr])]
      simp only
      rw [normalize_hangul_scan, if_pos hgv, hcomp]
      simp only [Option.getD_some]
  | some tc =>
      simp only at htr
      have htc : inR 0x11A8 0x11C3 tc = true := by simp [inR]; omega
      have hcomp : hangul_jamo_triple_to_syllable l v (some tc)
          = some (0xAC00 + (l - 0x1100) * 588 + (v - 0x1161) * 28 + (tc - 0x11A7)) := by
        unfold hangul_jamo_triple_to_syllable
        split
        · simp only [Option.some.injEq]
          omega
        · rename_i hcond
          exfalso
          apply hcond
          show (inR 0x1100 0x1113 l && inR 0x1161 0x1176 v && inR 0x11A8 0x11C3 tc) = true
          rw [hlr, hvr, htc]
          rfl
      refine ⟨hcomp, ?_⟩
      unfold normalize_hangul
      rw [if_pos (by simp [List.any_cons, hvr])]
      simp only
      rw [normalize_hangul_scan, if_pos hgv, if_pos htc, hcomp]
      simp only [Option.getD_some, normalize_hangul_scan]

/-- Closed witness for C3: the triple (U+1100, U+1161, U+11A8) composes
to U+AC01, and the pair (U+1112, U+1175) composes to U+D788. -/
theorem C3_hangul_composition_formula_witness :
    hangul_jamo_triple_to_syllable 0x1100 0x1161 (some 0x11A8) = some 0xAC01
      ∧ normalize_hangul [0x1100, 0x1161, 0x11A8] = [0xAC01]
      ∧ normalize_hangul [0x1112, 0x1175] = [0xD788] := by
  have h1 := C3_hangul_composition_formula 0x1100 0x1161 (some 0x11A8)
    (by decide) (by decide) (by decide)
  have h2 := C3_hangul_composition_formula 0x1112 0x1175 none
    (by decide) (by decide) trivial
  refine ⟨?_, ?_, ?_⟩
  · simpa using h1.1
  · simpa using h1.2
  · simpa using h2.2

/-- `normalize_hangul_scan` with the composer's assertion made explicit:
`none` models a raised `AssertionError`. -/
def normalize_hangul_scan_checked : Text → Option Text
  | [] => some []
  | [x] => some [x]
  | [l, v] =>
      if inR 0x1100 0x1113 l && inR 0x1161 0x1176 v then
        match hangul_jamo_triple_to_syllable l v none with
        | some c => some [c]
        | none => none
      else
        (normalize_hangul_scan_checked [v]).map (l :: ·)
  | l :: v :: t :: rest =>
      if inR 0x1100 0x1113 l && inR 0x1161 0x1176 v then
        if inR 0x11A8 0x11C3 t then
          match hangul_jamo_triple_to_syllable l v (some t) with
          | some c => (normalize_hangul_scan_checked rest).map (c :: ·)
          | none => none
        else
          match hangul_jamo_triple_to_syllable l v none with
          | some c => (normalize_hangul_scan_checked (t :: rest)).map (c :: ·)
          | none => none
      else
        (normalize_hangul_scan_checked (v :: t :: rest)).map (l :: ·)

theorem hangul_comp_pair_some (x y : Nat) (hx : inR 0x1100 0x1113 x = true)
    (hy : inR 0x1161 0x1176 y = true) :
    hangul_jamo_triple_to_syllable x y none
      = some ((x - 0x1100) * 588 + (y - 0x1161) * 28 + 0 + 0xAC00) := by
  unfold hangul_jamo_triple_to_syllable
  split
  · simp only [Option.some.injEq]
  · rename_i hcond
    exfalso
    apply hcond
    show (inR 0x1100 0x1113 x && inR 0x1161 0x1176 y && true) = true
    rw [hx, hy]
    rfl

theorem hangul_comp_triple_some (x y z : Nat) (hx : inR 0x1100 0x1113 x = true)
    (hy : inR 0x1161 0x1176 y = true) (hz : inR 0x11A8 0x11C3 z = true) :
    hangul_jamo_triple_to_syllable x y (some z)
      = some ((x - 0x1100) * 588 + (y - 0x1161) * 28 + (z - 0x11A7) + 0xAC00) := by
  unfold hangul_jamo_triple_to_syllable
  split
  · simp only [Option.some.injEq]
  · rename_i hcond
    exfalso
    apply hcond
    show (inR 0x1100 0x1113 x && inR 0x1161 0x1176 y && inR 0x11A8 0x11C3 z) = true
    rw [hx, hy, hz]
    rfl

/-- C4.  `normalize_hangul` never raises: every match of the gating
regular expression satisfies the assertion preconditions of
`hangul_jamo_triple_to_syllable` (the captured groups are drawn from
exactly the asserted ranges), so the assertion branch is unreachable and
the checked scanner always succeeds, returning the unchecked result. -/
theorem C4_normalize_hangul_never_raises (s : Text) :
    normalize_hangul_scan_checked s = some (normalize_hangul_scan s)
    ∧ (s.any (fun c => inR 0x1161 0x1176 c) = true →
        normalize_hangul_scan_checked s = some (normalize_hangul s)) := by
  have main : ∀ u : Text, normalize_hangul_scan_checked u = some (normalize_hangul_scan u) := by
    intro u
    induction u using normalize_hangul_scan_checked.induct with
    | case1 => rfl
    | case2 x => rfl
    | case3 x y hg t hc =>
        rw [normalize_hangul_scan_checked, normalize_hangul_scan, if_pos hg, if_pos hg, hc]
        simp
    | case4 x y hg hc =>
        obtain ⟨hx, hy⟩ := (Bool.and_eq_true _ _).mp hg
        rw [hangul_comp_pair_some x y hx hy] at hc
        exact absurd hc (by simp)
    | case5 x y hg ih =>
        rw [normalize_hangul_scan_checked, normalize_hangul_scan, if_neg hg, if_neg hg, ih]
        rfl
    | case6 x y z rest hg hz t hc ih =>
        rw [normalize_hangul_scan_checked, normalize_hangul_scan, if_pos hg, if_pos hg,
          if_pos hz, if_pos hz, hc, ih]
        simp
    | case7 x y z rest hg hz hc =>
        obtain ⟨hx, hy⟩ := (Bool.and_eq_true _ _).mp hg
        rw [hangul_comp_triple_some x y z hx hy hz] at hc
        exact absurd hc (by simp)
    | case8 x y z rest hg hz t hc ih =>
        rw [normalize_hangul_scan_checked, normalize_hangul_scan, if_pos hg, if_pos hg,
          if_neg hz, if_neg hz, hc, ih]
        simp
    | case9 x y z rest hg hz hc =>
        obtain ⟨hx, hy⟩ := (Bool.and_eq_true _ _).mp hg
        rw [hangul_comp_pair_some x y hx hy] at hc
        exact absurd hc (by simp)
    | case10 x y z rest hg ih =>
        rw [normalize_hangul_scan_checked, normalize_hangul_scan, if_neg hg, if_neg hg, ih]
        rfl
  refine ⟨main s, fun hany => ?_⟩
  rw [normalize_hangul, if_pos hany]
  exact main s

theorem swap_vs_nukta_run_go_id (vs : Nat → Bool) (nk : Nat) :
    ∀ (fuel : Nat) (s : Text), (∀ c ∈ s, c ≠ nk) →
      swap_vs_nukta_run_go vs nk fuel s = s := by
  intro fuel
  induction fuel with
  | zero => intro s _; rfl
  | succ n ih =>
      intro s hs
      cases s with
      | nil => rfl
      | cons c rest =>
          have hcond : ¬(vs c = true ∧ rest.head? = some nk) := by
            rintro ⟨-, hh⟩
            have hmem : nk ∈ rest := by
              cases rest with
              | nil => simp at hh
              | cons a l =>
                  simp only [List.head?_cons, Option.some.injEq] at hh
                  simp [hh]
            exact hs nk (List.mem_cons_of_mem c hmem) rfl
          rw [swap_vs_nukta_run_go, if_neg hcond]
          rw [ih rest (fun c hc => hs c (List.mem_cons_of_mem _ hc))]

theorem swap_vs_nukta_run_id (vs : Nat → Bool) (nk : Nat) (s : Text)
    (h : ∀ c ∈ s, c ≠ nk) : swap_vs_nukta_run vs nk s = s :=
  swap_vs_nukta_run_go_id vs nk s.length s h

theorem collapse_dup_go_id (k : Nat) :
    ∀ (fuel : Nat) (s : Text), (∀ c ∈ s, c ≠ k) →
      collapse_dup_go k fuel s = s := by
  intro fuel
  induction fuel with
  | zero => intro s _; rfl
  | succ n ih =>
      intro s hs
      cases s with
      | nil => rfl
      | cons c rest =>
          have hcond : ¬(c = k ∧ rest.head? = some k) := by
            rintro ⟨hc, -⟩
            exact hs c (List.mem_cons_self c rest) hc
          rw [collapse_dup_go, if_neg hcond]
          rw [ih rest (fun c hc => hs c (List.mem_cons_of_mem _ hc))]

theorem collapse_dup_id (k : Nat) (s : Text) (h : ∀ c ∈ s, c ≠ k) :
    collapse_dup k s = s :=
  collapse_dup_go_id k s.length s h

theorem swap_pair_id (cls1 cls2 : Nat → Bool) :
    ∀ s : Text, (∀ c ∈ s, cls2 c = false) → swap_pair cls1 cls2 s = s := by
  intro s
  induction s with
  | nil => intro _; rfl
  | cons x l ih =>
      intro hs
      cases l with
      | nil => rfl
      | cons y rest =>
          have hy : cls2 y = false := hs y (List.mem_cons_of_mem _ (List.mem_cons_self _ _))
          rw [swap_pair, hy]
          simp only [Bool.and_false, Bool.false_eq_true, if_false]
          rw [ih (fun c hc => hs c (List.mem_cons_of_mem _ hc))]

theorem swap_vs_nukta_run_go_mem (vs : Nat → Bool) (nk : Nat) :
    ∀ (fuel : Nat) (s : Text) (x : Nat),
      x ∈ swap_vs_nukta_run_go vs nk fuel s → x ∈ s := by
  intro fuel
  induction fuel with
  | zero => intro s x hx; exact hx
  | succ n ih =>
      intro s x hx
      cases s with
      | nil => exact hx
      | cons c rest =>
          rw [swap_vs_nukta_run_go] at hx
          by_cases hcond : (vs c = true ∧ rest.head? = some nk)
          · rw [if_pos hcond] at hx
            rcases List.mem_append.mp hx with hx | hx
            · exact List.mem_cons_of_mem c
                ((List.takeWhile_sublist _).subset hx)
            · rcases List.mem_cons.mp hx with hx | hx
              · simp [hx]
              · exact List.mem_cons_of_mem c
                  ((List.dropWhile_sublist _).subset (ih _ x hx))
          · rw [if_neg hcond] at hx
            rcases List.mem_cons.mp hx with hx | hx
            · simp [hx]
            · exact List.mem_cons_of_mem c (ih rest x hx)

theorem swap_vs_nukta_run_mem (vs : Nat → Bool) (nk : Nat) (s : Text) (x : Nat)
    (h : x ∈ swap_vs_nukta_run vs nk s) : x ∈ s :=
  swap_vs_nukta_run_go_mem vs nk s.length s x h

theorem collapse_dup_go_mem (k : Nat) :
    ∀ (fuel : Nat) (s : Text) (x : Nat), x ∈ collapse_dup_go k fuel s → x ∈ s := by
  intro fuel
  induction fuel with
  | zero => intro s x hx; exact hx
  | succ n ih =>
      intro s x hx
      cases s with
      | nil => exact hx
      | cons c rest =>
          rw [collapse_dup_go] at hx
          by_cases hcond : (c = k ∧ rest.head? = some k)
          · rw [if_pos hcond] at hx
            rcases List.mem_cons.mp hx with hx | hx
            · simp [hx]
            · exact List.mem_cons_of_mem c
                ((List.dropWhile_sublist _).subset (ih _ x hx))
          · rw [if_neg hcond] at hx
            rcases List.mem_cons.mp hx with hx | hx
            · simp [hx]
            · exact List.mem_cons_of_mem c (ih rest x hx)

theorem collapse_dup_mem (k : Nat) (s : Text) (x : Nat)
    (h : x ∈ collapse_dup k s) : x ∈ s :=
  collapse_dup_go_mem k s.length s x h

/-- No two adjacent occurrences of `k`. -/
def no_adjacent_dup (k : Nat) : Text → Bool
  | [] => true
  | [_] => true
  | a :: b :: r => !(a == k && b == k) && no_adjacent_dup k (b :: r)

theorem no_adjacent_dup_cons (k c : Nat) (l : Text) :
    no_adjacent_dup k (c :: l)
      = ((match l.head? with
          | some b => !(c == k && b == k)
          | none => true) && no_adjacent_dup k l) := by
  cases l <;> simp [no_adjacent_dup]

theorem collapse_dup_go_head (k : Nat) (fuel : Nat) (s : Text) :
    (collapse_dup_go k fuel s).head? = s.head? := by
  cases fuel with
  | zero => rfl
  | succ n =>
      cases s with
      | nil => rfl
      | cons c rest =>
          rw [collapse_dup_go]
          by_cases hcond : (c = k ∧ rest.head? = some k)
          · rw [if_pos hcond]; rfl
          · rw [if_neg hcond]; rfl

theorem dropWhile_head_not (p : Nat → Bool) :
    ∀ (l : Text) (h : Nat), (l.dropWhile p).head? = some h → p h = false := by
  intro l
  induction l with
  | nil => intro h hh; simp [List.dropWhile] at hh
  | cons c rest ih =>
      intro h hh
      rw [List.dropWhile] at hh
      by_cases hc : p c = true
      · rw [hc] at hh; exact ih h hh
      · have hcf : p c = false := Bool.eq_false_iff.mpr hc
        rw [hcf] at hh
        simp only [List.head?_cons, Option.some.injEq] at hh
        rw [← hh]; exact hcf

theorem collapse_dup_go_no_adjacent (k : Nat) :
    ∀ (fuel : Nat) (s : Text), s.length ≤ fuel →
      no_adjacent_dup k (collapse_dup_go k fuel s) = true := by
  intro fuel
  induction fuel with
  | zero =>
      intro s hs
      have : s = [] := List.eq_nil_of_length_eq_zero (Nat.le_zero.mp hs)
      simp [this, collapse_dup_go, no_adjacent_dup]
  | succ n ih =>
      intro s hs
      cases s with
      | nil => simp [collapse_dup_go, no_adjacent_dup]
      | cons c rest =>
          simp only [List.length_cons, Nat.succ_le_succ_iff] at hs
          rw [collapse_dup_go]
          by_cases hcond : (c = k ∧ rest.head? = some k)
          · rw [if_pos hcond]
            rw [no_adjacent_dup_cons]
            have hdw : (rest.dropWhile (fun x => x = k)).length ≤ n :=
              Nat.le_trans (dropWhile_len_le _ rest) hs
            refine (Bool.and_eq_true _ _).mpr ⟨?_, ih _ hdw⟩
            rw [collapse_dup_go_head]
            rcases hh : (rest.dropWhile (fun x => x = k)).head? with _ | b
            · rfl
            · have hb := dropWhile_head_not (fun x => decide (x = k)) rest b hh
              simp only [decide_eq_false_iff_not] at hb
              simp [hb]
          · rw [if_neg hcond]
            rw [no_adjacent_dup_cons]
            refine (Bool.and_eq_true _ _).mpr ⟨?_, ih rest hs⟩
            rw [collapse_dup_go_head]
            rcases hh : rest.head? with _ | b
            · rfl
            · by_cases hck : c = k
              · have hbk : b ≠ k := by
                  intro hbk
                  exact hcond ⟨hck, by rw [hh, hbk]⟩
                simp [hbk]
              · simp [hck]

theorem collapse_dup_no_adjacent (k : Nat) (s : Text) :
    no_adjacent_dup k (collapse_dup k s) = true :=
  collapse_dup_go_no_adjacent k s.length s (Nat.le_refl _)

/-- With the Devanagari bit set and a string drawn entirely from the
Devanagari block U+0900-U+097F, every branch of the nukta-repair pass
other than the Devanagari one is a no-op (their character classes are
disjoint from the block), so the pass reduces to the Devanagari
vowel-sign/nukta swap followed by the duplicate-nukta collapse. -/
theorem repair_nukta_master (lv : Nat) (hdev : lv &&& char_is_devanagari ≠ 0)
    (s : Text) (hs : ∀ c ∈ s, 0x900 ≤ c ∧ c ≤ 0x97F) :
    repair_combining_modifiers_with_nukta lv s
      = collapse_dup 0x93C (swap_vs_nukta_run (fun c => inR 0x93E 0x94E c) 0x93C s) := by
  simp only [repair_combining_modifiers_with_nukta]
  rw [if_pos hdev]
  set u := collapse_dup 0x93C (swap_vs_nukta_run (fun c => inR 0x93E 0x94E c) 0x93C s) with hu
  have hs1 : ∀ c ∈ u, c ≤ 0x97F := by
    intro c hc
    exact (hs c (swap_vs_nukta_run_mem _ _ _ _ (collapse_dup_mem _ _ _ hc))).2
  rw [swap_vs_nukta_run_id (fun c => inR 0x9BE 0x9CE c) 0x9BC u
        (fun c hc => by have := hs1 c hc; omega),
      swap_vs_nukta_run_id (fun c => inR 0xA3E 0xA4E c) 0xA3C u
        (fun c hc => by have := hs1 c hc; omega),
      swap_vs_nukta_run_id (fun c => inR 0xABE 0xACE c) 0xABC u
        (fun c hc => by have := hs1 c hc; omega),
      swap_vs_nukta_run_id (fun c => inR 0xB3E 0xB4E c) 0xB3C u
        (fun c hc => by have := hs1 c hc; omega),
      swap_vs_nukta_run_id (fun c => inR 0xCBE 0xCCE c) 0xCBC u
        (fun c hc => by have := hs1 c hc; omega),
      collapse_dup_id 0x9BC u (fun c hc => by have := hs1 c hc; omega),
      collapse_dup_id 0xA3C u (fun c hc => by have := hs1 c hc; omega),
      collapse_dup_id 0xABC u (fun c hc => by have := hs1 c hc; omega),
      collapse_dup_id 0xB3C u (fun c hc => by have := hs1 c hc; omega),
      collapse_dup_id 0xCBC u (fun c hc => by have := hs1 c hc; omega),
      ite_self,
      swap_pair_id (fun c => inR 0x1C26 0x1C2D c) (fun c => c == 0x1C37) u
        (fun c hc => by have := hs1 c hc; simp; omega),
      ite_self,
      swap_pair_id (fun c => inR 0x110B0 0x110B9 c) (fun c => c == 0x110BA) u
        (fun c hc => by have := hs1 c hc; simp; omega),
      swap_pair_id (fun c => inR 0x111B3 0x111C1 c) (fun c => c == 0x111CA) u
        (fun c hc => by have := hs1 c hc; simp; omega),
      swap_pair_id (fun c => inR 0x1122C 0x11236 c) (fun c => c == 0x11236) u
        (fun c hc => by have := hs1 c hc; simp; omega),
      swap_pair_id (fun c => inR 0x112E0 0x112E9 c || c == 0x112EA) (fun c => c == 0x112E9) u
        (fun c hc => by have := hs1 c hc; simp; omega),
      swap_pair_id (fun c => inR 0x1133E 0x1134E c) (fun c => c == 0x1133C) u
        (fun c hc => by have := hs1 c hc; simp; omega),
      swap_pair_id (fun c => inR 0x11435 0x11443 c) (fun c => c == 0x11446) u
        (fun c hc => by have := hs1 c hc; simp; omega),
      swap_pair_id (fun c => inR 0x114B0 0x114C3 c) (fun c => c == 0x114C3) u
        (fun c hc => by have := hs1 c hc; simp; omega),
      swap_pair_id (fun c => inR 0x115AF 0x115C0 c) (fun c => c == 0x115C0) u
        (fun c hc => by have := hs1 c hc; simp; omega),
      swap_pair_id (fun c => inR 0x116AD 0x116B7 c) (fun c => c == 0x116B7) u
        (fun c hc => by have := hs1 c hc; simp; omega),
      swap_pair_id (fun c => inR 0x1182C 0x1183A c) (fun c => c == 0x1183A) u
        (fun c hc => by have := hs1 c hc; simp; omega),
      swap_pair_id (fun c => inR 0x11930 0x1193F c) (fun c => c == 0x11943) u
        (fun c hc => by have := hs1 c hc; simp; omega),
      swap_pair_id (fun c => inR 0x11D31 0x11D40 c || c == 0x11D45) (fun c => c == 0x11D42) u
        (fun c hc => by have := hs1 c hc; simp; omega),
      ite_self]

/-- C7.  The nukta-repair pass, for any line vector with the Devanagari
bit set: the out-of-order Devanagari sequence consonant + vowel-sign +
nukta (U+0924 U+0947 U+093C) is reordered to consonant + nukta +
vowel-sign; a run of consecutive nuktas collapses to a single nukta
(e.g. U+0924 followed by three nuktas yields U+0924 U+093C); and for
every string over the Devanagari block the pass output contains no two
consecutive nuktas. -/
theorem C7_devanagari_nukta_repair (lv : Nat) (hdev : lv &&& char_is_devanagari ≠ 0) :
    repair_combining_modifiers_with_nukta lv [0x924, 0x947, 0x93C] = [0x924, 0x93C, 0x947]
    ∧ repair_combining_modifiers_with_nukta lv [0x924, 0x93C, 0x93C, 0x93C] = [0x924, 0x93C]
    ∧ ∀ s : Text, (∀ c ∈ s, 0x900 ≤ c ∧ c ≤ 0x97F) →
        no_adjacent_dup 0x93C (repair_combining_modifiers_with_nukta lv s) = true := by
  refine ⟨?_, ?_, ?_⟩
  · rw [repair_nukta_master lv hdev _ (by decide)]
    decide
  · rw [repair_nukta_master lv hdev _ (by decide)]
    decide
  · intro s hs
    rw [repair_nukta_master lv hdev s hs]
    exact collapse_dup_no_adjacent _ _

/-- Closed witness for C7, with the line vector consisting of exactly
the Devanagari bit (as set by any Devanagari input line). -/
theorem C7_devanagari_nukta_repair_witness :
    char_is_devanagari &&& char_is_devanagari ≠ 0
    ∧ repair_combining_modifiers_with_nukta char_is_devanagari [0x924, 0x947, 0x93C]
        = [0x924, 0x93C, 0x947] := by
  refine ⟨by decide, ?_⟩
  exact (C7_devanagari_nukta_repair char_is_devanagari (by decide)).1

/-- `x ||| y` is disjoint from a mask iff both operands are. -/
theorem or_and_eq_zero (a x b : Nat) :
    (a ||| x) &&& b = 0 ↔ a &&& b = 0 ∧ x &&& b = 0 := by
  constructor
  · intro h
    constructor
    · apply Nat.eq_of_testBit_eq
      intro i
      have := congrArg (fun n => n.testBit i) h
      simp only [Nat.testBit_and, Nat.testBit_or, Nat.zero_testBit] at this ⊢
      cases hx : a.testBit i <;> cases hb : b.testBit i <;> simp_all
    · apply Nat.eq_of_testBit_eq
      intro i
      have := congrArg (fun n => n.testBit i) h
      simp only [Nat.testBit_and, Nat.testBit_or, Nat.zero_testBit] at this ⊢
      cases hx : x.testBit i <;> cases hb : b.testBit i <;> simp_all
  · intro ⟨h1, h2⟩
    apply Nat.eq_of_testBit_eq
    intro i
    have t1 := congrArg (fun n => n.testBit i) h1
    have t2 := congrArg (fun n => n.testBit i) h2
    simp only [Nat.testBit_and, Nat.testBit_or, Nat.zero_testBit] at t1 t2 ⊢
    cases hx : a.testBit i <;> cases hb : b.testBit i <;> simp_all

/-- A fold of bitwise ORs is disjoint from a mask iff the seed and every
contribution are. -/
theorem foldl_or_and_zero (f : Nat → Nat) (b : Nat) (s : Text) : ∀ a : Nat,
    (s.foldl (fun acc c => acc ||| f c) a) &&& b = 0
      ↔ a &&& b = 0 ∧ ∀ c ∈ s, f c &&& b = 0 := by
  induction s with
  | nil => intro a; simp
  | cons c t ih =>
      intro a
      rw [List.foldl_cons, ih (a ||| f c), or_and_eq_zero]
      constructor
      · rintro ⟨⟨h1, h2⟩, h3⟩
        refine ⟨h1, ?_⟩
        intro d hd
        rcases List.mem_cons.mp hd with hd | hd
        · rw [hd]; exact h2
        · exact h3 d hd
      · rintro ⟨h1, h2⟩
        exact ⟨⟨h1, h2 c (List.mem_cons_self c t)⟩,
               fun d hd => h2 d (List.mem_cons_of_mem c hd)⟩

/-- The line vector is disjoint from a mask iff every character's
classification vector is. -/
theorem set_lv_and_eq_zero_iff (rows : List DataRow) (s : Text) (b : Nat) :
    set_lv rows s &&& b = 0 ↔ ∀ c ∈ s, char_type_vector rows c &&& b = 0 := by
  rw [set_lv, foldl_or_and_zero]
  simp

/-- C1 (amended).  The line classification vector `set_lv` computed at
entry of `norm_clean_string` is exactly the bitwise OR of the
per-character classification vectors: a pass's gate bit is unset iff no
character of the string carries that bit.  The gate is therefore sound
relative to the per-character classification, but not relative to pass
behaviour: a pass can change characters that do not carry its gate bit,
and is then skipped even though it would have changed the string (see
the soft-hyphen counterexample). -/
theorem C1_gate_bit_reflects_character_classification
    (rows : List DataRow) (s : Text) (b : Nat) :
    set_lv rows s &&& b = 0 ↔ ∀ c ∈ s, char_type_vector rows c &&& b = 0 :=
  set_lv_and_eq_zero_iff rows s b

/-- C1 counterexample.  The soft hyphen U+00AD is deleted by
`delete_zero_width_characters`, but its classification vector does not
carry `char_is_zero_width_character` (it only gets the dash bit at
source line 307), so on the one-character string U+00AD the `del-zero-width`
gate stays off and the full pipeline (all passes enabled) returns the
string unchanged — a false negative of the gating vector. -/
theorem C1_counterexample_soft_hyphen_gate_false_negative :
    delete_zero_width_characters [0xAD] = []
    ∧ set_lv [] [0xAD] &&& char_is_zero_width_character = 0
    ∧ (norm_clean_string ⟨[], la0⟩ [] "" "" [0xAD]).2.2 = [0xAD] := by
  decide

/-- C2.  The skip flag of the `repair-url-escapes` pass is ignored by
the orchestrator: `build_norm_step_dict` registers the flag under
`SKIP-repair-url-escapes` (the name listed in `all_norm_elems`), but
`norm_clean_string` invokes the group under the misspelled name
`repair-url-espaces` (source line 1450), so with the pass explicitly
skipped the pipeline still rewrites `a%25C3%25AB` to `a%C3%AB` and
records a `CALL-repair-url-espaces` statistic. -/
theorem C2_skip_of_repair_url_escapes_is_ignored :
    ht_truthy (build_norm_step_dict "DEFAULT" ["repair-url-escapes"] [])
        "SKIP-repair-url-escapes" = true
    ∧ (norm_clean_string ⟨[], la0⟩ (build_norm_step_dict "DEFAULT" ["repair-url-escapes"] [])
        "" "" [0x61, 0x25, 0x32, 0x35, 0x43, 0x33, 0x25, 0x32, 0x35, 0x41, 0x42]).2.2
        = [0x61, 0x25, 0x43, 0x33, 0x25, 0x41, 0x42]
    ∧ ht_nat (norm_clean_string ⟨[], la0⟩ (build_norm_step_dict "DEFAULT" ["repair-url-escapes"] [])
        "" "" [0x61, 0x25, 0x32, 0x35, 0x43, 0x33, 0x25, 0x32, 0x35, 0x41, 0x42]).2.1
        "CALL-repair-url-espaces" = 1 := by
  decide

/-- C9 (amended).  `norm_clean_string` never mutates the mapping-table /
classification store of the `Wildebeest` object: the `rows` component
(backing `mapping_dict` and the data-derived part of
`char_type_vector_dict`) of the returned state is the input one.  The
look-alike dictionary, by contrast, is caller-visible mutable state of
the object and IS written by the look-alike pass (see the
counterexample). -/
theorem C9_mapping_and_classification_tables_never_mutated
    (wb : WbState) (ht : Ht) (lang loc : String) (s : Text) :
    (norm_clean_string wb ht lang loc s).1.rows = wb.rows := rfl

/-- C9 counterexample.  On the mixed-script input `aаaa` (second
character Cyrillic) the pipeline retargets the Cyrillic character and
increments the `n-to-Latin` counter *inside* `look_alike_dict`
(source line 1305 writes into `self.look_alike_dict`), so the shared
look-alike table differs after the call. -/
theorem C9_counterexample_look_alike_dict_mutated :
    (norm_clean_string ⟨[], la1⟩ [] "" "" [0x61, 0x430, 0x61, 0x61]).1.la ≠ la1
    ∧ (norm_clean_string ⟨[], la1⟩ [] "" "" [0x61, 0x430, 0x61, 0x61]).1.la.counters
        = [("n-to-Latin", 1)] := by
  decide

theorem takeWhile_nil_of_false (p : Nat → Bool) (l : Text) (h : ∀ c ∈ l, p c = false) :
    l.takeWhile p = [] := by
  cases l with
  | nil => rfl
  | cons c t => simp [List.takeWhile_cons, h c (by simp)]

theorem dropWhile_self_of_false (p : Nat → Bool) (l : Text) (h : ∀ c ∈ l, p c = false) :
    l.dropWhile p = l := by
  cases l with
  | nil => rfl
  | cons c t => simp [List.dropWhile_cons, h c (by simp)]

theorem takeWhile_all_of_true (p : Nat → Bool) (l : Text) (h : ∀ c ∈ l, p c = true) :
    l.takeWhile p = l := by
  induction l with
  | nil => rfl
  | cons c t ih =>
      have ht := ih (fun d hd => h d (List.mem_cons_of_mem c hd))
      simp [List.takeWhile_cons, h c (by simp), ht]

theorem wb_match_token_single (tok : Text) (h1 : tok ≠ [])
    (h2 : ∀ c ∈ tok, is_py_space c = false) :
    wb_match_token tok = some ([], tok, []) := by
  simp only [wb_match_token]
  rw [takeWhile_nil_of_false _ _ h2, dropWhile_self_of_false _ _ h2,
      takeWhile_all_of_true _ _ (fun c hc => by simp [h2 c hc]),
      List.drop_length]
  rw [if_neg h1]
  rfl

theorem correct_look_alikes_go_nil (rows : List DataRow) (n : Nat) (st : LAState) :
    correct_look_alikes_go rows n st [] = (st, []) := by
  cases n <;> rfl

theorem correct_look_alikes_single_token (rows : List DataRow) (st : LAState) (tok : Text)
    (h1 : tok ≠ []) (h2 : ∀ c ∈ tok, is_py_space c = false) :
    correct_look_alikes rows st tok = cla_process_token rows st tok := by
  rcases tok with _ | ⟨c, t⟩
  · exact absurd rfl h1
  · show correct_look_alikes_go rows (t.length + 1) st (c :: t) = _
    simp only [correct_look_alikes_go]
    rw [wb_match_token_single (c :: t) h1 h2]
    simp [correct_look_alikes_go_nil]

theorem two_le_n_scripts (rows : List DataRow) (tok : Text)
    (h1 : 1 ≤ stat_script rows tok .Latin) (h2 : 1 ≤ stat_script rows tok .Cyrillic) :
    2 ≤ n_scripts_of rows tok := by
  by_cases hg : 1 ≤ stat_script rows tok .Greek <;>
    simp [n_scripts_of, List.filter_cons, h1, h2, hg]

theorem cla_target_single_cyrillic (rows : List DataRow) (st : LAState) (tok : Text)
    (hcyr1 : stat_script rows tok .Cyrillic = 1)
    (hpair1 : stat_pair rows st tok .Cyrillic .Latin = 1)
    (hlat : 3 ≤ stat_script rows tok .Latin) :
    cla_target rows st tok = some .Latin := by
  have hns := two_le_n_scripts rows tok (by omega) (by omega)
  simp only [cla_target]
  rw [if_pos hns]
  by_cases hlt : stat_pair rows st tok .Latin .Cyrillic < stat_script rows tok .Latin
  · rw [if_pos ⟨by rw [hpair1, hcyr1], hlt⟩]
  · rw [if_neg (fun h => hlt h.2),
        if_neg (fun (h : _ ∧ _) => by rw [hpair1, hcyr1] at h; omega),
        if_pos ⟨hcyr1, hpair1, hlat⟩]

theorem cla_target_single_latin (rows : List DataRow) (st : LAState) (tok : Text)
    (hlat1 : stat_script rows tok .Latin = 1)
    (hpair1 : stat_pair rows st tok .Latin .Cyrillic = 1)
    (hcyr : 3 ≤ stat_script rows tok .Cyrillic) :
    cla_target rows st tok = some .Cyrillic := by
  have hns := two_le_n_scripts rows tok (by omega) (by omega)
  simp only [cla_target]
  rw [if_pos hns]
  rw [if_neg (fun (h : _ ∧ _) => by rw [hpair1, hlat1] at h; omega)]
  by_cases hlt : stat_pair rows st tok .Cyrillic .Latin < stat_script rows tok .Cyrillic
  · rw [if_pos ⟨by rw [hpair1, hlat1], hlt⟩]
  · rw [if_neg (fun h => hlt h.2),
        if_neg (fun (h : _ ∧ _) => by omega),
        if_pos ⟨hlat1, hpair1, hcyr⟩]

theorem cla_process_token_retarget (rows : List DataRow) (st : LAState) (tok : Text)
    (tgt : Script) (h : cla_target rows st tok = some tgt) :
    (cla_process_token rows st tok).2 = tok.map (fun c =>
        match char_script rows c with
        | some sc => (la_get st (sc, tgt, c)).getD c
        | none => c) := by
  simp only [cla_process_token, h]
  split <;> first
    | rfl
    | (split <;> first | rfl | (split <;> rfl))

theorem map_id_of_eq (f : Nat → Nat) (l : Text) (h : ∀ c ∈ l, f c = c) : l.map f = l := by
  induction l with
  | nil => rfl
  | cons c t ih => simp [h c (by simp), ih (fun d hd => h d (List.mem_cons_of_mem c hd))]

theorem cla_retarget_cyr_minority (rows : List DataRow) (st : LAState)
    (pre post : Text) (x m : Nat)
    (hsp : ∀ c ∈ pre ++ x :: post, is_py_space c = false)
    (hothers : ∀ c ∈ pre ++ post,
        char_script rows c = some Script.Latin ∨ char_script rows c = none)
    (hx : char_script rows x = some Script.Cyrillic)
    (hm : la_get st (Script.Cyrillic, Script.Latin, x) = some m)
    (hmaj : 3 ≤ stat_script rows (pre ++ x :: post) Script.Latin)
    (hself : ∀ c ∈ pre ++ post, la_get st (Script.Latin, Script.Latin, c) = none) :
    (correct_look_alikes rows st (pre ++ x :: post)).2 = pre ++ m :: post := by
  have hne : pre ++ x :: post ≠ [] := by simp
  have hcyr1 : stat_script rows (pre ++ x :: post) Script.Cyrillic = 1 := by
    have hpre0 : pre.filter (fun c => decide (char_script rows c = some Script.Cyrillic)) = [] := by
      rw [List.filter_eq_nil_iff]
      intro c hc
      rcases hothers c (List.mem_append_left _ hc) with h | h <;> simp [h]
    have hpost0 : post.filter (fun c => decide (char_script rows c = some Script.Cyrillic)) = [] := by
      rw [List.filter_eq_nil_iff]
      intro c hc
      rcases hothers c (List.mem_append_right _ hc) with h | h <;> simp [h]
    simp [stat_script, List.filter_append, List.filter_cons, hpre0, hpost0, hx]
  have hpair1 : stat_pair rows st (pre ++ x :: post) Script.Cyrillic Script.Latin = 1 := by
    have hpre0 : pre.filter (fun c => decide (char_script rows c = some Script.Cyrillic)
        && (la_get st (Script.Cyrillic, Script.Latin, c)).isSome) = [] := by
      rw [List.filter_eq_nil_iff]
      intro c hc
      rcases hothers c (List.mem_append_left _ hc) with h | h <;> simp [h]
    have hpost0 : post.filter (fun c => decide (char_script rows c = some Script.Cyrillic)
        && (la_get st (Script.Cyrillic, Script.Latin, c)).isSome) = [] := by
      rw [List.filter_eq_nil_iff]
      intro c hc
      rcases hothers c (List.mem_append_right _ hc) with h | h <;> simp [h]
    simp [stat_pair, List.filter_append, List.filter_cons, hx, hm]
    simp [hpre0, hpost0]
  have htgt := cla_target_single_cyrillic rows st _ hcyr1 hpair1 hmaj
  rw [correct_look_alikes_single_token rows st _ hne hsp,
      cla_process_token_retarget rows st _ _ htgt,
      List.map_append, List.map_cons]
  have hfx : (match char_script rows x with
              | some sc => (la_get st (sc, Script.Latin, x)).getD x
              | none => x) = m := by
    rw [hx]; simp [hm]
  rw [map_id_of_eq _ pre (fun c hc => by
        rcases hothers c (List.mem_append_left _ hc) with h | h
        · rw [h]; simp [hself c (List.mem_append_left _ hc)]
        · rw [h]),
      map_id_of_eq _ post (fun c hc => by
        rcases hothers c (List.mem_append_right _ hc) with h | h
        · rw [h]; simp [hself c (List.mem_append_right _ hc)]
        · rw [h]),
      hfx]

theorem cla_retarget_lat_minority (rows : List DataRow) (st : LAState)
    (pre post : Text) (x m : Nat)
    (hsp : ∀ c ∈ pre ++ x :: post, is_py_space c = false)
    (hothers : ∀ c ∈ pre ++ post,
        char_script rows c = some Script.Cyrillic ∨ char_script rows c = none)
    (hx : char_script rows x = some Script.Latin)
    (hm : la_get st (Script.Latin, Script.Cyrillic, x) = some m)
    (hmaj : 3 ≤ stat_script rows (pre ++ x :: post) Script.Cyrillic)
    (hself : ∀ c ∈ pre ++ post, la_get st (Script.Cyrillic, Script.Cyrillic, c) = none) :
    (correct_look_alikes rows st (pre ++ x :: post)).2 = pre ++ m :: post := by
  have hne : pre ++ x :: post ≠ [] := by simp
  have hlat1 : stat_script rows (pre ++ x :: post) Script.Latin = 1 := by
    have hpre0 : pre.filter (fun c => decide (char_script rows c = some Script.Latin)) = [] := by
      rw [List.filter_eq_nil_iff]
      intro c hc
      rcases hothers c (List.mem_append_left _ hc) with h | h <;> simp [h]
    have hpost0 : post.filter (fun c => decide (char_script rows c = some Script.Latin)) = [] := by
      rw [List.filter_eq_nil_iff]
      intro c hc
      rcases hothers c (List.mem_append_right _ hc) with h | h <;> simp [h]
    simp [stat_script, List.filter_append, List.filter_cons, hpre0, hpost0, hx]
  have hpair1 : stat_pair rows st (pre ++ x :: post) Script.Latin Script.Cyrillic = 1 := by
    have hpre0 : pre.filter (fun c => decide (char_script rows c = some Script.Latin)
        && (la_get st (Script.Latin, Script.Cyrillic, c)).isSome) = [] := by
      rw [List.filter_eq_nil_iff]
      intro c hc
      rcases hothers c (List.mem_append_left _ hc) with h | h <;> simp [h]
    have hpost0 : post.filter (fun c => decide (char_script rows c = some Script.Latin)
        && (la_get st (Script.Latin, Script.Cyrillic, c)).isSome) = [] := by
      rw [List.filter_eq_nil_iff]
      intro c hc
      rcases hothers c (List.mem_append_right _ hc) with h | h <;> simp [h]
    simp [stat_pair, List.filter_append, List.filter_cons, hx, hm]
    simp [hpre0, hpost0]
  have htgt := cla_target_single_latin rows st _ hlat1 hpair1 hmaj
  rw [correct_look_alikes_single_token rows st _ hne hsp,
      cla_process_token_retarget rows st _ _ htgt,
      List.map_append, List.map_cons]
  have hfx : (match char_script rows x with
              | some sc => (la_get st (sc, Script.Cyrillic, x)).getD x
              | none => x) = m := by
    rw [hx]; simp [hm]
  rw [map_id_of_eq _ pre (fun c hc => by
        rcases hothers c (List.mem_append_left _ hc) with h | h
        · rw [h]; simp [hself c (List.mem_append_left _ hc)]
        · rw [h]),
      map_id_of_eq _ post (fun c hc => by
        rcases hothers c (List.mem_append_right _ hc) with h | h
        · rw [h]; simp [hself c (List.mem_append_right _ hc)]
        · rw [h]),
      hfx]

/-- C6 (amended).  For a whitespace-delimited token written `pre ++ x :: post`
whose other characters are all of the majority script (Latin resp.
Cyrillic, at least 3 of them) or unclassified, whose single
minority-script character `x` (Cyrillic resp. Latin) has a look-alike
entry toward the majority script, and with no same-script look-alike
entries for the majority characters, `correct_look_alikes` retargets `x`
to its majority-script look-alike and leaves all other characters
unchanged.  (The original claim, for arbitrary tokens of length ≥ 3 and
arbitrary minority/majority pairs among Latin/Greek/Cyrillic, is false:
see the counterexample.) -/
theorem C6_single_minority_character_retargeted :
    (∀ (rows : List DataRow) (st : LAState) (pre post : Text) (x m : Nat),
      (∀ c ∈ pre ++ x :: post, is_py_space c = false) →
      (∀ c ∈ pre ++ post,
          char_script rows c = some Script.Latin ∨ char_script rows c = none) →
      char_script rows x = some Script.Cyrillic →
      la_get st (Script.Cyrillic, Script.Latin, x) = some m →
      3 ≤ stat_script rows (pre ++ x :: post) Script.Latin →
      (∀ c ∈ pre ++ post, la_get st (Script.Latin, Script.Latin, c) = none) →
      (correct_look_alikes rows st (pre ++ x :: post)).2 = pre ++ m :: post)
    ∧ (∀ (rows : List DataRow) (st : LAState) (pre post : Text) (x m : Nat),
      (∀ c ∈ pre ++ x :: post, is_py_space c = false) →
      (∀ c ∈ pre ++ post,
          char_script rows c = some Script.Cyrillic ∨ char_script rows c = none) →
      char_script rows x = some Script.Latin →
      la_get st (Script.Latin, Script.Cyrillic, x) = some m →
      3 ≤ stat_script rows (pre ++ x :: post) Script.Cyrillic →
      (∀ c ∈ pre ++ post, la_get st (Script.Cyrillic, Script.Cyrillic, c) = none) →
      (correct_look_alikes rows st (pre ++ x :: post)).2 = pre ++ m :: post) :=
  ⟨fun rows st pre post x m h1 h2 h3 h4 h5 h6 =>
      cla_retarget_cyr_minority rows st pre post x m h1 h2 h3 h4 h5 h6,
   fun rows st pre post x m h1 h2 h3 h4 h5 h6 =>
      cla_retarget_lat_minority rows st pre post x m h1 h2 h3 h4 h5 h6⟩

/-- Closed witness for C6: in the token `aaaа` (three Latin `a` and one
Cyrillic а, which `look-alikes.txt`-style table `la1` maps to Latin `a`),
the Cyrillic character is retargeted. -/
theorem C6_single_minority_character_retargeted_witness :
    char_script [] 0x430 = some Script.Cyrillic
    ∧ la_get la1 (Script.Cyrillic, Script.Latin, 0x430) = some 0x61
    ∧ 3 ≤ stat_script [] ([0x61, 0x61, 0x61] ++ 0x430 :: []) Script.Latin
    ∧ (correct_look_alikes [] la1 ([0x61, 0x61, 0x61] ++ 0x430 :: [])).2
        = [0x61, 0x61, 0x61] ++ 0x61 :: [] := by
  refine ⟨by decide, by decide, by decide, ?_⟩
  exact C6_single_minority_character_retargeted.1 [] la1 [0x61, 0x61, 0x61] [] 0x430 0x61
    (by decide) (by decide) (by decide) (by decide) (by decide) (by decide)

/-- C6 counterexample.  Two violations of the original claim:
(i) the 3-character token `aaа` has exactly one minority (Cyrillic)
character with a look-alike entry toward the majority script, yet is
returned unchanged — with only 2 majority characters none of the
retarget rules of lines 1258-1287 applies (the single-minority rule
requires at least 3); (ii) the 4-character token `αααa` has exactly one
minority (Latin) character with a look-alike entry toward the Greek
majority, yet is returned unchanged — the decision chain has no rules
for Greek targets. -/
theorem C6_counterexample_short_token_and_greek_majority :
    la_get la1 (Script.Cyrillic, Script.Latin, 0x430) = some 0x61
    ∧ (correct_look_alikes [] la1 [0x61, 0x61, 0x430]).2 = [0x61, 0x61, 0x430]
    ∧ la_get la1 (Script.Latin, Script.Greek, 0x61) = some 0x3B1
    ∧ (correct_look_alikes [] la1 [0x3B1, 0x3B1, 0x3B1, 0x61]).2
        = [0x3B1, 0x3B1, 0x3B1, 0x61] := by
  decide

theorem sub_char_class_id (cls : Nat → Bool) (f : Nat → Text) (s : Text)
    (h : ∀ c ∈ s, cls c = false) : sub_char_class cls f s = s := by
  induction s with
  | nil => rfl
  | cons c t ih =>
      simp only [sub_char_class, List.flatMap_cons, h c (by simp)]
      simp only [sub_char_class] at ih
      rw [ih (fun d hd => h d (List.mem_cons_of_mem c hd))]
      rfl

theorem sub_class_dict_id (rows : List DataRow) (cls : Nat → Bool) (s : Text)
    (h : ∀ c ∈ s, cls c = false) : sub_class_dict rows cls s = s :=
  sub_char_class_id cls _ s h

theorem sub_class_str_id (cls : Nat → Bool) (t : Text) (s : Text)
    (h : ∀ c ∈ s, cls c = false) : sub_class_str cls t s = s :=
  sub_char_class_id cls _ s h

theorem py_replace_go_id (pat t : Text) :
    ∀ (fuel : Nat) (s : Text), (∀ c ∈ s, pat.head? ≠ some c) →
      py_replace_go pat t fuel s = s := by
  intro fuel
  induction fuel with
  | zero => intro s _; rfl
  | succ k ih =>
      intro s h
      rcases s with _ | ⟨c, rest⟩
      · rfl
      · rw [py_replace_go, if_neg]
        · rw [ih rest (fun d hd => h d (List.mem_cons_of_mem c hd))]
        · rintro ⟨hne, hpre⟩
          rcases pat with _ | ⟨p0, pt⟩
          · exact hne rfl
          · simp only [List.isPrefixOf] at hpre
            have : p0 = c := by
              have := (Bool.and_eq_true _ _).mp hpre
              simpa using this.1
            exact h c (by simp) (by rw [this]; rfl)

theorem py_replace_id (pat t s : Text) (h : ∀ c ∈ s, pat.head? ≠ some c) :
    py_replace pat t s = s :=
  py_replace_go_id pat t s.length s h

theorem replace1_id (a : Nat) (t : Text) (s : Text) (h : a ∉ s) :
    replace1 a t s = s :=
  py_replace_id [a] t s (fun c hc he => h (by
    simp only [List.head?] at he
    rw [Option.some.injEq] at he
    rw [he]; exact hc))

theorem foldl_py_replace_id (L : List (Text × Text)) (s : Text)
    (h : ∀ p ∈ L, ∀ c ∈ s, p.1.head? ≠ some c) :
    L.foldl (fun s p => py_replace p.1 p.2 s) s = s := by
  induction L with
  | nil => rfl
  | cons p rest ih =>
      rw [List.foldl_cons, py_replace_id p.1 p.2 s (h p (by simp))]
      exact ih (fun q hq => h q (List.mem_cons_of_mem p hq))

theorem foldl_replace1_id (L : List Nat) (s : Text) (h : ∀ a ∈ L, a ∉ s) :
    L.foldl (fun s c => replace1 c [] s) s = s := by
  induction L with
  | nil => rfl
  | cons a rest ih =>
      rw [List.foldl_cons, replace1_id a [] s (h a (by simp))]
      exact ih (fun b hb => h b (List.mem_cons_of_mem a hb))

theorem foldl_sub_class_dict_id (rows : List DataRow) (L : List (Nat → Bool)) (s : Text)
    (h : ∀ cls ∈ L, ∀ c ∈ s, cls c = false) :
    L.foldl (fun s cls => sub_class_dict rows cls s) s = s := by
  induction L with
  | nil => rfl
  | cons cls rest ih =>
      rw [List.foldl_cons, sub_class_dict_id rows cls s (h cls (by simp))]
      exact ih (fun q hq => h q (List.mem_cons_of_mem cls hq))

theorem delete_vs_after_id (cls : Nat → Bool) :
    ∀ (s : Text) (prev : Option Nat), (∀ c ∈ s, cls c = false) →
      delete_vs_after cls prev s = s := by
  intro s
  induction s with
  | nil => intro _ _; rfl
  | cons c t ih =>
      intro prev h
      simp only [delete_vs_after]
      rw [if_neg, ih (some c) (fun d hd => h d (List.mem_cons_of_mem c hd))]
      intro hb
      have := (Bool.and_eq_true _ _).mp hb
      rw [h c (by simp)] at this
      exact Bool.false_ne_true this.1

theorem sub_seq2_dict_id (rows : List DataRow) (cls1 cls2 : Nat → Bool) :
    ∀ (s : Text), (∀ c ∈ s, cls1 c = false) → sub_seq2_dict rows cls1 cls2 s = s := by
  intro s
  induction s with
  | nil => intro _; rfl
  | cons x t ih =>
      intro h
      rcases t with _ | ⟨y, rest⟩
      · rfl
      · rw [sub_seq2_dict, if_neg, ih (fun d hd => h d (List.mem_cons_of_mem x hd))]
        intro hb
        have := (Bool.and_eq_true _ _).mp hb
        rw [h x (by simp)] at this
        exact Bool.false_ne_true this.1

theorem sub_seq3_dict_id (rows : List DataRow) (cls1 cls2 cls3 : Nat → Bool) :
    ∀ (s : Text), (∀ c ∈ s, cls1 c = false) → sub_seq3_dict rows cls1 cls2 cls3 s = s := by
  intro s
  induction s with
  | nil => intro _; rfl
  | cons x t ih =>
      intro h
      rcases t with _ | ⟨y, t2⟩
      · rfl
      · rcases t2 with _ | ⟨z, rest⟩
        · rfl
        · rw [sub_seq3_dict, if_neg, ih (fun d hd => h d (List.mem_cons_of_mem x hd))]
          intro hb
          have := (Bool.and_eq_true _ _).mp hb
          have h2 := (Bool.and_eq_true _ _).mp this.1
          rw [h x (by simp)] at h2
          exact Bool.false_ne_true h2.1

theorem sub_dot1_dict_id (rows : List DataRow) (cls : Nat → Bool) :
    ∀ (s : Text), (∀ c ∈ s, cls c = false) → sub_dot1_dict rows cls s = s := by
  intro s
  induction s with
  | nil => intro _; rfl
  | cons x t ih =>
      intro h
      rcases t with _ | ⟨y, rest⟩
      · rfl
      · rw [sub_dot1_dict, if_neg, ih (fun d hd => h d (List.mem_cons_of_mem x hd))]
        intro hb
        have := (Bool.and_eq_true _ _).mp hb
        rw [h y (by simp)] at this
        exact Bool.false_ne_true this.2

theorem sub_dot2_dict_id (rows : List DataRow) (cls : Nat → Bool) :
    ∀ (s : Text), (∀ c ∈ s, cls c = false) → sub_dot2_dict rows cls s = s := by
  intro s
  induction s with
  | nil => intro _; rfl
  | cons x t ih =>
      intro h
      rcases t with _ | ⟨y, t2⟩
      · rfl
      · rcases t2 with _ | ⟨z, rest⟩
        · rfl
        · rw [sub_dot2_dict, if_neg, ih (fun d hd => h d (List.mem_cons_of_mem x hd))]
          intro hb
          have := (Bool.and_eq_true _ _).mp hb
          rw [h z (by simp)] at this
          exact Bool.false_ne_true this.2

theorem sub_dot3_dict_id (rows : List DataRow) (cls : Nat → Bool) :
    ∀ (s : Text), (∀ c ∈ s, cls c = false) → sub_dot3_dict rows cls s = s := by
  intro s
  induction s with
  | nil => intro _; rfl
  | cons x t ih =>
      intro h
      rcases t with _ | ⟨y, t2⟩
      · rfl
      · rcases t2 with _ | ⟨z, t3⟩
        · rfl
        · rcases t3 with _ | ⟨w, rest⟩
          · rfl
          · rw [sub_dot3_dict, if_neg, ih (fun d hd => h d (List.mem_cons_of_mem x hd))]
            intro hb
            have := (Bool.and_eq_true _ _).mp hb
            rw [h w (by simp)] at this
            exact Bool.false_ne_true this.2

theorem insert_space_between_id_right (cls1 cls2 : Nat → Bool) :
    ∀ (s : Text), (∀ c ∈ s, cls2 c = false) → insert_space_between cls1 cls2 s = s := by
  intro s
  induction s with
  | nil => intro _; rfl
  | cons x t ih =>
      intro h
      rcases t with _ | ⟨y, rest⟩
      · rfl
      · rw [insert_space_between, if_neg, ih (fun d hd => h d (List.mem_cons_of_mem x hd))]
        intro hb
        have := (Bool.and_eq_true _ _).mp hb
        rw [h y (by simp)] at this
        exact Bool.false_ne_true this.2

theorem insert_space_between_id_left (cls1 cls2 : Nat → Bool) :
    ∀ (s : Text), (∀ c ∈ s, cls1 c = false) → insert_space_between cls1 cls2 s = s := by
  intro s
  induction s with
  | nil => intro _; rfl
  | cons x t ih =>
      intro h
      rcases t with _ | ⟨y, rest⟩
      · rfl
      · rw [insert_space_between, if_neg, ih (fun d hd => h d (List.mem_cons_of_mem x hd))]
        intro hb
        have := (Bool.and_eq_true _ _).mp hb
        rw [h x (by simp)] at this
        exact Bool.false_ne_true this.1

theorem strip_spaces_id (s : Text) (h : ∀ c ∈ s, c ≠ 0x09 ∧ c ≠ 0x0A) :
    strip_spaces_before_tab_newline s = s := by
  induction s with
  | nil => rfl
  | cons c t ih =>
      rw [strip_spaces_before_tab_newline, if_neg,
          ih (fun d hd => h d (List.mem_cons_of_mem c hd))]
      intro hb
      have hm := (Bool.and_eq_true _ _).mp hb
      rcases hd : t.dropWhile (fun x => x == 0x20) with _ | ⟨d, l⟩
      · rw [hd] at hm
        exact Bool.false_ne_true hm.2
      · rw [hd] at hm
        have hdm : d ∈ t := (List.dropWhile_sublist _).subset (hd ▸ List.mem_cons_self d l)
        have := h d (List.mem_cons_of_mem c hdm)
        rcases Bool.or_eq_true _ _ |>.mp hm.2 with h9 | h10
        · exact this.1 (by simpa using h9)
        · exact this.2 (by simpa using h10)

def ascii_off_mask : Nat :=
  char_is_encoding_repair_anchor ||| char_is_surrogate
  ||| char_is_deletable_control_character ||| char_is_arabic_tatweel
  ||| char_is_deletable_arabic_diacritic ||| char_is_deletable_hebrew_diacritic
  ||| char_is_core_compatibility ||| char_is_arabic_presentation_form
  ||| char_is_decomposable_ligature ||| char_is_decomposable_sign_symbol
  ||| char_is_decomposable_cjk ||| char_is_fullwidth_or_halfwidth
  ||| char_is_font_small_vertical ||| char_is_decomposable_enclosure
  ||| char_is_mappable_hangul ||| char_is_nukta
  ||| char_is_composable_anchor_with_combining ||| char_is_composable_combining_diacritic
  ||| char_is_decomposable_with_combining ||| char_is_decomposable_arabic_punctuation
  ||| char_is_decomposable_cjk_punctuation ||| char_is_decomposable_greek_punctuation
  ||| char_is_decomposable_misc_f_punctuation ||| char_is_decomposable_dash
  ||| char_is_decomposable_non_zero_space ||| char_is_mappable_decimal_digit
  ||| char_is_arabic ||| char_is_georgian ||| char_is_greek ||| char_is_cyrillic

set_option maxRecDepth 2000 in
theorem ascii_range_init_off : ∀ c, c < 0x7F → 0x20 ≤ c →
    range_init_char_type_vector c &&& ascii_off_mask = 0 := by decide

set_option maxRecDepth 2000 in
theorem georgian_find_none : ∀ c, c < 0x7F →
    georgian_trantab_pairs.find? (fun p => p.1 = c) = none := by decide

theorem ascii_repair_encoding_errors (rows : List DataRow) (s : Text)
    (hS : ∀ c ∈ s, 0x20 ≤ c ∧ c ≤ 0x7E) : repair_encoding_errors rows s = s := by
  simp only [repair_encoding_errors]
  rw [sub_class_dict_id rows (fun c => inR 0xDC80 0xDD00 c) s
        (fun c hc => by have := hS c hc; simp [inR]; omega),
      sub_seq3_dict_id rows (fun c => c == 0xE2) (fun c => inR 0x80 0xC0 c)
        (fun c => inR 0x80 0xC0 c) s
        (fun c hc => by have := hS c hc; simp; omega),
      sub_seq2_dict_id rows
        (fun c => c == 0xC2 || c == 0xC3 || c == 0xC5 || c == 0xC6 || c == 0xCB)
        (fun c => inR 0x80 0x300 c || inR 0x2000 0x2200 c) s
        (fun c hc => by have := hS c hc; simp; omega),
      sub_class_dict_id rows (fun c => inR 0x80 0xA0 c) s
        (fun c hc => by have := hS c hc; simp [inR]; omega)]

theorem ascii_delete_surrogates (s : Text)
    (hS : ∀ c ∈ s, 0x20 ≤ c ∧ c ≤ 0x7E) : delete_surrogates s = s :=
  sub_class_str_id (fun c => inR 0xDC80 0xDD00 c) [] s
    (fun c hc => by have := hS c hc; simp [inR]; omega)

theorem ascii_delete_zero_width_characters (s : Text)
    (hS : ∀ c ∈ s, 0x20 ≤ c ∧ c ≤ 0x7E) : delete_zero_width_characters s = s := by
  have hni : ∀ a : Nat, 0x7F ≤ a → a ∉ s := fun a ha hm => by have := hS a hm; omega
  simp only [delete_zero_width_characters]
  rw [replace1_id 0x00AD [] s (hni 0x00AD (by decide)),
      sub_class_str_id (fun c => inR 0x200B 0x2010 c) [] s
        (fun c hc => by have := hS c hc; simp [inR]; omega),
      replace1_id 0xFEFF [] s (hni 0xFEFF (by decide))]

theorem ascii_delete_arabic_tatweel (s : Text)
    (hS : ∀ c ∈ s, 0x20 ≤ c ∧ c ≤ 0x7E) : delete_arabic_tatweel s = s :=
  replace1_id 0x0640 [] s (fun hm => by have := hS _ hm; omega)

theorem ascii_delete_control_characters (s : Text)
    (hS : ∀ c ∈ s, 0x20 ≤ c ∧ c ≤ 0x7E) : delete_control_characters s = s := by
  simp only [delete_control_characters]
  rw [sub_class_str_id (fun c => inR 0x00 0x09 c) [] s
        (fun c hc => by have := hS c hc; simp [inR]; omega),
      sub_class_str_id (fun c => inR 0x0B 0x0D c) [] s
        (fun c hc => by have := hS c hc; simp [inR]; omega),
      sub_class_str_id (fun c => inR 0x0E 0x20 c) [] s
        (fun c hc => by have := hS c hc; simp [inR]; omega),
      sub_class_str_id (fun c => inR 0x7F 0xA0 c) [] s
        (fun c hc => by have := hS c hc; simp [inR]; omega),
      delete_vs_after_id (fun c => inR 0xFE00 0xFE10 c) s none
        (fun c hc => by have := hS c hc; simp [inR]; omega),
      delete_vs_after_id (fun c => inR 0xE0100 0xE01F0 c) s none
        (fun c hc => by have := hS c hc; simp [inR]; omega)]

theorem ascii_delete_arabic_diacritics (s : Text)
    (hS : ∀ c ∈ s, 0x20 ≤ c ∧ c ≤ 0x7E) : delete_arabic_diacritics s = s := by
  apply foldl_replace1_id
  intro a ha hm
  have h1 := hS a hm
  fin_cases ha <;> omega

theorem ascii_delete_hebrew_diacritics (s : Text)
    (hS : ∀ c ∈ s, 0x20 ≤ c ∧ c ≤ 0x7E) : delete_hebrew_diacritics s = s := by
  apply foldl_replace1_id
  intro a ha hm
  have h1 := hS a hm
  fin_cases ha <;> omega

theorem ascii_normalize_arabic_characters (s : Text)
    (hS : ∀ c ∈ s, 0x20 ≤ c ∧ c ≤ 0x7E) : normalize_arabic_characters s = s := by
  have hni : ∀ a : Nat, 0x7F ≤ a → a ∉ s := fun a ha hm => by have := hS a hm; omega
  simp only [normalize_arabic_characters]
  rw [replace1_id 0x6A9 [0x643] s (hni 0x6A9 (by decide)),
      replace1_id 0x6CC [0x64A] s (hni 0x6CC (by decide)),
      replace1_id 0x675 [0x623] s (hni 0x675 (by decide)),
      replace1_id 0x676 [0x624] s (hni 0x676 (by decide)),
      replace1_id 0x678 [0x626] s (hni 0x678 (by decide)),
      replace1_id 0x67C [0x62A] s (hni 0x67C (by decide)),
      replace1_id 0x689 [0x62F] s (hni 0x689 (by decide)),
      replace1_id 0x693 [0x631] s (hni 0x693 (by decide)),
      replace1_id 0x6AB [0x6AF] s (hni 0x6AB (by decide)),
      replace1_id 0x6BC [0x646] s (hni 0x6BC (by decide)),
      replace1_id 0x6CD [0x64A] s (hni 0x6CD (by decide))]

theorem ascii_normalize_farsi_characters (s : Text)
    (hS : ∀ c ∈ s, 0x20 ≤ c ∧ c ≤ 0x7E) : normalize_farsi_characters s = s := by
  have hni : ∀ a : Nat, 0x7F ≤ a → a ∉ s := fun a ha hm => by have := hS a hm; omega
  simp only [normalize_farsi_characters]
  rw [replace1_id 0x64A [0x6CC] s (hni 0x64A (by decide)),
      replace1_id 0x649 [0x6CC] s (hni 0x649 (by decide)),
      replace1_id 0x6CD [0x6CC] s (hni 0x6CD (by decide)),
      replace1_id 0x643 [0x6A9] s (hni 0x643 (by decide)),
      replace1_id 0x6AB [0x6AF] s (hni 0x6AB (by decide)),
      replace1_id 0x67C [0x62A] s (hni 0x67C (by decide)),
      replace1_id 0x689 [0x62F] s (hni 0x689 (by decide)),
      replace1_id 0x693 [0x631] s (hni 0x693 (by decide)),
      replace1_id 0x6BC [0x646] s (hni 0x6BC (by decide)),
      replace1_id 0x6CD [0x64A] s (hni 0x6CD (by decide))]

theorem ascii_normalize_pashto_characters (s : Text)
    (hS : ∀ c ∈ s, 0x20 ≤ c ∧ c ≤ 0x7E) : normalize_pashto_characters s = s := by
  have hni : ∀ a : Nat, 0x7F ≤ a → a ∉ s := fun a ha hm => by have := hS a hm; omega
  simp only [normalize_pashto_characters]
  rw [replace1_id 0x649 [0x6CC] s (hni 0x649 (by decide)),
      replace1_id 0x6CD [0x6CC] s (hni 0x6CD (by decide)),
      replace1_id 0x643 [0x6A9] s (hni 0x643 (by decide))]

theorem ascii_normalize_georgian_characters (s : Text)
    (hS : ∀ c ∈ s, 0x20 ≤ c ∧ c ≤ 0x7E) : normalize_georgian_characters s = s := by
  have hB7 : ∀ (t : Text), ∀ c ∈ s, (0xB7 :: t).head? ≠ some c := by
    intro t c hc he
    have := hS c hc
    simp only [List.head?, Option.some.injEq] at he
    omega
  simp only [normalize_georgian_characters]
  rw [map_id_of_eq _ s (fun c hc => by
        rw [georgian_find_none c (by have := hS c hc; omega)]),
      py_replace_id [0xB7, 0xC9, 0xB1] [0xB7, 0xC9, 0xEE] s (hB7 _),
      py_replace_id [0xB7, 0xC9, 0x2264] [0xB7, 0xC9, 0xF2] s (hB7 _),
      py_replace_id [0xB7, 0xC9, 0x2265] [0xB7, 0xC9, 0xEF, 0xB7, 0xC9, 0xF2] s (hB7 _),
      py_replace_id [0xB7, 0xC9, 0xA5] [0xB7, 0xC9, 0xC6, 0xB7, 0xC9, 0xEE] s (hB7 _),
      py_replace_id [0xB7, 0xC9, 0xB5] [0xB7, 0xC9, 0x221E, 0xB7, 0xC9, 0xF9, 0xB7, 0xC9, 0xF2] s
        (hB7 _)]

theorem ascii_normalize_arabic_pres_form_characters (rows : List DataRow) (s : Text)
    (hS : ∀ c ∈ s, 0x20 ≤ c ∧ c ≤ 0x7E) :
    normalize_arabic_pres_form_characters rows s = s :=
  sub_class_dict_id rows (fun c => inR 0xFB50 0xFE00 c || inR 0xFE70 0xFEFD c) s
    (fun c hc => by have := hS c hc; simp [inR]; omega)

theorem ascii_normalize_ligatures (s : Text)
    (hS : ∀ c ∈ s, 0x20 ≤ c ∧ c ≤ 0x7E) : normalize_ligatures s = s := by
  apply foldl_py_replace_id
  intro p hp c hc he
  have h1 := hS c hc
  fin_cases hp <;> simp only [List.head?, Option.some.injEq] at he <;> omega

theorem ascii_normalize_signs_and_symbols (s : Text)
    (hS : ∀ c ∈ s, 0x20 ≤ c ∧ c ≤ 0x7E) : normalize_signs_and_symbols s = s := by
  apply foldl_py_replace_id
  intro p hp c hc he
  have h1 := hS c hc
  fin_cases hp <;> simp only [List.head?, Option.some.injEq] at he <;> omega

theorem ascii_normalize_cjk (rows : List DataRow) (s : Text)
    (hS : ∀ c ∈ s, 0x20 ≤ c ∧ c ≤ 0x7E) : normalize_cjk rows s = s := by
  simp only [normalize_cjk]
  rw [sub_class_dict_id rows (fun c => inR 0x2F00 0x2FE0 c || inR 0x3038 0x303B c
        || c == 0x3250 || inR 0x32C0 0x3400 c || inR 0xF900 0xFB00 c) s
        (fun c hc => by have := hS c hc; simp [inR]; omega),
      sub_class_dict_id rows (fun c => c == 0x1F190 || c == 0x1F200 || inR 0x2F800 0x2FA20 c) s
        (fun c hc => by have := hS c hc; simp [inR]; omega)]

theorem ascii_apply_combining_modifiers_compose (rows : List DataRow) (s : Text)
    (hS : ∀ c ∈ s, 0x20 ≤ c ∧ c ≤ 0x7E) : apply_combining_modifiers_compose rows s = s := by
  have h1 : s.any compose_combining_class = false := by
    rw [List.any_eq_false]
    intro c hc
    have := hS c hc
    simp [compose_combining_class, inR]
    omega
  have h2 : s.any compose_south_asian_class = false := by
    rw [List.any_eq_false]
    intro c hc
    have := hS c hc
    simp [compose_south_asian_class, inR]
    omega
  simp only [apply_combining_modifiers_compose, h1, h2, Bool.false_eq_true, if_false]
  rw [py_replace_id [0x565, 0x582] [0x587] s (fun c hc he => by
        have := hS c hc
        simp only [List.head?, Option.some.injEq] at he
        omega)]

theorem ascii_apply_combining_modifiers_decompose (rows : List DataRow) (s : Text)
    (hS : ∀ c ∈ s, 0x20 ≤ c ∧ c ≤ 0x7E) : apply_combining_modifiers_decompose rows s = s := by
  have h1 : s.any (fun c => c == 0x344 || inR 0x958 0x960 c || inR 0x9DC 0xB5E c
      || inR 0xF43 0xFBA c || c == 0x2ADC || inR 0xFB1D 0xFB4F c) = false := by
    rw [List.any_eq_false]
    intro c hc
    have := hS c hc
    simp [inR]
    omega
  have h2 : s.any (fun c => inR 0x1D100 0x1D200 c) = false := by
    rw [List.any_eq_false]
    intro c hc
    have := hS c hc
    simp [inR]
    omega
  simp only [apply_combining_modifiers_decompose, h1, h2, Bool.false_eq_true, if_false]

theorem ascii_normalize_hangul (s : Text)
    (hS : ∀ c ∈ s, 0x20 ≤ c ∧ c ≤ 0x7E) : normalize_hangul s = s := by
  have h1 : s.any (fun c => inR 0x1161 0x1176 c) = false := by
    rw [List.any_eq_false]
    intro c hc
    have := hS c hc
    simp [inR]
    omega
  simp only [normalize_hangul, h1, Bool.false_eq_true, if_false]

theorem ascii_repair_combining_modifiers_with_nukta (lv : Nat) (s : Text)
    (hS : ∀ c ∈ s, 0x20 ≤ c ∧ c ≤ 0x7E) :
    repair_combining_modifiers_with_nukta lv s = s := by
  have hne : ∀ k : Nat, 0x7F ≤ k → ∀ c ∈ s, c ≠ k := fun k hk c hc he => by
    have := hS c hc; omega
  have hcl : ∀ k : Nat, 0x7F ≤ k → ∀ c ∈ s, (c == k) = false := fun k hk c hc => by
    have := hS c hc; simp; omega
  simp only [repair_combining_modifiers_with_nukta]
  rw [swap_vs_nukta_run_id (fun c => inR 0x93E 0x94E c) 0x93C s (hne 0x93C (by decide)),
      collapse_dup_id 0x93C s (hne 0x93C (by decide)), ite_self,
      swap_vs_nukta_run_id (fun c => inR 0x9BE 0x9CE c) 0x9BC s (hne 0x9BC (by decide)),
      swap_vs_nukta_run_id (fun c => inR 0xA3E 0xA4E c) 0xA3C s (hne 0xA3C (by decide)),
      swap_vs_nukta_run_id (fun c => inR 0xABE 0xACE c) 0xABC s (hne 0xABC (by decide)),
      swap_vs_nukta_run_id (fun c => inR 0xB3E 0xB4E c) 0xB3C s (hne 0xB3C (by decide)),
      swap_vs_nukta_run_id (fun c => inR 0xCBE 0xCCE c) 0xCBC s (hne 0xCBC (by decide)),
      collapse_dup_id 0x9BC s (hne 0x9BC (by decide)),
      collapse_dup_id 0xA3C s (hne 0xA3C (by decide)),
      collapse_dup_id 0xABC s (hne 0xABC (by decide)),
      collapse_dup_id 0xB3C s (hne 0xB3C (by decide)),
      collapse_dup_id 0xCBC s (hne 0xCBC (by decide)), ite_self,
      swap_pair_id (fun c => inR 0x1C26 0x1C2D c) (fun c => c == 0x1C37) s
        (hcl 0x1C37 (by decide)), ite_self,
      swap_pair_id (fun c => inR 0x110B0 0x110B9 c) (fun c => c == 0x110BA) s
        (hcl 0x110BA (by decide)),
      swap_pair_id (fun c => inR 0x111B3 0x111C1 c) (fun c => c == 0x111CA) s
        (hcl 0x111CA (by decide)),
      swap_pair_id (fun c => inR 0x1122C 0x11236 c) (fun c => c == 0x11236) s
        (hcl 0x11236 (by decide)),
      swap_pair_id (fun c => inR 0x112E0 0x112E9 c || c == 0x112EA) (fun c => c == 0x112E9) s
        (hcl 0x112E9 (by decide)),
      swap_pair_id (fun c => inR 0x1133E 0x1134E c) (fun c => c == 0x1133C) s
        (hcl 0x1133C (by decide)),
      swap_pair_id (fun c => inR 0x11435 0x11443 c) (fun c => c == 0x11446) s
        (hcl 0x11446 (by decide)),
      swap_pair_id (fun c => inR 0x114B0 0x114C3 c) (fun c => c == 0x114C3) s
        (hcl 0x114C3 (by decide)),
      swap_pair_id (fun c => inR 0x115AF 0x115C0 c) (fun c => c == 0x115C0) s
        (hcl 0x115C0 (by decide)),
      swap_pair_id (fun c => inR 0x116AD 0x116B7 c) (fun c => c == 0x116B7) s
        (hcl 0x116B7 (by decide)),
      swap_pair_id (fun c => inR 0x1182C 0x1183A c) (fun c => c == 0x1183A) s
        (hcl 0x1183A (by decide)),
      swap_pair_id (fun c => inR 0x11930 0x1193F c) (fun c => c == 0x11943) s
        (hcl 0x11943 (by decide)),
      swap_pair_id (fun c => inR 0x11D31 0x11D40 c || c == 0x11D45) (fun c => c == 0x11D42) s
        (hcl 0x11D42 (by decide)), ite_self]

theorem ascii_normalize_arabic_punctuation (s : Text)
    (hS : ∀ c ∈ s, 0x20 ≤ c ∧ c ≤ 0x7E) : normalize_arabic_punctuation s = s := by
  apply foldl_py_replace_id
  intro p hp c hc he
  have h1 := hS c hc
  fin_cases hp <;> simp only [List.head?, Option.some.injEq] at he <;> omega

theorem ascii_normalize_greek_punctuation (s : Text)
    (hS : ∀ c ∈ s, 0x20 ≤ c ∧ c ≤ 0x7E) : normalize_greek_punctuation s = s := by
  apply foldl_py_replace_id
  intro p hp c hc he
  have h1 := hS c hc
  fin_cases hp <;> simp only [List.head?, Option.some.injEq] at he <;> omega

theorem ascii_normalize_cjk_punctuation (s : Text)
    (hS : ∀ c ∈ s, 0x20 ≤ c ∧ c ≤ 0x7E) : normalize_cjk_punctuation s = s := by
  apply foldl_py_replace_id
  intro p hp c hc he
  have h1 := hS c hc
  fin_cases hp <;> simp only [List.head?, Option.some.injEq] at he <;> omega

theorem ascii_normalize_misc_f_punctuation (s : Text)
    (hS : ∀ c ∈ s, 0x20 ≤ c ∧ c ≤ 0x7E) : normalize_misc_f_punctuation s = s :=
  py_replace_id [0xF0C] [0xF0B] s (fun c hc he => by
    have := hS c hc
    simp only [List.head?, Option.some.injEq] at he
    omega)

theorem ascii_normalize_punctuation (rows : List DataRow) (s : Text)
    (hS : ∀ c ∈ s, 0x20 ≤ c ∧ c ≤ 0x7E) : normalize_punctuation rows s = s := by
  simp only [normalize_punctuation]
  rw [foldl_py_replace_id [([0xAB], [0x201C]), ([0xBB], [0x201D]), ([0x201A], [0x2018]),
        ([0x201B], [0x2018]), ([0x201E], [0x201C]), ([0x201F], [0x201C]),
        ([0x2039], [0x2018]), ([0x203A], [0x2019])] s (by
          intro p hp c hc he
          have h1 := hS c hc
          fin_cases hp <;> simp only [List.head?, Option.some.injEq] at he <;> omega),
      sub_class_dict_id rows (fun c => c == 0x2011 || inR 0x2024 0x2027 c
        || inR 0x2033 0x203D c || inR 0x2047 0x2058 c) s
        (fun c hc => by have := hS c hc; simp [inR]; omega),
      sub_class_dict_id rows (fun c => inR 0x2329 0x232B c || inR 0x2A74 0x2A77 c) s
        (fun c hc => by have := hS c hc; simp [inR]; omega),
      foldl_py_replace_id [([0x2212], [0x2D]), ([0x2215], [0x2F]), ([0x2216], [0x5C]),
        ([0x2217], [0x2A]), ([0x2218], [0x25E6]), ([0x2219], [0x2022]),
        ([0x2223], [0x7C]), ([0x2236], [0x3A]), ([0x2254], [0x3A, 0x3D]),
        ([0x2255], [0x3D, 0x3A]), ([0x22C5], [0xB7])] s (by
          intro p hp c hc he
          have h1 := hS c hc
          fin_cases hp <;> simp only [List.head?, Option.some.injEq] at he <;> omega),
      sub_class_dict_id rows (fun c => inR 0x222C 0x2231 c || c == 0x2A0C) s
        (fun c hc => by have := hS c hc; simp [inR]; omega),
      sub_class_dict_id rows (fun c => inR 0x2488 0x249C c || inR 0x1F100 0x1F10B c) s
        (fun c hc => by have := hS c hc; simp [inR]; omega)]

theorem ascii_normalize_dash_punctuation (s : Text)
    (hS : ∀ c ∈ s, 0x20 ≤ c ∧ c ≤ 0x7E) : normalize_dash_punctuation s = s := by
  simp only [normalize_dash_punctuation]
  rw [sub_class_str_id (fun c => inR 0x2010 0x2016 c) [0x2D] s
        (fun c hc => by have := hS c hc; simp [inR]; omega),
      foldl_py_replace_id [([0x2212], [0x2D]), ([0x2500], [0x2D]), ([0x2501], [0x2D]),
        ([0x2E3A], [0x2D]), ([0x2E3B], [0x2D])] s (by
          intro p hp c hc he
          have h1 := hS c hc
          fin_cases hp <;> simp only [List.head?, Option.some.injEq] at he <;> omega)]

theorem ascii_normalize_non_zero_spaces (s : Text)
    (hS : ∀ c ∈ s, 0x20 ≤ c ∧ c ≤ 0x7E) : normalize_non_zero_spaces s = s := by
  have hni : ∀ a : Nat, 0x7F ≤ a → a ∉ s := fun a ha hm => by have := hS a hm; omega
  simp only [normalize_non_zero_spaces]
  rw [replace1_id 0xA0 [0x20] s (hni 0xA0 (by decide)),
      sub_class_str_id (fun c => inR 0x2000 0x200B c) [0x20] s
        (fun c hc => by have := hS c hc; simp [inR]; omega),
      replace1_id 0x202F [0x20] s (hni 0x202F (by decide)),
      replace1_id 0x205F [0x20] s (hni 0x205F (by decide)),
      replace1_id 0x3000 [0x20] s (hni 0x3000 (by decide))]

theorem ascii_normalize_half_and_full_width_characters (rows : List DataRow) (s : Text)
    (hS : ∀ c ∈ s, 0x20 ≤ c ∧ c ≤ 0x7E) :
    normalize_half_and_full_width_characters rows s = s := by
  have h1 : s.any (fun c => inR 0xFF01 0xFFEF c) = false := by
    rw [List.any_eq_false]
    intro c hc
    have := hS c hc
    simp [inR]
    omega
  simp only [normalize_half_and_full_width_characters, h1, Bool.false_eq_true, if_false]

theorem ascii_normalize_font_characters (rows : List DataRow) (s : Text)
    (hS : ∀ c ∈ s, 0x20 ≤ c ∧ c ≤ 0x7E) : normalize_font_characters rows s = s :=
  sub_class_dict_id rows (fun c => inR 0x2102 0x214A c || inR 0xFB20 0xFB2A c
      || inR 0x1D400 0x1D800 c || inR 0x1EE00 0x1EEBC c || inR 0x1FBF0 0x1FBFA c) s
    (fun c hc => by have := hS c hc; simp [inR]; omega)

theorem ascii_normalize_small_characters (rows : List DataRow) (s : Text)
    (hS : ∀ c ∈ s, 0x20 ≤ c ∧ c ≤ 0x7E) : normalize_small_characters rows s = s :=
  sub_class_dict_id rows (fun c => inR 0xFE50 0xFE70 c) s
    (fun c hc => by have := hS c hc; simp [inR]; omega)

theorem ascii_normalize_vertical_characters (rows : List DataRow) (s : Text)
    (hS : ∀ c ∈ s, 0x20 ≤ c ∧ c ≤ 0x7E) : normalize_vertical_characters rows s = s :=
  sub_class_dict_id rows (fun c => c == 0x309F || c == 0x30FF || inR 0xFE10 0xFE1A c
      || inR 0xFE30 0xFE49 c) s
    (fun c hc => by have := hS c hc; simp [inR]; omega)

theorem ascii_normalize_enclosure_characters (rows : List DataRow) (s : Text)
    (hS : ∀ c ∈ s, 0x20 ≤ c ∧ c ≤ 0x7E) : normalize_enclosure_characters rows s = s := by
  simp only [normalize_enclosure_characters]
  rw [sub_class_dict_id rows (fun c => inR 0x2460 0x2489 c || inR 0x249C 0x2501 c
        || c == 0x3036 || inR 0x3200 0x3251 c || inR 0x3251 0x32C1 c || inR 0x32D0 0x3300 c) s
        (fun c hc => by have := hS c hc; simp [inR]; omega),
      sub_class_dict_id rows (fun c => inR 0x1F110 0x1F16B c || inR 0x1F201 0x1F261 c) s
        (fun c hc => by have := hS c hc; simp [inR]; omega)]

theorem ascii_normalize_core_compat_characters (rows : List DataRow) (s : Text)
    (hS : ∀ c ∈ s, 0x20 ≤ c ∧ c ≤ 0x7E) : normalize_core_compat_characters rows s = s := by
  simp only [normalize_core_compat_characters]
  rw [sub_class_dict_id rows (fun c => inR 0x2160 0x2180 c) s
        (fun c hc => by have := hS c hc; simp [inR]; omega),
      sub_class_dict_id rows (fun c => inR 0x3131 0x318F c) s
        (fun c hc => by have := hS c hc; simp [inR]; omega),
      sub_class_dict_id rows (fun c => c == 0x0E33 || c == 0x0EB3 || c == 0x0EDC || c == 0x0EDD) s
        (fun c hc => by have := hS c hc; simp [inR]; omega)]

theorem ascii_repair_arabic_tokenization (s : Text)
    (hS : ∀ c ∈ s, 0x20 ≤ c ∧ c ≤ 0x7E) : repair_arabic_tokenization s = s := by
  simp only [repair_arabic_tokenization]
  rw [insert_space_between_id_right is_detachable_char is_arabic_block_char s
        (fun c hc => by have := hS c hc; simp [is_arabic_block_char, inR]; omega),
      insert_space_between_id_left is_arabic_block_char is_detachable_char s
        (fun c hc => by have := hS c hc; simp [is_arabic_block_char, inR]; omega)]

theorem ascii_map_digits_to_ascii (rows : List DataRow) (lv : Nat) (s : Text)
    (hS : ∀ c ∈ s, 0x20 ≤ c ∧ c ≤ 0x7E) : map_digits_to_ascii rows lv s = s := by
  simp only [map_digits_to_ascii]
  rw [sub_class_dict_id rows (fun c => inR 0x660 0x66A c) s
        (fun c hc => by have := hS c hc; simp [inR]; omega),
      sub_class_dict_id rows (fun c => inR 0x6F0 0x6FA c) s
        (fun c hc => by have := hS c hc; simp [inR]; omega), ite_self,
      sub_class_dict_id rows (fun c => inR 0x7C0 0x7CA c) s
        (fun c hc => by have := hS c hc; simp [inR]; omega), ite_self,
      sub_class_dict_id rows (fun c => inR 0x966 0x970 c) s
        (fun c hc => by have := hS c hc; simp [inR]; omega), ite_self,
      foldl_sub_class_dict_id rows [inR 0x9E6 0x9F0, inR 0xA66 0xA70, inR 0xAE6 0xAF0,
        inR 0xB66 0xB70, inR 0xBE6 0xBF0, inR 0xC66 0xC70, inR 0xCE6 0xCF0, inR 0xD66 0xD70,
        inR 0xDE6 0xDF0] s (by
          intro cls hcls c hc
          have := hS c hc
          fin_cases hcls <;> simp [inR] <;> omega), ite_self,
      foldl_sub_class_dict_id rows [inR 0xE50 0xE5A, inR 0xED0 0xEDA, inR 0xF20 0xF2A,
        inR 0x1040 0x104A, inR 0x1090 0x109A] s (by
          intro cls hcls c hc
          have := hS c hc
          fin_cases hcls <;> simp [inR] <;> omega), ite_self,
      foldl_sub_class_dict_id rows [inR 0x17E0 0x17EA, inR 0x1810 0x181A, inR 0x1946 0x1950,
        inR 0x19D0 0x19DB, inR 0x1A80 0x1A8A, inR 0x1A90 0x1A9A, inR 0x1B50 0x1B5A,
        inR 0x1BB0 0x1BBA, inR 0x1C40 0x1C4A, inR 0x1C50 0x1C5A] s (by
          intro cls hcls c hc
          have := hS c hc
          fin_cases hcls <;> simp [inR] <;> omega), ite_self,
      foldl_sub_class_dict_id rows [inR 0xA620 0xA62A, inR 0xA8D0 0xA8DA, inR 0xA900 0xA90A,
        inR 0xA9D0 0xA9DA, inR 0xA9F0 0xA9FA, inR 0xAA50 0xAA5A, inR 0xABF0 0xABFA] s (by
          intro cls hcls c hc
          have := hS c hc
          fin_cases hcls <;> simp [inR] <;> omega), ite_self,
      foldl_sub_class_dict_id rows [inR 0x104A0 0x104AA, inR 0x10D30 0x10D3A,
        inR 0x11066 0x11070, inR 0x110F0 0x110FA, inR 0x11136 0x11140, inR 0x111D0 0x111DA,
        inR 0x112F0 0x112FA, inR 0x11450 0x1145A, inR 0x114D0 0x114DA, inR 0x11650 0x1165A,
        inR 0x116C0 0x116CA, inR 0x11730 0x1173A, inR 0x118E0 0x118EA, inR 0x11C50 0x11C5A,
        inR 0x11D50 0x11D5A, inR 0x11DA0 0x11DAA, inR 0x16A60 0x16A6A, inR 0x16B50 0x16B5A,
        inR 0x1E950 0x1E95A] s (by
          intro cls hcls c hc
          have := hS c hc
          fin_cases hcls <;> simp [inR] <;> omega), ite_self]

theorem and_of_mask_zero (lv bit mask : Nat) (h : lv &&& mask = 0) (hb : bit &&& mask = bit) :
    lv &&& bit = 0 := by
  calc lv &&& bit = lv &&& (bit &&& mask) := by rw [hb]
    _ = lv &&& (mask &&& bit) := by rw [Nat.and_comm bit mask]
    _ = (lv &&& mask) &&& bit := by rw [Nat.and_assoc]
    _ = 0 &&& bit := by rw [h]
    _ = 0 := Nat.zero_and bit

theorem ascii_char_type_vector_off (rows : List DataRow) (c : Nat)
    (h1 : 0x20 ≤ c) (h2 : c ≤ 0x7E) (hd : data_bits rows c = 0) :
    char_type_vector rows c &&& ascii_off_mask = 0 := by
  rw [char_type_vector, hd, Nat.or_zero]
  exact ascii_range_init_off c (by omega) h1

theorem ascii_char_script (rows : List DataRow) (c : Nat)
    (h1 : 0x20 ≤ c) (h2 : c ≤ 0x7E) (hd : data_bits rows c = 0) :
    char_script rows c = some Script.Latin ∨ char_script rows c = none := by
  have hm := ascii_char_type_vector_off rows c h1 h2 hd
  have hg : char_type_vector rows c &&& char_is_greek = 0 :=
    and_of_mask_zero _ _ _ hm (by decide)
  have hcy : char_type_vector rows c &&& char_is_cyrillic = 0 :=
    and_of_mask_zero _ _ _ hm (by decide)
  simp only [char_script]
  by_cases hl : char_type_vector rows c &&& char_is_latin ≠ 0
  · left; simp [hl]
  · right; simp [hl, hg, hcy]

theorem tokenize_go_ascii (rows : List DataRow) (tok : Text) (n : Nat) :
    ∀ (l : List Nat) (k : Nat) (token : Text) (script : Option Script) (ss : Nat) (lp : Bool),
      (∀ c ∈ l, char_script rows c = some Script.Latin ∨ char_script rows c = none) →
      (script = some Script.Latin ∨ script = none) →
      (List.foldl
        (fun (acc : Text × Option Script × Nat × Bool) (pc : Nat × Nat) =>
          let (token, script, script_start, lastPunct) := acc
          let (position, ch) := pc
          if ch = 0x2E ∨ ch = 0x2F ∨ ch = 0x5F ∨ ch = 0x2D then
            (token ++ [ch], script, script_start, true)
          else
            let new_script := char_script rows ch
            if new_script ≠ script then
              let split := 3 ≤ position - script_start
                  ∧ 3 ≤ n - position ∧ lastPunct = false
                  ∧ script.isSome ∧ new_script.isSome
                  ∧ new_script = char_script rows (tok.getD (position + 1) 0)
              ((if split then token ++ [0x20] else token) ++ [ch], new_script, position, false)
            else
              (token ++ [ch], script, script_start, false))
        (token, script, ss, lp) (List.enumFrom k l)).1 = token ++ l := by
  intro l
  induction l with
  | nil => intro k token script ss lp _ _; simp
  | cons ch rest ih =>
      intro k token script ss lp hgood hscr
      have hgrest : ∀ c ∈ rest, char_script rows c = some Script.Latin
          ∨ char_script rows c = none :=
        fun c hc => hgood c (List.mem_cons_of_mem ch hc)
      rw [List.enumFrom_cons, List.foldl_cons]
      simp only []
      by_cases hp : ch = 0x2E ∨ ch = 0x2F ∨ ch = 0x5F ∨ ch = 0x2D
      · rw [if_pos hp, ih (k + 1) (token ++ [ch]) script ss true hgrest hscr]
        simp
      · rw [if_neg hp]
        by_cases hns : char_script rows ch ≠ script
        · rw [if_pos hns, if_neg]
          · rw [ih (k + 1) (token ++ [ch]) (char_script rows ch) k false hgrest
                (hgood ch (List.mem_cons_self ch rest))]
            simp
          · rintro ⟨-, -, -, h4, h5, -⟩
            rcases hscr with h | h
            · rcases hgood ch (List.mem_cons_self ch rest) with hg | hg
              · exact hns (by rw [hg, h])
              · rw [hg] at h5; simp at h5
            · rw [h] at h4; simp at h4
        · rw [if_neg hns, ih (k + 1) (token ++ [ch]) script ss false hgrest hscr]
          simp

theorem tokenize_mixed_script_tokens_ascii (rows : List DataRow) (tok : Text)
    (hgood : ∀ c ∈ tok, char_script rows c = some Script.Latin ∨ char_script rows c = none) :
    tokenize_mixed_script_tokens rows tok = tok := by
  simp only [tokenize_mixed_script_tokens]
  have h0 : tok.enum = List.enumFrom 0 tok := rfl
  rw [h0, tokenize_go_ascii rows tok tok.length tok 0 [] none 0 false hgood (Or.inr rfl)]
  rfl

theorem ascii_n_scripts_le_one (rows : List DataRow) (tok : Text)
    (hgood : ∀ c ∈ tok, char_script rows c = some Script.Latin ∨ char_script rows c = none) :
    ¬ 2 ≤ n_scripts_of rows tok := by
  have hg : stat_script rows tok Script.Greek = 0 := by
    rw [stat_script, List.length_eq_zero, List.filter_eq_nil_iff]
    intro c hc
    rcases hgood c hc with h | h <;> simp [h]
  have hc : stat_script rows tok Script.Cyrillic = 0 := by
    rw [stat_script, List.length_eq_zero, List.filter_eq_nil_iff]
    intro c hc
    rcases hgood c hc with h | h <;> simp [h]
  by_cases hl : 1 ≤ stat_script rows tok Script.Latin <;>
    simp [n_scripts_of, List.filter_cons, hl, hg, hc]

theorem cla_process_token_ascii (rows : List DataRow) (st : LAState) (tok : Text)
    (hgood : ∀ c ∈ tok, char_script rows c = some Script.Latin ∨ char_script rows c = none) :
    cla_process_token rows st tok = (st, tok) := by
  have hn := ascii_n_scripts_le_one rows tok hgood
  have hct : cla_target rows st tok = none := by
    simp only [cla_target]
    rw [if_neg hn]
  have hretok := tokenize_mixed_script_tokens_ascii rows tok hgood
  simp only [cla_process_token, hct, hretok, hn]
  simp

theorem correct_look_alikes_go_ascii (rows : List DataRow) :
    ∀ (fuel : Nat) (st : LAState) (s : Text), s.length ≤ fuel →
      (∀ c ∈ s, char_script rows c = some Script.Latin ∨ char_script rows c = none) →
      0x0A ∉ s →
      correct_look_alikes_go rows fuel st s = (st, s) := by
  intro fuel
  induction fuel with
  | zero => intro st s _ _ _; rfl
  | succ k ih =>
      intro st s hlen hgood hnl
      rcases s with _ | ⟨c, t⟩
      · rfl
      · rcases hm : wb_match_token (c :: t) with _ | ⟨⟨w, tok, r0⟩⟩
        · simp only [correct_look_alikes_go, hm]
        · have hm0 := hm
          have hrlt := wb_match_token_rest_lt (c :: t) w tok r0 hm
          have hfind : (((c :: t).dropWhile is_py_space).drop
              (((c :: t).dropWhile is_py_space).takeWhile (fun c => !is_py_space c)).length).findIdx?
              (fun c => c == 0x0A) = none := by
            rw [List.findIdx?_eq_none_iff]
            intro x hx
            have hx1 : x ∈ c :: t :=
              (List.dropWhile_sublist _).subset (List.drop_subset _ _ hx)
            have hxne : x ≠ 0x0A := fun he => hnl (he ▸ hx1)
            simpa using hxne
          simp only [wb_match_token, hfind] at hm
          split at hm
          · simp at hm
          · simp only [Option.some.injEq, Prod.mk.injEq] at hm
            obtain ⟨hw, htok, hr⟩ := hm
            have htokmem : ∀ x ∈ tok, x ∈ c :: t := by
              intro x hx
              rw [← htok] at hx
              exact (List.dropWhile_sublist _).subset ((List.takeWhile_sublist _).subset hx)
            have hpt := cla_process_token_ascii rows st tok
              (fun x hx => hgood x (htokmem x hx))
            have hr0mem : ∀ x ∈ r0, x ∈ c :: t := by
              intro x hx
              rw [← hr] at hx
              exact (List.dropWhile_sublist _).subset (List.drop_subset _ _ hx)
            have hq := ih st r0 (by
                have := List.length_cons c t
                omega)
              (fun x hx => hgood x (hr0mem x hx)) (fun hx => hnl (hr0mem 0x0A hx))
            have hre : w ++ tok ++ r0 = c :: t := by
              rw [← hw, ← htok, ← hr]
              have h1 : ((c :: t).dropWhile is_py_space).takeWhile (fun c => !is_py_space c)
                  = ((c :: t).dropWhile is_py_space).take
                      ((((c :: t).dropWhile is_py_space).takeWhile
                         (fun c => !is_py_space c)).length) :=
                List.prefix_iff_eq_take.mp (List.takeWhile_prefix _)
              rw [List.append_assoc]
              conv_lhs => rw [h1]
              rw [List.length_take,
                  Nat.min_eq_left ((List.takeWhile_sublist _).length_le),
                  List.take_append_drop, List.takeWhile_append_dropWhile]
            simp only [correct_look_alikes_go, hm0, hpt, hq]
            rw [hre]

theorem ncs_group_snd_noop (ht : Ht) (name : String) (f : Text → Text) (loc : String)
    (s : Text) (hf : f s = s) : (ncs_group ht name f loc s).2 = s := by
  simp only [ncs_group, hf, ne_eq, not_true_eq_false]
  split
  · rfl
  · simp

theorem ascii_norm_clean_string (rows : List DataRow) (la : LAState) (ht : Ht)
    (lc lid : String) (s : Text)
    (hS : ∀ c ∈ s, 0x20 ≤ c ∧ c ≤ 0x7E)
    (hdata : ∀ c, 0x20 ≤ c → c ≤ 0x7E → data_bits rows c = 0)
    (hxml : repair_xml s = s) (hurl : repair_url_escapes s = s) :
    (norm_clean_string ⟨rows, la⟩ ht lc lid s).2.2 = s := by
  have hlv : set_lv rows s &&& ascii_off_mask = 0 :=
    (set_lv_and_eq_zero_iff rows s _).mpr (fun c hc =>
      ascii_char_type_vector_off rows c (hS c hc).1 (hS c hc).2
        (hdata c (hS c hc).1 (hS c hc).2))
  have hb_encoding_repair_anchor : set_lv rows s &&& char_is_encoding_repair_anchor = 0 :=
    and_of_mask_zero _ _ _ hlv (by decide)
  have hb_surrogate : set_lv rows s &&& char_is_surrogate = 0 :=
    and_of_mask_zero _ _ _ hlv (by decide)
  have hb_deletable_control_character : set_lv rows s &&& char_is_deletable_control_character = 0 :=
    and_of_mask_zero _ _ _ hlv (by decide)
  have hb_zero_width_character : set_lv rows s &&& char_is_zero_width_character = 0 :=
    and_of_mask_zero _ _ _ hlv (by decide)
  have hb_arabic_tatweel : set_lv rows s &&& char_is_arabic_tatweel = 0 :=
    and_of_mask_zero _ _ _ hlv (by decide)
  have hb_deletable_arabic_diacritic : set_lv rows s &&& char_is_deletable_arabic_diacritic = 0 :=
    and_of_mask_zero _ _ _ hlv (by decide)
  have hb_deletable_hebrew_diacritic : set_lv rows s &&& char_is_deletable_hebrew_diacritic = 0 :=
    and_of_mask_zero _ _ _ hlv (by decide)
  have hb_core_compatibility : set_lv rows s &&& char_is_core_compatibility = 0 :=
    and_of_mask_zero _ _ _ hlv (by decide)
  have hb_arabic_presentation_form : set_lv rows s &&& char_is_arabic_presentation_form = 0 :=
    and_of_mask_zero _ _ _ hlv (by decide)
  have hb_decomposable_ligature : set_lv rows s &&& char_is_decomposable_ligature = 0 :=
    and_of_mask_zero _ _ _ hlv (by decide)
  have hb_decomposable_sign_symbol : set_lv rows s &&& char_is_decomposable_sign_symbol = 0 :=
    and_of_mask_zero _ _ _ hlv (by decide)
  have hb_decomposable_cjk : set_lv rows s &&& char_is_decomposable_cjk = 0 :=
    and_of_mask_zero _ _ _ hlv (by decide)
  have hb_fullwidth_or_halfwidth : set_lv rows s &&& char_is_fullwidth_or_halfwidth = 0 :=
    and_of_mask_zero _ _ _ hlv (by decide)
  have hb_font_small_vertical : set_lv rows s &&& char_is_font_small_vertical = 0 :=
    and_of_mask_zero _ _ _ hlv (by decide)
  have hb_decomposable_enclosure : set_lv rows s &&& char_is_decomposable_enclosure = 0 :=
    and_of_mask_zero _ _ _ hlv (by decide)
  have hb_mappable_hangul : set_lv rows s &&& char_is_mappable_hangul = 0 :=
    and_of_mask_zero _ _ _ hlv (by decide)
  have hb_nukta : set_lv rows s &&& char_is_nukta = 0 :=
    and_of_mask_zero _ _ _ hlv (by decide)
  have hb_composable_anchor_with_combining : set_lv rows s &&& char_is_composable_anchor_with_combining = 0 :=
    and_of_mask_zero _ _ _ hlv (by decide)
  have hb_composable_combining_diacritic : set_lv rows s &&& char_is_composable_combining_diacritic = 0 :=
    and_of_mask_zero _ _ _ hlv (by decide)
  have hb_decomposable_with_combining : set_lv rows s &&& char_is_decomposable_with_combining = 0 :=
    and_of_mask_zero _ _ _ hlv (by decide)
  have hb_decomposable_arabic_punctuation : set_lv rows s &&& char_is_decomposable_arabic_punctuation = 0 :=
    and_of_mask_zero _ _ _ hlv (by decide)
  have hb_decomposable_cjk_punctuation : set_lv rows s &&& char_is_decomposable_cjk_punctuation = 0 :=
    and_of_mask_zero _ _ _ hlv (by decide)
  have hb_decomposable_greek_punctuation : set_lv rows s &&& char_is_decomposable_greek_punctuation = 0 :=
    and_of_mask_zero _ _ _ hlv (by decide)
  have hb_decomposable_misc_f_punctuation : set_lv rows s &&& char_is_decomposable_misc_f_punctuation = 0 :=
    and_of_mask_zero _ _ _ hlv (by decide)
  have hb_decomposable_dash : set_lv rows s &&& char_is_decomposable_dash = 0 :=
    and_of_mask_zero _ _ _ hlv (by decide)
  have hb_decomposable_non_zero_space : set_lv rows s &&& char_is_decomposable_non_zero_space = 0 :=
    and_of_mask_zero _ _ _ hlv (by decide)
  have hb_mappable_decimal_digit : set_lv rows s &&& char_is_mappable_decimal_digit = 0 :=
    and_of_mask_zero _ _ _ hlv (by decide)
  have hb_arabic : set_lv rows s &&& char_is_arabic = 0 :=
    and_of_mask_zero _ _ _ hlv (by decide)
  have hb_georgian : set_lv rows s &&& char_is_georgian = 0 :=
    and_of_mask_zero _ _ _ hlv (by decide)
  have hb_greek : set_lv rows s &&& char_is_greek = 0 :=
    and_of_mask_zero _ _ _ hlv (by decide)
  have hb_cyrillic : set_lv rows s &&& char_is_cyrillic = 0 :=
    and_of_mask_zero _ _ _ hlv (by decide)
  have hns : ¬ 2 ≤ (([char_is_latin, char_is_greek, char_is_cyrillic].filter
      (fun b => set_lv rows s &&& b ≠ 0)).length) := by
    by_cases hl : set_lv rows s &&& char_is_latin ≠ 0 <;>
      simp [List.filter_cons, hl, hb_greek, hb_cyrillic]
  have hns2 : ¬ 2 ≤ ((List.filter (fun b => !decide (set_lv rows s &&& b = 0))
      [char_is_latin, char_is_greek, char_is_cyrillic]).length) := by
    by_cases hl : set_lv rows s &&& char_is_latin = 0 <;>
      simp [List.filter_cons, hl, hb_greek, hb_cyrillic]
  have hstrip : strip_spaces_before_tab_newline s = s :=
    strip_spaces_id s (fun c hc => by have := hS c hc; omega)
  simp only [norm_clean_string, norm_clean_string_core]
  simp [hns2, hb_encoding_repair_anchor, hb_surrogate, hb_deletable_control_character, hb_zero_width_character, hb_arabic_tatweel, hb_deletable_arabic_diacritic, hb_deletable_hebrew_diacritic, hb_core_compatibility, hb_arabic_presentation_form, hb_decomposable_ligature, hb_decomposable_sign_symbol, hb_decomposable_cjk, hb_fullwidth_or_halfwidth, hb_font_small_vertical, hb_decomposable_enclosure, hb_mappable_hangul, hb_nukta, hb_composable_anchor_with_combining, hb_composable_combining_diacritic, hb_decomposable_with_combining, hb_decomposable_arabic_punctuation, hb_decomposable_cjk_punctuation, hb_decomposable_greek_punctuation, hb_decomposable_misc_f_punctuation, hb_decomposable_dash, hb_decomposable_non_zero_space, hb_mappable_decimal_digit, hb_arabic, hb_georgian, hb_greek, hb_cyrillic, hns, hstrip, ncs_group_snd_noop _ _ _ _ _ hxml,
        ncs_group_snd_noop _ _ _ _ _ hurl, apply_ite Prod.snd]

theorem ascii_correct_look_alikes (rows : List DataRow) (st : LAState) (s : Text)
    (hS : ∀ c ∈ s, 0x20 ≤ c ∧ c ≤ 0x7E)
    (hdata : ∀ c, 0x20 ≤ c → c ≤ 0x7E → data_bits rows c = 0) :
    correct_look_alikes rows st s = (st, s) :=
  correct_look_alikes_go_ascii rows s.length st s (Nat.le_refl _)
    (fun c hc => ascii_char_script rows c (hS c hc).1 (hS c hc).2
      (hdata c (hS c hc).1 (hS c hc).2))
    (fun hx => by have := hS 0x0A hx; omega)

/-- C5 (amended).  For every string of printable ASCII characters
(0x20-0x7E; letters, digits and punctuation), provided the loaded
mapping tables contribute no classification bits to ASCII characters:
every normalization pass except `repair_xml` and `repair_url_escapes`
returns the string unchanged, and the full pipeline under any
configuration returns it unchanged whenever `repair_xml` and
`repair_url_escapes` also leave it unchanged.  (The original claim —
that EVERY pass and the pipeline leave every such string unchanged — is
false: `repair_xml` rewrites the ASCII string `&amp;amp;quot;`, see the
counterexample.) -/
theorem C5_ascii_printable_noop (rows : List DataRow) (la : LAState) (ht : Ht)
    (lc lid : String) (lv : Nat) (s : Text)
    (hS : ∀ c ∈ s, 0x20 ≤ c ∧ c ≤ 0x7E)
    (hdata : ∀ c, 0x20 ≤ c → c ≤ 0x7E → data_bits rows c = 0)
    (hxml : repair_xml s = s) (hurl : repair_url_escapes s = s) :
    (norm_clean_string ⟨rows, la⟩ ht lc lid s).2.2 = s
    ∧ repair_encoding_errors rows s = s
    ∧ delete_surrogates s = s
    ∧ delete_control_characters s = s
    ∧ delete_zero_width_characters s = s
    ∧ delete_arabic_tatweel s = s
    ∧ delete_arabic_diacritics s = s
    ∧ delete_hebrew_diacritics s = s
    ∧ normalize_core_compat_characters rows s = s
    ∧ normalize_arabic_pres_form_characters rows s = s
    ∧ normalize_ligatures s = s
    ∧ normalize_signs_and_symbols s = s
    ∧ normalize_cjk rows s = s
    ∧ normalize_half_and_full_width_characters rows s = s
    ∧ normalize_font_characters rows s = s
    ∧ normalize_small_characters rows s = s
    ∧ normalize_vertical_characters rows s = s
    ∧ normalize_enclosure_characters rows s = s
    ∧ normalize_hangul s = s
    ∧ repair_combining_modifiers_with_nukta lv s = s
    ∧ apply_combining_modifiers_compose rows s = s
    ∧ apply_combining_modifiers_decompose rows s = s
    ∧ normalize_punctuation rows s = s
    ∧ normalize_arabic_punctuation s = s
    ∧ normalize_cjk_punctuation s = s
    ∧ normalize_greek_punctuation s = s
    ∧ normalize_misc_f_punctuation s = s
    ∧ normalize_dash_punctuation s = s
    ∧ normalize_non_zero_spaces s = s
    ∧ map_digits_to_ascii rows lv s = s
    ∧ normalize_arabic_characters s = s
    ∧ normalize_farsi_characters s = s
    ∧ normalize_pashto_characters s = s
    ∧ normalize_georgian_characters s = s
    ∧ correct_look_alikes rows la s = (la, s)
    ∧ repair_arabic_tokenization s = s
    ∧ strip_spaces_before_tab_newline s = s :=
  ⟨ascii_norm_clean_string rows la ht lc lid s hS hdata hxml hurl,
   ascii_repair_encoding_errors rows s hS,
   ascii_delete_surrogates s hS,
   ascii_delete_control_characters s hS,
   ascii_delete_zero_width_characters s hS,
   ascii_delete_arabic_tatweel s hS,
   ascii_delete_arabic_diacritics s hS,
   ascii_delete_hebrew_diacritics s hS,
   ascii_normalize_core_compat_characters rows s hS,
   ascii_normalize_arabic_pres_form_characters rows s hS,
   ascii_normalize_ligatures s hS,
   ascii_normalize_signs_and_symbols s hS,
   ascii_normalize_cjk rows s hS,
   ascii_normalize_half_and_full_width_characters rows s hS,
   ascii_normalize_font_characters rows s hS,
   ascii_normalize_small_characters rows s hS,
   ascii_normalize_vertical_characters rows s hS,
   ascii_normalize_enclosure_characters rows s hS,
   ascii_normalize_hangul s hS,
   ascii_repair_combining_modifiers_with_nukta lv s hS,
   ascii_apply_combining_modifiers_compose rows s hS,
   ascii_apply_combining_modifiers_decompose rows s hS,
   ascii_normalize_punctuation rows s hS,
   ascii_normalize_arabic_punctuation s hS,
   ascii_normalize_cjk_punctuation s hS,
   ascii_normalize_greek_punctuation s hS,
   ascii_normalize_misc_f_punctuation s hS,
   ascii_normalize_dash_punctuation s hS,
   ascii_normalize_non_zero_spaces s hS,
   ascii_map_digits_to_ascii rows lv s hS,
   ascii_normalize_arabic_characters s hS,
   ascii_normalize_farsi_characters s hS,
   ascii_normalize_pashto_characters s hS,
   ascii_normalize_georgian_characters s hS,
   ascii_correct_look_alikes rows la s hS hdata,
   ascii_repair_arabic_tokenization s hS,
   strip_spaces_id s (fun c hc => by have := hS c hc; omega)⟩

/-- C5 counterexample.  The string `&amp;amp;quot;` consists solely of
ASCII letters and basic punctuation, yet `repair_xml` (and hence the
full pipeline, whose ampersand/semicolon gate fires) rewrites it to
`&quot;`. -/
theorem C5_counterexample_ascii_xml_escapes_changed :
    (∀ c ∈ ([0x26, 0x61, 0x6D, 0x70, 0x3B, 0x61, 0x6D, 0x70, 0x3B,
             0x71, 0x75, 0x6F, 0x74, 0x3B] : Text), 0x20 ≤ c ∧ c ≤ 0x7E)
    ∧ repair_xml [0x26, 0x61, 0x6D, 0x70, 0x3B, 0x61, 0x6D, 0x70, 0x3B,
                  0x71, 0x75, 0x6F, 0x74, 0x3B]
        = [0x26, 0x71, 0x75, 0x6F, 0x74, 0x3B]
    ∧ (norm_clean_string ⟨[], la0⟩ [] "" ""
        [0x26, 0x61, 0x6D, 0x70, 0x3B, 0x61, 0x6D, 0x70, 0x3B,
         0x71, 0x75, 0x6F, 0x74, 0x3B]).2.2
        = [0x26, 0x71, 0x75, 0x6F, 0x74, 0x3B] := by
  decide

/-- Closed witness for C5: the ASCII string `Hello.` passes through the
full pipeline unchanged (with no data rows loaded). -/
theorem C5_ascii_printable_noop_witness :
    (∀ c ∈ ([0x48, 0x65, 0x6C, 0x6C, 0x6F, 0x2E] : Text), 0x20 ≤ c ∧ c ≤ 0x7E)
    ∧ repair_xml [0x48, 0x65, 0x6C, 0x6C, 0x6F, 0x2E] = [0x48, 0x65, 0x6C, 0x6C, 0x6F, 0x2E]
    ∧ (norm_clean_string ⟨[], la0⟩ [] "" "" [0x48, 0x65, 0x6C, 0x6C, 0x6F, 0x2E]).2.2
        = [0x48, 0x65, 0x6C, 0x6C, 0x6F, 0x2E] := by
  refine ⟨by decide, by decide, ?_⟩
  exact (C5_ascii_printable_noop [] la0 [] "" "" 0 [0x48, 0x65, 0x6C, 0x6C, 0x6F, 0x2E]
    (by decide) (fun c h1 h2 => rfl) (by decide) (by decide)).1

/-- Closed witness for C4: on the two-jamo string U+1100 U+1161 (which
satisfies the vowel-jamo gate) the checked scanner returns `some`. -/
theorem C4_normalize_hangul_never_raises_witness :
    normalize_hangul_scan_checked [0x1100, 0x1161]
      = some (normalize_hangul_scan [0x1100, 0x1161])
    ∧ ([0x1100, 0x1161].any (fun c => inR 0x1161 0x1176 c) = true
        ∧ normalize_hangul_scan_checked [0x1100, 0x1161]
          = some (normalize_hangul [0x1100, 0x1161])) :=
  ⟨(C4_normalize_hangul_never_raises [0x1100, 0x1161]).1,
   by decide,
   (C4_normalize_hangul_never_raises [0x1100, 0x1161]).2 (by decide)⟩
